import Mathlib

/-! # SAS XPT transport-file reader: a shallow embedding

Source files embedded here:

* `math/math.go`   : `IbmToIEEE`
* `reader.go`      : `NewXptReader`, `checkHeader`, `readHeader`, `readVariables`,
                     `Reader.Read` and the `GetDataForVariable` closure

Conventions.

* A Go `[]byte` and a Go `string` are both a `List Byte`; a byte is a `Fin 256`.
* Go `uint64` / `uint16` values are natural numbers, every operation that can leave
  the word is followed by an explicit `% 2 ^ 64` / `% 2 ^ 16`.
* Go `int` values are integers (the only ones that occur are products of two
  numbers parsed from four characters, far from the 64-bit range).
* A Go call ends in one of three ways, see `Res`: a value, an `error`, or a
  run-time panic.
* The `*bufio.Reader` handed to `NewXptReader` is a `BufReader`: a buffer of a
  given size over a `strings.Reader`, as the tests of the repository build it.
  `Peek`, `Read` and `io.ReadFull` follow the Go library, with its limits: a
  look-ahead is bounded by the buffer, a `Read` hands over what is buffered.
* A `float64` is represented by its IEEE-754 bit pattern (a natural number below
  `2 ^ 64`); `float64Value` gives the rational number a finite pattern denotes.
* Definitions marked `Specification side` follow the words of the specification
  and are compared with the embedded code (`ibmValue`, `decimalValue`, `be16`,
  `decodeVariable`, `wellFormed`); the input of a reader, what the specification
  calls the stream, is `BufReader.unread`.  `BufReader.wf` describes the states a
  reader can be in, `BufReader.holdsInput` the readers whose buffer holds the
  whole input.
-/

namespace Xpt

/-! ## Bytes and strings -/

/-- One octet. -/
abbrev Byte := Fin 256

/-- The bytes of an ASCII string literal of the source. -/
def ascii (s : String) : List Byte := s.toList.map (fun c => Fin.ofNat c.toNat)

/-! ## `math/math.go` -/

/-- Go `binary.BigEndian.Uint64(b)`:
`uint64(b[7]) | uint64(b[6])<<8 | ... | uint64(b[0])<<56`, after the bounds check
`_ = b[7]`, which panics (`none`) on a slice shorter than eight bytes. -/
def Uint64 : List Byte → Option Nat
  | b0 :: b1 :: b2 :: b3 :: b4 :: b5 :: b6 :: b7 :: _ =>
      some (b7.val ||| b6.val <<< 8 ||| b5.val <<< 16 ||| b4.val <<< 24 |||
        b3.val <<< 32 ||| b2.val <<< 40 ||| b1.val <<< 48 ||| b0.val <<< 56)
  | _ => none

/-- The normalization shift of `IbmToIEEE` (math.go lines 33-40), chosen from
bits 55, 54, 53 of the word. -/
def ibmShift (bbits : Nat) : Nat :=
  if bbits &&& 0x0080000000000000 > 0 then 3
  else if bbits &&& 0x0040000000000000 > 0 then 2
  else if bbits &&& 0x0020000000000000 > 0 then 1
  else 0

/-- The body of `IbmToIEEE` after the word has been read (math.go lines 21-59):
from the IBM word `bbits` to the IEEE-754 bit pattern `ieee`.  The `uint64`
subtraction `exponent -= 65` wraps, as do the shifts and the addition. -/
def ibmWordToIEEE (bbits : Nat) : Nat :=
  let sign := bbits &&& 0x8000000000000000
  let exponent := (bbits &&& 0x7f00000000000000) >>> 56
  let mantissa := bbits &&& 0x00ffffffffffffff
  -- `if mantissa == 0 { }` : the branch is empty in the source
  let shift := ibmShift bbits
  let mantissa := mantissa >>> shift
  let mantissa := mantissa &&& 0xffefffffffffffff
  let exponent := (exponent + 2 ^ 64 - 65) % 2 ^ 64
  let exponent := (exponent <<< 2) % 2 ^ 64
  let exponent := (exponent + shift + 1023) % 2 ^ 64
  sign ||| ((exponent <<< 52) % 2 ^ 64) ||| mantissa

/-- Go `IbmToIEEE(bytes)`: the bit pattern of the returned `float64`
(`math.Float64frombits(ieee)`), or `none` when `binary.BigEndian.Uint64` panics.
The `fmt.Println` calls of the source write to standard output only. -/
def IbmToIEEE (bytes : List Byte) : Option Nat :=
  (Uint64 bytes).map ibmWordToIEEE

/-- Sign bit of a binary64 bit pattern. -/
def f64Sign (bits : Nat) : Nat := bits / 2 ^ 63 % 2

/-- The 11-bit biased exponent field of a binary64 bit pattern. -/
def f64Exp (bits : Nat) : Nat := bits / 2 ^ 52 % 2048

/-- The 52-bit fraction field of a binary64 bit pattern. -/
def f64Frac (bits : Nat) : Nat := bits % 2 ^ 52

/-- IEEE-754 binary64: the rational number denoted by a bit pattern, `none` for
an infinity or a NaN (exponent field 2047). -/
def float64Value (bits : Nat) : Option ℚ :=
  if f64Exp bits = 2047 then none
  else if f64Exp bits = 0 then
    some ((-1) ^ f64Sign bits * (f64Frac bits : ℚ) * 2 ^ (-1074 : ℤ))
  else
    some ((-1) ^ f64Sign bits * ((2 ^ 52 + f64Frac bits : ℕ) : ℚ) *
      2 ^ ((f64Exp bits : ℤ) - 1075))

/-- Sign bit of an IBM hexadecimal floating-point word. -/
def ibmSign (bbits : Nat) : Nat := bbits / 2 ^ 63 % 2

/-- The 7-bit excess-64 exponent of an IBM word. -/
def ibmExponent (bbits : Nat) : Nat := bbits / 2 ^ 56 % 128

/-- The 56-bit mantissa of an IBM word. -/
def ibmMantissa (bbits : Nat) : Nat := bbits % 2 ^ 56

/-- Specification side: the number an IBM hexadecimal floating-point word
represents, `(-1)^sign * mantissa * 2^-56 * 16^(exponent - 64)`. -/
def ibmValue (bbits : Nat) : ℚ :=
  (-1) ^ ibmSign bbits * (ibmMantissa bbits : ℚ) * 2 ^ (-56 : ℤ) *
    16 ^ ((ibmExponent bbits : ℤ) - 64)

/-! ## Library functions used by `reader.go` -/

/-- Go `bytes.Contains(b, sub)`: `sub` occurs in `b` as a contiguous run. -/
def bytesContains : List Byte → List Byte → Bool
  | [], sub => sub.isEmpty
  | c :: t, sub => sub.isPrefixOf (c :: t) || bytesContains t sub

/-- Go `s[lo:hi]` on a slice whose capacity is its length: a run-time panic
(`none`) unless `lo ≤ hi ≤ len(s)`. -/
def slice (s : List Byte) (lo hi : Nat) : Option (List Byte) :=
  if lo ≤ hi ∧ hi ≤ s.length then some ((s.take hi).drop lo) else none

/-- Go `binary.BigEndian.Uint16(b)`: `uint16(b[1]) | uint16(b[0])<<8`, a panic
(`none`) on a slice shorter than two bytes. -/
def Uint16 : List Byte → Option Nat
  | b0 :: b1 :: _ => some (b1.val ||| b0.val <<< 8)
  | _ => none

/-- Decimal rendering of a natural number (`%v` of a non-negative Go `int`). -/
def decimal (n : Nat) : List Byte := (Nat.toDigits 10 n).map (fun c => Fin.ofNat c.toNat)

/-- Decimal rendering of a Go `int` under `%v`. -/
def itoa : Int → List Byte
  | Int.ofNat n => decimal n
  | Int.negSucc n => ascii "-" ++ decimal (n + 1)

/-- Go `error` values that occur.  `numError pre num` is an error whose text is
`pre` followed by the text of the `*strconv.NumError` that `strconv.Atoi` returns for
the malformed number `num`. -/
inductive GoError
  | EOF
  | ErrUnexpectedEOF
  | ErrNegativeCount
  | ErrBufferFull
  | errorString (msg : List Byte)
  | numError (pre : List Byte) (num : List Byte)
deriving DecidableEq, Repr

/-- Go `fmt.Errorf(pre + "%v", err)` (equally `fmt.Errorf(pre + "%v", err.Error())`):
the error whose text is `pre` followed by the text of `err`. -/
def errorfV (pre : List Byte) : GoError → GoError
  | .EOF => .errorString (pre ++ ascii "EOF")
  | .ErrUnexpectedEOF => .errorString (pre ++ ascii "unexpected EOF")
  | .ErrNegativeCount => .errorString (pre ++ ascii "bufio: negative count")
  | .ErrBufferFull => .errorString (pre ++ ascii "bufio: buffer full")
  | .errorString msg => .errorString (pre ++ msg)
  | .numError p num => .numError (pre ++ p) num

/-- The digit loop of `strconv.Atoi`: `ch -= '0'; if ch > 9 { syntax error };
n = n*10 + int(ch)`. -/
def atoiDigits : List Byte → Nat → Option Nat
  | [], n => some n
  | ch :: t, n =>
      if (ch.val + 256 - 48) % 256 > 9 then none
      else atoiDigits t (n * 10 + (ch.val + 256 - 48) % 256)

/-- Go `strconv.Atoi(s)`, the path taken for inputs of fewer than 19 bytes (the
reader calls it on four-byte slices only): an optional sign, then decimal digits. -/
def Atoi (s : List Byte) : Except GoError Int :=
  match s with
  | [] => .error (.numError [] s)
  | c :: t =>
      let digits := if c = 45 ∨ c = 43 then t else s
      if digits.length < 1 then .error (.numError [] s)
      else match atoiDigits digits 0 with
        | none => .error (.numError [] s)
        | some n => if c = 45 then .ok (-(n : Int)) else .ok (n : Int)

/-- The replacement rune `utf8.RuneError`. -/
def RuneError : Nat := 0xFFFD

/-- Go `unicode.IsSpace`. -/
def IsSpace (r : Nat) : Bool :=
  if r ≤ 0xFF then
    decide (r = 9 ∨ r = 10 ∨ r = 11 ∨ r = 12 ∨ r = 13 ∨ r = 32 ∨ r = 0x85 ∨ r = 0xA0)
  else
    decide (r = 0x1680 ∨ (0x2000 ≤ r ∧ r ≤ 0x200a) ∨ r = 0x2028 ∨ r = 0x2029 ∨
      r = 0x202f ∨ r = 0x205f ∨ r = 0x3000)

/-- Go `utf8.DecodeRuneInString`: the first rune of `s` and its width in bytes;
`(RuneError, 1)` for an invalid encoding, `(RuneError, 0)` for the empty string. -/
def DecodeRune (s : List Byte) : Nat × Nat :=
  match s with
  | [] => (RuneError, 0)
  | s0 :: t =>
    if s0.val < 0x80 then (s0.val, 1)
    else if s0.val < 0xC2 ∨ 0xF4 < s0.val then (RuneError, 1)
    else
      let sz := if s0.val < 0xE0 then 2 else if s0.val < 0xF0 then 3 else 4
      let lo := if s0.val = 0xE0 then 0xA0 else if s0.val = 0xF0 then 0x90 else 0x80
      let hi := if s0.val = 0xED then 0x9F else if s0.val = 0xF4 then 0x8F else 0xBF
      if s.length < sz then (RuneError, 1)
      else match t with
        | [] => (RuneError, 1)
        | s1 :: t1 =>
          if s1.val < lo ∨ hi < s1.val then (RuneError, 1)
          else if sz ≤ 2 then ((s0.val &&& 0x1F) <<< 6 ||| (s1.val &&& 0x3F), 2)
          else match t1 with
            | [] => (RuneError, 1)
            | s2 :: t2 =>
              if s2.val < 0x80 ∨ 0xBF < s2.val then (RuneError, 1)
              else if sz ≤ 3 then
                ((s0.val &&& 0x0F) <<< 12 ||| (s1.val &&& 0x3F) <<< 6 ||| (s2.val &&& 0x3F), 3)
              else match t2 with
                | [] => (RuneError, 1)
                | s3 :: _ =>
                  if s3.val < 0x80 ∨ 0xBF < s3.val then (RuneError, 1)
                  else ((s0.val &&& 0x07) <<< 18 ||| (s1.val &&& 0x3F) <<< 12 |||
                    (s2.val &&& 0x3F) <<< 6 ||| (s3.val &&& 0x3F), 4)

/-- Go `utf8.RuneStart`. -/
def RuneStart (b : Byte) : Bool := b.val &&& 0xC0 != 0x80

/-- Go `utf8.DecodeLastRuneInString`, on the reversed string `rs`: the last rune
and its width.  The start of the rune is searched among the three bytes before
the last one. -/
def DecodeLastRune (rs : List Byte) : Nat × Nat :=
  match rs with
  | [] => (RuneError, 0)
  | l :: before =>
    if l.val < 0x80 then (l.val, 1)
    else
      let check := fun (k : Nat) =>
        let (r, size) := DecodeRune ((rs.take k).reverse)
        if size = k then (r, size) else (RuneError, 1)
      match before with
      | [] => check 1
      | a :: before2 =>
        if RuneStart a then check 2
        else match before2 with
          | [] => (RuneError, 1)
          | b :: before3 =>
            if RuneStart b then check 3
            else match before3 with
              | [] => (RuneError, 1)
              | c :: _ => if RuneStart c then check 4 else (RuneError, 1)

/-- Go `strings.TrimLeftFunc(s, unicode.IsSpace)`; `fuel` bounds the number of
runes, `s.length` is enough. -/
def trimLeftSpace : Nat → List Byte → List Byte
  | 0, s => s
  | fuel + 1, s =>
    match s with
    | [] => []
    | _ :: _ =>
      if IsSpace (DecodeRune s).1 then trimLeftSpace fuel (s.drop (DecodeRune s).2) else s

/-- Go `lastIndexFunc(s, unicode.IsSpace, false)` on the reversed string: the
reversed prefix of `s` that ends with its last non-space rune, paired with that
rune's bytes as found going backwards; `none` when every rune is a space. -/
def lastNonSpace : Nat → List Byte → Option (List Byte)
  | 0, _ => none
  | fuel + 1, rs =>
    match rs with
    | [] => none
    | _ :: _ =>
      if IsSpace (DecodeLastRune rs).1 then lastNonSpace fuel (rs.drop (DecodeLastRune rs).2)
      else some rs

/-- Go `strings.TrimRightFunc(s, unicode.IsSpace)`: up to the index `i` of the
last non-space rune, plus the forward width of the rune at `i`. -/
def trimRightSpace (s : List Byte) : List Byte :=
  match lastNonSpace s.length s.reverse with
  | none => []
  | some rs =>
    let i := rs.length - (DecodeLastRune rs).2
    match s.drop i with
    | [] => s.take (i + 1)
    | c :: _ => if c.val ≥ 0x80 then s.take (i + (DecodeRune (s.drop i)).2) else s.take (i + 1)

/-- The six ASCII white-space bytes of `strings.TrimSpace`. -/
def isAsciiSpace (c : Byte) : Bool :=
  decide (c.val = 9 ∨ c.val = 10 ∨ c.val = 11 ∨ c.val = 12 ∨ c.val = 13 ∨ c.val = 32)

/-- Second loop of `strings.TrimSpace`, on the reversed rest `s[start:stop]`. -/
def trimSpaceStop : List Byte → List Byte
  | [] => []
  | c :: t =>
    if c.val ≥ 0x80 then trimRightSpace (c :: t).reverse
    else if isAsciiSpace c then trimSpaceStop t
    else (c :: t).reverse

/-- Go `strings.TrimSpace`: leading and trailing white space removed, ASCII on the
fast path, Unicode white space once a byte `≥ 0x80` is met. -/
def TrimSpace : List Byte → List Byte
  | [] => []
  | c :: t =>
    if c.val ≥ 0x80 then trimRightSpace (trimLeftSpace (c :: t).length (c :: t))
    else if isAsciiSpace c then TrimSpace t
    else trimSpaceStop (c :: t).reverse

/-- Go `strconv.FormatFloat(num, 'f', 6, 64)` on the bit pattern of `num`: the
exact value rounded to six decimals, ties to even; the sign is kept on zero. -/
def FormatFloat (bits : Nat) : List Byte :=
  if f64Exp bits = 2047 then
    if f64Frac bits ≠ 0 then ascii "NaN"
    else if f64Sign bits = 1 then ascii "-Inf" else ascii "+Inf"
  else
    let mant := if f64Exp bits = 0 then f64Frac bits else 2 ^ 52 + f64Frac bits
    let exp := if f64Exp bits = 0 then 1 else f64Exp bits
    -- the magnitude is `mant * 2 ^ exp / 2 ^ 1075`
    let num := mant * 10 ^ 6 * 2 ^ exp
    let q := num / 2 ^ 1075
    let rem := num % 2 ^ 1075
    let n := if rem > 2 ^ 1074 ∨ (rem = 2 ^ 1074 ∧ q % 2 = 1) then q + 1 else q
    let frac := decimal (n % 10 ^ 6)
    (if f64Sign bits = 1 then ascii "-" else []) ++ decimal (n / 10 ^ 6) ++ ascii "." ++
      List.replicate (6 - frac.length) 48 ++ frac

/-! ## The input stream

`NewXptReader` is handed a `*bufio.Reader`.  The tests of the repository build it
as `bufio.NewReader(strings.NewReader(input))`; the model keeps the state of such
a reader, a `bufio.Reader` over a `strings.Reader`:

* `size`, the length `len(b.buf)` of the buffer (4096 for `bufio.NewReader`);
* `buf`, the buffered bytes that have not been consumed, `b.buf[b.r:b.w]`;
* `rd`, the bytes that the underlying `strings.Reader` has not handed over yet;
* `err`, the sticky error `b.err`.

The functions follow `bufio/bufio.go`, `strings/reader.go` and `io/io.go` of the
Go library.  The fields `lastByte` and `lastRuneSize` of `bufio.Reader` play no
part in `Peek` or `Read` and are left out; sliding the buffered bytes to the
front of the buffer (in `fill`) does not change `b.buf[b.r:b.w]`. -/

/-- Go `(*strings.Reader).Read(p)` with `len(p) = n`, for the bytes `s` that the
reader has not handed over: `0, io.EOF` when none is left, else as many bytes as
fit in `p` and no error.  Returns the bytes copied, the error and the bytes left. -/
def stringsRead (s : List Byte) (n : Nat) : List Byte × Option GoError × List Byte :=
  if s.length = 0 then ([], some .EOF, s)
  else (s.take n, none, s.drop n)

/-- Go `bufio.Reader` over a `strings.Reader`. -/
structure BufReader where
  size : Nat
  buf : List Byte
  rd : List Byte
  err : Option GoError
deriving DecidableEq, Repr

/-- Go `bufio.NewReaderSize(strings.NewReader(input), size)`; the buffer has at
least `minReadBufferSize = 16` bytes. -/
def NewReaderSize (input : List Byte) (size : Nat) : BufReader :=
  { size := max size 16, buf := [], rd := input, err := none }

/-- Go `bufio.NewReader(strings.NewReader(input))`, `defaultBufSize = 4096`. -/
def NewReader (input : List Byte) : BufReader := NewReaderSize input 4096

/-- The bytes of the input that have not been consumed: the buffered bytes, then
the bytes still in the underlying reader. -/
def BufReader.unread (b : BufReader) : List Byte := b.buf ++ b.rd

/-- The states a `bufio.Reader` over a `strings.Reader` can be in: the sticky
error `b.err` is `nil`, or it is `io.EOF` and the underlying reader has handed
over all its bytes. -/
def BufReader.wf (b : BufReader) : Prop := b.err = none ∨ (b.err = some .EOF ∧ b.rd = [])

instance BufReader.decidableWf (b : BufReader) : Decidable b.wf := by
  unfold BufReader.wf
  infer_instance

/-- The buffer can hold the whole input, and it is empty (a reader that has not
been read from) or the underlying reader has handed over everything: the
situation of every test of the repository. -/
def BufReader.holdsInput (b : BufReader) : Prop :=
  b.unread.length ≤ b.size ∧ (b.rd = [] ∨ b.buf = [])

instance BufReader.decidableHoldsInput (b : BufReader) : Decidable b.holdsInput := by
  unfold BufReader.holdsInput
  infer_instance

/-- Go `(*bufio.Reader).readErr()`: returns `b.err` and clears it. -/
def BufReader.readErr (b : BufReader) : Option GoError × BufReader :=
  (b.err, { b with err := none })

/-- Go `(*bufio.Reader).fill()`: one read of the underlying reader into the free
part of the buffer.  `fill` is called on a buffer that is not full only (the loop
guard of `Peek`; on a full buffer it panics), where a `strings.Reader` hands over
at least one byte or returns `io.EOF`: the retry loop of `fill` makes one call. -/
def BufReader.fill (b : BufReader) : BufReader :=
  match stringsRead b.rd (b.size - b.buf.length) with
  | (p, err, rd) => { b with buf := b.buf ++ p, rd := rd, err := err }

/-- The loop `for b.w-b.r < n && b.w-b.r < len(b.buf) && b.err == nil { b.fill() }`
of `Peek`, at most `fuel` iterations. -/
def peekLoop : Nat → Nat → BufReader → BufReader
  | 0, _, b => b
  | fuel + 1, n, b =>
    if b.buf.length < n ∧ b.buf.length < b.size ∧ b.err = none then peekLoop fuel n b.fill
    else b

/-- Go `(*bufio.Reader).Peek(n)`: the next `n` bytes without consuming them; when
fewer are returned, an error says why: `bufio.ErrBufferFull` when `n` exceeds the
buffer, else the error of the underlying reader.  Returns the bytes, the error
and the reader after the call.  Over a `strings.Reader` the loop ends after two
calls of `fill` at most (`peekLoop_done`). -/
def Peek (b : BufReader) (n : Int) : List Byte × Option GoError × BufReader :=
  if n < 0 then ([], some .ErrNegativeCount, b)
  else
  let b := peekLoop 2 n.toNat b
  if n.toNat > b.size then (b.buf, some .ErrBufferFull, b)
  else if b.buf.length < n.toNat then
    -- not enough data in buffer
    match b.readErr with
    | (none, b) => (b.buf, some .ErrBufferFull, b)
    | (some err, b) => (b.buf, some err, b)
  else (b.buf.take n.toNat, none, b)

/-- Go `(*bufio.Reader).Read(p)`: reads into `p` what one read of the underlying
reader at most provides, so the count can be less than `len(p)`.  Returns the
buffer `p` after the call, the count, the error and the reader after the call. -/
def Read (b : BufReader) (p : List Byte) : List Byte × Nat × Option GoError × BufReader :=
  if p.length = 0 then
    if b.buf.length > 0 then (p, 0, none, b)
    else
      match b.readErr with
      | (err, b) => (p, 0, err, b)
  else
  if b.buf.length = 0 then
    if b.err ≠ none then
      match b.readErr with
      | (err, b) => (p, 0, err, b)
    else if p.length ≥ b.size then
      -- Large read, empty buffer: read directly into p to avoid copy
      match stringsRead b.rd p.length with
      | (q, err, rd) =>
        match ({ b with rd := rd, err := err } : BufReader).readErr with
        | (err, b) => (q ++ p.drop q.length, q.length, err, b)
    else
      -- One read
      match stringsRead b.rd b.size with
      | (q, err, rd) =>
        if q.length = 0 then
          match ({ b with rd := rd, err := err } : BufReader).readErr with
          | (err, b) => (p, 0, err, b)
        else
          -- copy as much as we can
          (q.take p.length ++ p.drop q.length, min p.length q.length, none,
            { b with buf := q.drop p.length, rd := rd, err := err })
  else
    -- copy as much as we can
    (b.buf.take p.length ++ p.drop b.buf.length, min p.length b.buf.length, none,
      { b with buf := b.buf.drop p.length })

/-- The loop `for n < min && err == nil { nn, err = r.Read(buf[n:]); n += nn }` of
`io.ReadAtLeast`, at most `fuel` iterations. -/
def readAtLeastLoop : Nat → BufReader → List Byte → Nat → Nat → Option GoError →
    List Byte × Nat × Option GoError × BufReader
  | 0, b, buf, _, n, err => (buf, n, err, b)
  | fuel + 1, b, buf, min, n, err =>
    if n < min ∧ err = none then
      match Read b (buf.drop n) with
      | (p, nn, err, b) => readAtLeastLoop fuel b (buf.take n ++ p) min (n + nn) err
    else (buf, n, err, b)

/-- Go `io.ReadFull(r, buf)`, that is `io.ReadAtLeast(r, buf, len(buf))`: reads
until `buf` is full; `io.EOF` if no byte could be read, `io.ErrUnexpectedEOF` if
the input ends after some but not all bytes.  Returns the buffer after the call,
the count, the error and the reader after the call.  Every call of `Read` in the
loop provides a byte or an error, so `len(buf) + 1` iterations are never used up
(`readAtLeastLoop_spec`, `ReadFull_spec`). -/
def ReadFull (b : BufReader) (buf : List Byte) : List Byte × Nat × Option GoError × BufReader :=
  match readAtLeastLoop (buf.length + 1) b buf buf.length 0 none with
  | (out, n, err, b) =>
    if n ≥ buf.length then (out, n, none, b)
    else if n > 0 ∧ err = some .EOF then (out, n, some .ErrUnexpectedEOF, b)
    else (out, n, err, b)

/-! ## `reader.go` -/

/-- Go `type Variable struct`. -/
structure Variable where
  Name : List Byte
  isNumeric : Bool
  position : Nat
  length : Nat
  number : Nat
  label : List Byte
deriving DecidableEq, Repr

/-- Go `type Header struct`. -/
structure Header where
  sasType : List Byte := []
  dataset : List Byte := []
  sasLib : List Byte := []
  sasVer : List Byte := []
  sasOs : List Byte := []
  blanks : List Byte := []
  created : List Byte := []
  modified : List Byte := []
  variableCount : Int := 0
  variableRecordSize : Int := 0
deriving DecidableEq, Repr

/-- Go `type Reader struct`; `r` is the state of the `*bufio.Reader`. -/
structure Reader where
  r : BufReader
  currentBytes : List Byte := []
  header : Header := {}
  Variables : List Variable := []
  recordLength : Nat := 0
deriving DecidableEq, Repr

/-- How a Go call ends: with a value, with an `error`, or in a run-time panic. -/
inductive Res (α : Type)
  | ok (a : α)
  | error (e : GoError)
  | panic
deriving DecidableEq, Repr

/-- Package variable `recordLength = 80`. -/
def recordLength : Nat := 80

/-- Package variable `XPT_LIBRARY_HEADER_RECORD`. -/
def XPT_LIBRARY_HEADER_RECORD : List Byte :=
  ascii "HEADER RECORD*******LIBRARY HEADER RECORD" ++
    ascii "!!!!!!!000000000000000000000000000000"

/-- Package variable `MEMBER_HEADER_RECORD`. -/
def MEMBER_HEADER_RECORD : List Byte :=
  ascii "HEADER RECORD*******MEMBER  HEADER RECORD!!!!!!!"

/-- Package variable `DSCRPTR_HEADER_RECORD`. -/
def DSCRPTR_HEADER_RECORD : List Byte :=
  ascii "HEADER RECORD*******DSCRPTR HEADER RECORD!!!!!!!"

/-- Package variable `NAME_STR_HEADER`. -/
def NAME_STR_HEADER : List Byte :=
  ascii "HEADER RECORD*******NAMESTR HEADER RECORD!!!!!!!"

/-- Package variable `OBS_HEADER`. -/
def OBS_HEADER : List Byte :=
  ascii "HEADER RECORD*******OBS     HEADER RECORD!!!!!!!"

/-- Go `checkHeader(buf, header)`; `none` is the `nil` error. -/
def checkHeader (buf header : List Byte) : Option GoError :=
  if !bytesContains buf header then
    some (.errorString (ascii "expected to contain: '" ++ header ++ ascii "' but got: '" ++
      buf ++ ascii "'"))
  else none

/-- Go `buf[lo:hi]` on the 80-byte header buffer, where every slice the source
takes is in range. -/
def sub (buf : List Byte) (lo hi : Nat) : List Byte := (buf.take hi).drop lo

/-! `readHeader` reads eight records one after the other into the same buffer.
It is embedded as one function per record (the `// line N` sections of the
source), each handing the reader and the buffer to the next; they are listed
last record first. -/

/-- `readHeader`, `// line 8` to the end (reader.go lines 133-144). -/
def readHeaderLine8 (reader : Reader) (buf : List Byte) : Reader × Option GoError :=
  match Read reader.r buf with
  | (buf, _, _, r) =>
  let reader := { reader with r := r }
  match checkHeader buf NAME_STR_HEADER with
  | some err => (reader, some err)
  | none =>
  let varCount := sub buf 54 58
  match Atoi varCount with
  | .error err => (reader, some (errorfV (ascii "error getting variable count: ") err))
  | .ok n => ({ reader with header := { reader.header with variableCount := n } }, none)

/-- `readHeader`, `// line 7` (reader.go lines 130-132). -/
def readHeaderLine7 (reader : Reader) (buf : List Byte) : Reader × Option GoError :=
  match Read reader.r buf with
  | (buf, _, _, r) =>
  let reader := { reader with r := r }
  readHeaderLine8
    { reader with header := { reader.header with modified := TrimSpace (sub buf 0 17) } } buf

/-- `readHeader`, `// line 6` (reader.go lines 127-129). -/
def readHeaderLine6 (reader : Reader) (buf : List Byte) : Reader × Option GoError :=
  match Read reader.r buf with
  | (buf, _, _, r) =>
  let reader := { reader with r := r }
  readHeaderLine7
    { reader with header := { reader.header with dataset := TrimSpace (sub buf 8 16) } } buf

/-- `readHeader`, `// line 5` (reader.go lines 122-126). -/
def readHeaderLine5 (reader : Reader) (buf : List Byte) : Reader × Option GoError :=
  match Read reader.r buf with
  | (buf, _, _, r) =>
  let reader := { reader with r := r }
  match checkHeader buf DSCRPTR_HEADER_RECORD with
  | some err => (reader, some err)
  | none => readHeaderLine6 reader buf

/-- `readHeader`, `// line 4` (reader.go lines 109-120). -/
def readHeaderLine4 (reader : Reader) (buf : List Byte) : Reader × Option GoError :=
  match Read reader.r buf with
  | (buf, _, _, r) =>
  let reader := { reader with r := r }
  match checkHeader buf MEMBER_HEADER_RECORD with
  | some err => (reader, some err)
  | none =>
  let variableRecordSize := sub buf (48 + 26) (48 + 26 + 4)
  match Atoi variableRecordSize with
  | .error err => (reader, some (errorfV (ascii "error getting variable record length: ") err))
  | .ok variableRecordSizeInt =>
  readHeaderLine5
    { reader with header := { reader.header with variableRecordSize := variableRecordSizeInt } }
    buf

/-- `readHeader`, `// line 3` (reader.go lines 106-108). -/
def readHeaderLine3 (reader : Reader) (buf : List Byte) : Reader × Option GoError :=
  match Read reader.r buf with
  | (buf, _, _, r) =>
  let reader := { reader with r := r }
  readHeaderLine4 { reader with header := { reader.header with modified := TrimSpace buf } } buf

/-- `readHeader`, `// line 2` (reader.go lines 97-105). -/
def readHeaderLine2 (reader : Reader) (buf : List Byte) : Reader × Option GoError :=
  match Read reader.r buf with
  | (buf, _, _, r) =>
  let reader := { reader with r := r }
  if !bytesContains buf (ascii "SAS") then
    (reader, some (.errorString (ascii "expected first real header record got: '" ++ buf ++
      ascii "'")))
  else
  readHeaderLine3
    { reader with header := { reader.header with
        sasVer := sub buf 24 32, sasOs := sub buf 32 40, created := sub buf 74 buf.length } }
    buf

/-- `readHeader`, `// line 1` (reader.go lines 92-96). -/
def readHeaderLine1 (reader : Reader) (buf : List Byte) : Reader × Option GoError :=
  match Read reader.r buf with
  | (buf, _, _, r) =>
  let reader := { reader with r := r }
  match checkHeader buf XPT_LIBRARY_HEADER_RECORD with
  | some err => (reader, some err)
  | none => readHeaderLine2 reader buf

/-- Go `readHeader(reader)`: the reader after the call and the returned error
(`none` is `nil`).  The results of the eight `reader.r.Read(buf)` calls are
discarded, as in the source. -/
def readHeader (reader : Reader) : Reader × Option GoError :=
  match Peek reader.r ((recordLength * 8 : Nat) : Int) with
  | (readBytes, some _, r) =>
    ({ reader with r := r },
      some (.errorString (ascii "read " ++ decimal readBytes.length ++ ascii " out of " ++
        decimal (recordLength * 8) ++ ascii " bytes of library header")))
  | (_, none, r) =>
    readHeaderLine1 { reader with r := r } (List.replicate recordLength (0 : Byte))

/-- The fields of one descriptor block (reader.go lines 169-177); `none` is the
panic of a slice expression that is out of range for the block. -/
def parseVariable (currentVar : List Byte) : Option Variable := do
  let varibleLen ← (slice currentVar 4 6).bind Uint16
  let name ← slice currentVar 8 16
  let isNumeric ← (slice currentVar 0 2).bind Uint16
  let number ← (slice currentVar 6 8).bind Uint16
  let position ← (slice currentVar 86 88).bind Uint16
  let label ← slice currentVar 16 currentVar.length
  pure { Name := TrimSpace name, isNumeric := isNumeric == 1, number := number,
         position := position, label := label, length := varibleLen }

/-- The loop of `readVariables` (reader.go lines 159-179) with `k` iterations
left: the reader after the loop and the list `variables` (here `vars`), or the
error returned from inside the loop; `none` is a panic.  The `fmt.Printf` of lines
164-167 writes to standard output only. -/
def readVariablesLoop : Nat → Reader → List Byte → List Variable →
    Option (Reader × List Variable × Option GoError)
  | 0, reader, _, vars => some (reader, vars, none)
  | k + 1, reader, currentVar, vars =>
    match ReadFull reader.r currentVar with
    | (_, _, some err, r) =>
      some ({ reader with r := r }, vars,
        some (errorfV (ascii "Problem reading variable record ") err))
    | (currentVar, _, none, r) =>
      match parseVariable currentVar with
      | none => none
      | some v =>
        readVariablesLoop k
          { reader with r := r, recordLength := (reader.recordLength + v.length) % 2 ^ 16 }
          currentVar (vars ++ [v])

/-- The padding of `readVariables` (reader.go lines 183-184),
`80 - ((variableCount * variableRecordSize) % 80)`; Go's `%` truncates towards
zero, so the remainder has the sign of the product. -/
def padding (variableCount variableRecordSize : Int) : Int :=
  80 - Int.tmod (variableCount * variableRecordSize) 80

/-- The end of `readVariables` (reader.go lines 182-196): the padding and the
observation header; `none` is a panic. -/
def readObservationHeader (reader : Reader) : Option (Reader × Option GoError) :=
  -- Read Padding after variables
  let padding := padding reader.header.variableCount reader.header.variableRecordSize
  -- `make([]byte, n)` panics for a negative `n`
  if padding < 0 then none
  else
  match Read reader.r (List.replicate padding.toNat (0 : Byte)) with
  | (_, _, some err, r) =>
    some ({ reader with r := r }, some (errorfV (ascii "missing padding: ") err))
  | (_, _, none, r) =>
  -- Read Observation header; the result of `io.ReadFull` is discarded
  match ReadFull r (List.replicate 80 (0 : Byte)) with
  | (observationHeader, _, _, r) =>
  match checkHeader observationHeader OBS_HEADER with
  | some err => some ({ reader with r := r }, some err)
  | none => some ({ reader with r := r }, none)

/-- Go `readVariables(reader)`: the reader after the call and the returned error;
`none` is a panic. -/
def readVariables (reader : Reader) : Option (Reader × Option GoError) :=
  match Peek reader.r (reader.header.variableRecordSize * reader.header.variableCount) with
  | (readBytes, some _, r) =>
    some ({ reader with r := r },
      some (.errorString (ascii "Incomplete or empty variable record " ++
        decimal readBytes.length ++ ascii " out of " ++
        itoa (reader.header.variableRecordSize * reader.header.variableCount) ++
        ascii " bytes")))
  | (_, none, r) =>
  let reader := { reader with r := r }
  -- `make([]byte, n)` panics for a negative `n`
  if reader.header.variableRecordSize < 0 then none
  else
  match readVariablesLoop reader.header.variableCount.toNat reader
      (List.replicate reader.header.variableRecordSize.toNat (0 : Byte)) [] with
  | none => none
  | some (reader, _, some err) => some (reader, some err)
  | some (reader, vars, none) => readObservationHeader { reader with Variables := vars }

/-- Go `NewXptReader(r)`. -/
def NewXptReader (r : BufReader) : Res Reader :=
  match readHeader { r := r } with
  | (_, some err) => .error (errorfV (ascii "incorrect header record format: ") err)
  | (reader, none) =>
    match readVariables reader with
    | none => .panic
    | some (_, some err) => .error err
    | some (reader, none) => .ok reader

/-- Go `type ObservationRecord struct`; the closure `GetDataForVariable` is the
function of that name below, applied to the reader and to `raw`. -/
structure ObservationRecord where
  raw : List Byte
deriving DecidableEq, Repr

/-- Go `(*Reader).Read()`: the record (`none` is `nil`), the error, and the reader
after the call. -/
def Reader.Read (reader : Reader) : Option ObservationRecord × Option GoError × Reader :=
  let record := List.replicate reader.recordLength (0 : Byte)
  match ReadFull reader.r record with
  | (_, _, some err, r) => (none, some err, { reader with r := r })
  | (record, _, none, r) => (some { raw := record }, none, { reader with r := r })

/-- The closure `getVariable` of `Read`: the first variable of that name. -/
def getVariable (reader : Reader) (varName : List Byte) : Option Variable :=
  reader.Variables.find? (fun v => v.Name = varName)

/-- The closure `GetDataForVariable` of `Read`, for the record bytes `record`.
`position + length` is a `uint16` sum.  `.error e` is the return `"", e` of the
source, `.ok s` the return `s, nil`. -/
def GetDataForVariable (reader : Reader) (record : List Byte) (varName : List Byte) :
    Res (List Byte) :=
  match getVariable reader varName with
  | none => .error (.errorString (ascii "variable does not exist: " ++ varName))
  | some v =>
    if (v.position + v.length) % 2 ^ 16 > reader.recordLength then
      .error (.errorString (ascii "variable position out of bounds of record '" ++ varName ++
        ascii "'"))
    else
      match slice record v.position ((v.position + v.length) % 2 ^ 16) with
      | none => .panic
      | some s =>
        if v.isNumeric then
          match IbmToIEEE s with
          | none => .panic
          | some num => .ok (FormatFloat num)
        else .ok s

/-- The value of a call that returned one, `none` for an error or a panic. -/
def Res.toOption {α : Type} : Res α → Option α
  | .ok a => some a
  | _ => none

/-! ## Inputs of `reader_test.go` -/

/-- Test constant `EXPECTED_LIB_HEADER`. -/
def EXPECTED_LIB_HEADER : List Byte := XPT_LIBRARY_HEADER_RECORD ++ ascii "  "

/-- Test constant `SAS_HEADER`. -/
def SAS_HEADER : List Byte :=
  ascii "SAS                                      " ++
    ascii "                                       "

/-- Test constant `MODIFIED_HEADER`. -/
def MODIFIED_HEADER : List Byte :=
  ascii " 21JAN08:13:32:41                        " ++
    ascii "                                       "

/-- Test constant `MEM_HEADER`. -/
def MEM_HEADER : List Byte := MEMBER_HEADER_RECORD ++ ascii "000000000000000001600000000140  "

/-- Test constant `DSCRPTR_HEADER`. -/
def DSCRPTR_HEADER : List Byte := DSCRPTR_HEADER_RECORD ++ ascii "                                "

/-- Test constant `DATASET_HEADER`. -/
def DATASET_HEADER : List Byte :=
  ascii "        AE                                      " ++
    ascii "                                "

/-- Test constant `NAMESTR_HEADER`, variable count `0012`. -/
def NAMESTR_HEADER : List Byte := NAME_STR_HEADER ++ ascii "000000001200000000000000000000  "

/-- Test constant `OBSER_HEADER`. -/
def OBSER_HEADER : List Byte := OBS_HEADER ++ ascii "000000000000000000000000000000  "

/-- The first seven header records of `TestReadValidHeader`. -/
def headerRecords1to7 : List Byte :=
  EXPECTED_LIB_HEADER ++ SAS_HEADER ++ MODIFIED_HEADER ++ MEM_HEADER ++ DSCRPTR_HEADER ++
    DATASET_HEADER ++ MODIFIED_HEADER

/-- The input of `TestReadValidHeader`: eight header records, 1760 blanks
(twelve descriptors of 140 bytes and 80 bytes of padding), the observation block. -/
def validInput : List Byte :=
  headerRecords1to7 ++ NAMESTR_HEADER ++ List.replicate 1760 32 ++ OBSER_HEADER

/-- The input of `TestReadValidHeader` cut after the 48 marker bytes of the
observation block: the last 32 bytes of that block are missing. -/
def truncatedObsInput : List Byte :=
  headerRecords1to7 ++ NAMESTR_HEADER ++ List.replicate 1760 32 ++ OBS_HEADER

/-- A file that declares no variable (count `0000`): eight header records, 80
bytes of padding, the observation block, no observation. -/
def noVariableInput : List Byte :=
  headerRecords1to7 ++ (NAME_STR_HEADER ++ ascii "000000000000000000000000000000  ") ++
    List.replicate 80 32 ++ OBSER_HEADER

/-- A 140-byte descriptor of a character variable `X` of length 2 declared at
position 65535. -/
def descriptorAt65535 : List Byte :=
  [0, 2, 0, 0, 0, 2, 0, 1] ++ ascii "X       " ++ List.replicate 70 32 ++ [0xFF, 0xFF] ++
    List.replicate 52 32

/-- A file with the single variable `descriptorAt65535` and one observation of
two bytes. -/
def position65535Input : List Byte :=
  headerRecords1to7 ++ (NAME_STR_HEADER ++ ascii "000000000100000000000000000000  ") ++
    descriptorAt65535 ++ List.replicate 20 32 ++ OBSER_HEADER ++ [65, 66]

/-- The input of `TestReadValidHeader` with the library record moved one byte to
the right: a blank, the 78 marker bytes, a blank. -/
def shiftedLibraryInput : List Byte :=
  (ascii " " ++ XPT_LIBRARY_HEADER_RECORD ++ ascii " ") ++ SAS_HEADER ++ MODIFIED_HEADER ++
    MEM_HEADER ++ DSCRPTR_HEADER ++ DATASET_HEADER ++ MODIFIED_HEADER ++ NAMESTR_HEADER ++
    List.replicate 1760 32 ++ OBSER_HEADER

/-- Go `strings.Replace(s, old, new, -1)` for one-byte `old` and `new`. -/
def replaceAll (old new : Byte) (s : List Byte) : List Byte :=
  s.map (fun b => if b = old then new else b)

/-- Test value `badHeader` for the library record: every `H` replaced by `P`. -/
def badLibHeader : List Byte := replaceAll 72 80 EXPECTED_LIB_HEADER

/-- Test value `badHeader` for the member record: every `H` replaced by `B`. -/
def badMemHeader : List Byte := replaceAll 72 66 MEM_HEADER

/-- Test value `badHeader` for the descriptor record: every `H` replaced by `B`. -/
def badDscrptrHeader : List Byte := replaceAll 72 66 DSCRPTR_HEADER

/-- Test value `badHeader` for the namestr record: every `H` replaced by `B`. -/
def badNamestrHeader : List Byte := replaceAll 72 66 NAMESTR_HEADER

/-- Test value `badHeader` for the observation block: every `H` replaced by `B`. -/
def badObserHeader : List Byte := replaceAll 72 66 OBSER_HEADER

/-- The reader that `NewXptReader` returns on `noVariableInput`. -/
def noVariableReader : Reader :=
  { r := { size := 4096, buf := [], rd := [], err := none },
    header :=
      { dataset := ascii "AE", sasVer := ascii "        ", sasOs := ascii "        ",
        created := ascii "      ", modified := ascii "21JAN08:13:32:41",
        variableCount := 0, variableRecordSize := 140 },
    Variables := [], recordLength := 0 }

/-- The reader that `NewXptReader` returns on `position65535Input`. -/
def position65535Reader : Reader :=
  { r := { size := 4096, buf := [65, 66], rd := [], err := none },
    header :=
      { dataset := ascii "AE", sasVer := ascii "        ", sasOs := ascii "        ",
        created := ascii "      ", modified := ascii "21JAN08:13:32:41",
        variableCount := 1, variableRecordSize := 140 },
    Variables :=
      [{ Name := ascii "X", isNumeric := false, position := 65535, length := 2, number := 1,
         label := List.replicate 70 32 ++ [0xFF, 0xFF] ++ List.replicate 52 32 }],
    recordLength := 2 }

/-- The 4-byte input `"Test"` of `TestReadInvalidHeader`. -/
def testInput : List Byte := ascii "Test"

/-- The input of the case `Test failure with missing variable records` of
`TestReadInvalidHeader`: the eight header records and nothing else. -/
def headerOnlyInput : List Byte := headerRecords1to7 ++ NAMESTR_HEADER

/-- A file whose member record gives the descriptor size `0000` and whose namestr
record gives the variable count `-001`, followed by 80 bytes of padding and the
observation block. -/
def negativeCountInput : List Byte :=
  EXPECTED_LIB_HEADER ++ SAS_HEADER ++ MODIFIED_HEADER ++
    (MEMBER_HEADER_RECORD ++ ascii "000000000000000001600000000000  ") ++ DSCRPTR_HEADER ++
    DATASET_HEADER ++ MODIFIED_HEADER ++
    (NAME_STR_HEADER ++ ascii "000000-00100000000000000000000  ") ++
    List.replicate 80 32 ++ OBSER_HEADER

/-- A 140-byte descriptor of a numeric variable `N` of length 4 at position 0. -/
def descriptorNumeric4 : List Byte :=
  [0, 1, 0, 0, 0, 4, 0, 1] ++ ascii "N       " ++ List.replicate 70 32 ++ [0, 0] ++
    List.replicate 52 32

/-- A file with the single variable `descriptorNumeric4` and one observation of
four bytes, the IBM encoding of 1.0 cut to four bytes. -/
def numeric4Input : List Byte :=
  headerRecords1to7 ++ (NAME_STR_HEADER ++ ascii "000000000100000000000000000000  ") ++
    descriptorNumeric4 ++ List.replicate 20 32 ++ OBSER_HEADER ++ [0x41, 0x10, 0, 0]

/-- A file whose member record gives the descriptor size `0080` and whose namestr
record gives the variable count `0001`: one 80-byte descriptor, 80 bytes of
padding, the observation block. -/
def shortDescriptorInput : List Byte :=
  EXPECTED_LIB_HEADER ++ SAS_HEADER ++ MODIFIED_HEADER ++
    (MEMBER_HEADER_RECORD ++ ascii "000000000000000001600000000080  ") ++ DSCRPTR_HEADER ++
    DATASET_HEADER ++ MODIFIED_HEADER ++
    (NAME_STR_HEADER ++ ascii "000000000100000000000000000000  ") ++
    List.replicate 80 32 ++ List.replicate 80 32 ++ OBSER_HEADER

/-- A file whose member record gives the descriptor size `-001` and whose namestr
record gives the variable count `0000`. -/
def negativeSizeInput : List Byte :=
  EXPECTED_LIB_HEADER ++ SAS_HEADER ++ MODIFIED_HEADER ++
    (MEMBER_HEADER_RECORD ++ ascii "00000000000000000160000000-001  ") ++ DSCRPTR_HEADER ++
    DATASET_HEADER ++ MODIFIED_HEADER ++
    (NAME_STR_HEADER ++ ascii "000000000000000000000000000000  ") ++
    List.replicate 80 32 ++ OBSER_HEADER

/-- The eight header records of `TestReadValidHeader` with the member record
`mem` and the namestr record `nam` in place of records 4 and 8. -/
def headerRecordsWith (mem nam : List Byte) : List Byte :=
  EXPECTED_LIB_HEADER ++ SAS_HEADER ++ MODIFIED_HEADER ++ mem ++ DSCRPTR_HEADER ++
    DATASET_HEADER ++ MODIFIED_HEADER ++ nam

/-- A member record that gives the descriptor size `0136`. -/
def MEM_HEADER_136 : List Byte := MEMBER_HEADER_RECORD ++ ascii "000000000000000001600000000136  "

/-- A namestr record that gives the variable count `0030`. -/
def NAMESTR_HEADER_30 : List Byte := NAME_STR_HEADER ++ ascii "000000003000000000000000000000  "

/-- A namestr record that gives the variable count `0040`. -/
def NAMESTR_HEADER_40 : List Byte := NAME_STR_HEADER ++ ascii "000000004000000000000000000000  "

/-- A well-formed file of 30 variables with descriptors of 140 bytes: eight
header records, 4200 bytes of descriptors, 40 bytes of padding, the observation
block; 4960 bytes. -/
def largeDirectoryInput : List Byte :=
  headerRecordsWith MEM_HEADER NAMESTR_HEADER_30 ++ List.replicate 4200 32 ++
    List.replicate 40 32 ++ OBSER_HEADER

/-- A well-formed file of 30 variables with descriptors of 136 bytes: eight
header records, 4080 bytes of descriptors, 80 bytes of padding, the observation
block; 4880 bytes. -/
def splitPaddingInput : List Byte :=
  headerRecordsWith MEM_HEADER_136 NAMESTR_HEADER_30 ++ List.replicate 4080 32 ++
    List.replicate 80 32 ++ OBSER_HEADER

/-- The file `splitPaddingInput` with the corrupted observation block of
`TestReadInvalidHeader` in place of the observation block. -/
def splitPaddingBadObsInput : List Byte :=
  headerRecordsWith MEM_HEADER_136 NAMESTR_HEADER_30 ++ List.replicate 4080 32 ++
    List.replicate 80 32 ++ badObserHeader

/-- The file `splitPaddingBadObsInput` with the observation marker written into
the padding, 16 bytes after its start. -/
def markerInPaddingInput : List Byte :=
  headerRecordsWith MEM_HEADER_136 NAMESTR_HEADER_30 ++ List.replicate 4080 32 ++
    (List.replicate 16 32 ++ OBS_HEADER ++ List.replicate 16 32) ++ badObserHeader

/-- A file whose header declares 40 variables with descriptors of 140 bytes, 5600
bytes, followed by 5000 bytes only. -/
def truncatedDirectoryInput : List Byte :=
  headerRecordsWith MEM_HEADER NAMESTR_HEADER_40 ++ List.replicate 5000 32

/-! ## Specification side of the header numbers and of the descriptors -/

/-- An ASCII decimal digit. -/
def isDigit (b : Byte) : Bool := decide (48 ≤ b.val ∧ b.val ≤ 57)

/-- The decimal value of a string of ASCII digits. -/
def decimalValue (s : List Byte) : Nat := s.foldl (fun n b => n * 10 + (b.val - 48)) 0

/-- The big-endian 16-bit integer at offset `off` of `b`. -/
def be16 (b : List Byte) (off : Nat) : Nat :=
  (b.getD off 0).val * 256 + (b.getD (off + 1) 0).val

/-- A variable as the specification decodes it from a descriptor block `b`:
`isNumeric` from the integer at offset 0, `length` at offset 4, `number` at offset
6, `Name` bytes 8-16 trimmed, `label` from offset 16 to the end, `position` at
offset 86. -/
def decodeVariable (b : List Byte) : Variable :=
  { Name := TrimSpace ((b.take 16).drop 8), isNumeric := decide (be16 b 0 = 1),
    position := be16 b 86, length := be16 b 4, number := be16 b 6, label := b.drop 16 }

/-- Header record `k` (counted from 1) of an input: bytes `80 (k-1)` to `80 k - 1`. -/
def headerRecord (input : List Byte) (k : Nat) : List Byte := (input.drop (80 * (k - 1))).take 80

/-- A well-formed input, in the words of the specification: eight 80-byte header
records of which records 1, 4, 5 and 8 start with their markers and record 2
contains `SAS`; four decimal digits at bytes 74-77 of record 4 giving a descriptor
size of at least 88, and at bytes 54-57 of record 8 giving the variable count;
then the descriptors, the padding `80 - ((count * size) mod 80)`, and an 80-byte
block that starts with the observation marker. -/
def wellFormed (input : List Byte) : Bool :=
  let size := decimalValue (sub (headerRecord input 4) 74 78)
  let count := decimalValue (sub (headerRecord input 8) 54 58)
  let pad := 80 - (count * size) % 80
  XPT_LIBRARY_HEADER_RECORD.isPrefixOf (headerRecord input 1) &&
  bytesContains (headerRecord input 2) (ascii "SAS") &&
  MEMBER_HEADER_RECORD.isPrefixOf (headerRecord input 4) &&
  DSCRPTR_HEADER_RECORD.isPrefixOf (headerRecord input 5) &&
  NAME_STR_HEADER.isPrefixOf (headerRecord input 8) &&
  (sub (headerRecord input 4) 74 78).all isDigit &&
  (sub (headerRecord input 8) 54 58).all isDigit &&
  decide (88 ≤ size) &&
  decide (640 + count * size + pad + 80 ≤ input.length) &&
  OBS_HEADER.isPrefixOf ((input.drop (640 + count * size + pad)).take 80)

/-! # Proofs -/

/-! ## The converter -/
/-- AND against a constant, split at bit `k`. -/
theorem and_split (x c k : Nat) :
    x &&& c = 2 ^ k * ((x / 2 ^ k) &&& (c / 2 ^ k)) + ((x % 2 ^ k) &&& (c % 2 ^ k)) := by
  apply Nat.eq_of_testBit_eq
  intro i
  have hlt : (x % 2 ^ k &&& c % 2 ^ k) < 2 ^ k :=
    Nat.lt_of_le_of_lt Nat.and_le_left (Nat.mod_lt _ (Nat.two_pow_pos k))
  rw [Nat.testBit_mul_pow_two_add _ hlt]
  simp only [Nat.testBit_and, Nat.testBit_mod_two_pow, ← Nat.shiftRight_eq_div_pow,
    Nat.testBit_shiftRight]
  by_cases h : i < k
  · simp [h]
  · simp [h]
    have : k + (i - k) = i := by omega
    rw [this]

theorem and_mask63 (x : Nat) (hx : x < 2 ^ 64) :
    x &&& 0x8000000000000000 = 2 ^ 63 * (x / 2 ^ 63) := by
  rw [and_split x _ 63]
  have h1 : x / 2 ^ 63 < 2 := by omega
  have : (0x8000000000000000 : Nat) % 2 ^ 63 = 0 := by norm_num
  rw [this, Nat.and_zero]
  have : (0x8000000000000000 : Nat) / 2 ^ 63 = 1 := by norm_num
  rw [this]
  interval_cases (x / 2 ^ 63) <;> rfl

theorem and_mask_exp (x : Nat) :
    (x &&& 0x7f00000000000000) >>> 56 = x / 2 ^ 56 % 128 := by
  rw [and_split x _ 56]
  have h1 : (0x7f00000000000000 : Nat) % 2 ^ 56 = 0 := by norm_num
  have h2 : (0x7f00000000000000 : Nat) / 2 ^ 56 = 2 ^ 7 - 1 := by norm_num
  rw [h1, h2, Nat.and_zero, Nat.and_pow_two_sub_one_eq_mod, Nat.shiftRight_eq_div_pow,
    Nat.add_zero, Nat.mul_div_cancel_left _ (Nat.two_pow_pos 56)]

theorem and_mask_mant (x : Nat) : x &&& 0x00ffffffffffffff = x % 2 ^ 56 := by
  have h : (0x00ffffffffffffff : Nat) = 2 ^ 56 - 1 := by norm_num
  rw [h, Nat.and_pow_two_sub_one_eq_mod]

theorem and_bit (x k : Nat) : x &&& 2 ^ k = 2 ^ k * (x / 2 ^ k % 2) := by
  rw [and_split x _ k]
  have h1 : 2 ^ k % 2 ^ k = 0 := Nat.mod_self _
  have h2 : 2 ^ k / 2 ^ k = 1 := Nat.div_self (Nat.two_pow_pos k)
  rw [h1, h2, Nat.and_zero, Nat.add_zero, Nat.and_one_is_mod]

theorem and_bit_pos (x k : Nat) : x &&& 2 ^ k > 0 ↔ x / 2 ^ k % 2 = 1 := by
  rw [and_bit]
  have := Nat.two_pow_pos k
  constructor
  · intro h
    have : x / 2 ^ k % 2 ≠ 0 := by
      intro h0
      rw [h0] at h
      simp at h
    omega
  · intro h
    rw [h]
    simp

theorem ibmShift_eq (x : Nat) :
    ibmShift x = if x / 2 ^ 55 % 2 = 1 then 3 else if x / 2 ^ 54 % 2 = 1 then 2
      else if x / 2 ^ 53 % 2 = 1 then 1 else 0 := by
  unfold ibmShift
  have e55 : (0x0080000000000000 : Nat) = 2 ^ 55 := by norm_num
  have e54 : (0x0040000000000000 : Nat) = 2 ^ 54 := by norm_num
  have e53 : (0x0020000000000000 : Nat) = 2 ^ 53 := by norm_num
  rw [e55, e54, e53]
  simp only [and_bit_pos]

theorem and_clear52 (m : Nat) (hm : m < 2 ^ 53) : m &&& 0xffefffffffffffff = m % 2 ^ 52 := by
  rw [and_split m _ 52]
  have h1 : (0xffefffffffffffff : Nat) % 2 ^ 52 = 2 ^ 52 - 1 := by norm_num
  have h2 : (0xffefffffffffffff : Nat) / 2 ^ 52 = 0xffe := by norm_num
  rw [h1, h2, Nat.and_pow_two_sub_one_eq_mod]
  have h3 : m / 2 ^ 52 < 2 := by omega
  have h4 : m / 2 ^ 52 &&& 0xffe = 0 := by
    interval_cases (m / 2 ^ 52) <;> rfl
  rw [h4]; simp

theorem shifted_mantissa_lt (x : Nat) : x % 2 ^ 56 / 2 ^ ibmShift x < 2 ^ 53 := by
  rw [ibmShift_eq]
  split_ifs <;> omega

/-- Arithmetic form of the converter. -/
theorem ibmWordToIEEE_eq (x : Nat) (hx : x < 2 ^ 64) :
    ibmWordToIEEE x = 2 ^ 63 * (x / 2 ^ 63) + 2 ^ 52 * (763 + 4 * (x / 2 ^ 56 % 128) + ibmShift x)
      + x % 2 ^ 56 / 2 ^ ibmShift x % 2 ^ 52 := by
  unfold ibmWordToIEEE
  simp only []
  rw [and_mask63 x hx, and_mask_exp, and_mask_mant, Nat.shiftRight_eq_div_pow,
    and_clear52 _ (shifted_mantissa_lt x), Nat.shiftLeft_eq, Nat.shiftLeft_eq]
  have hs : ibmShift x ≤ 3 := by rw [ibmShift_eq]; split_ifs <;> omega
  have he : x / 2 ^ 56 % 128 < 128 := Nat.mod_lt _ (by norm_num)
  have hE : ((x / 2 ^ 56 % 128 + 2 ^ 64 - 65) % 2 ^ 64 * 2 ^ 2 % 2 ^ 64 + ibmShift x + 1023) % 2 ^ 64
      = 763 + 4 * (x / 2 ^ 56 % 128) + ibmShift x := by
    generalize x / 2 ^ 56 % 128 = e at *
    omega
  rw [hE]
  generalize x / 2 ^ 56 % 128 = e at *
  generalize ibmShift x = s at *
  have hm : x % 2 ^ 56 / 2 ^ s % 2 ^ 52 < 2 ^ 52 := Nat.mod_lt _ (by norm_num)
  generalize x % 2 ^ 56 / 2 ^ s % 2 ^ 52 = m at *
  have hE2 : (763 + 4 * e + s) * 2 ^ 52 % 2 ^ 64 = 2 ^ 52 * (763 + 4 * e + s) := by omega
  rw [hE2]
  have h1 : 2 ^ 52 * (763 + 4 * e + s) < 2 ^ 63 := by omega
  rw [← Nat.mul_add_lt_is_or h1]
  have h2 : 2 ^ 63 * (x / 2 ^ 63) + 2 ^ 52 * (763 + 4 * e + s)
      = 2 ^ 52 * (2 ^ 11 * (x / 2 ^ 63) + (763 + 4 * e + s)) := by ring
  rw [h2, ← Nat.mul_add_lt_is_or hm]

theorem Uint64_lt (bytes : List Byte) (w : Nat) (h : Uint64 bytes = some w) : w < 2 ^ 64 := by
  unfold Uint64 at h
  split at h
  · rename_i b0 b1 b2 b3 b4 b5 b6 b7 _
    simp only [Option.some.injEq] at h
    subst h
    have h0 := b0.isLt; have h1 := b1.isLt; have h2 := b2.isLt; have h3 := b3.isLt
    have h4 := b4.isLt; have h5 := b5.isLt; have h6 := b6.isLt; have h7 := b7.isLt
    simp only [Nat.shiftLeft_eq]
    repeat (first | apply Nat.or_lt_two_pow | omega)
  · simp at h

theorem f64Exp_ibm (x : Nat) (hx : x < 2 ^ 64) :
    f64Exp (ibmWordToIEEE x) = 763 + 4 * (x / 2 ^ 56 % 128) + ibmShift x := by
  have hs : ibmShift x ≤ 3 := by rw [ibmShift_eq]; split_ifs <;> omega
  rw [ibmWordToIEEE_eq x hx]
  unfold f64Exp
  generalize ibmShift x = s at *
  omega

theorem Uint64_of_length (bytes : List Byte) (h : 8 ≤ bytes.length) :
    ∃ w, Uint64 bytes = some w := by
  match bytes, h with
  | b0 :: b1 :: b2 :: b3 :: b4 :: b5 :: b6 :: b7 :: _, _ => exact ⟨_, rfl⟩

theorem ibmShift_le (x : Nat) : ibmShift x ≤ 3 := by
  rw [ibmShift_eq]; split_ifs <;> omega

theorem f64Sign_ibm (x : Nat) (hx : x < 2 ^ 64) :
    f64Sign (ibmWordToIEEE x) = x / 2 ^ 63 % 2 := by
  have hs := ibmShift_le x
  rw [ibmWordToIEEE_eq x hx]
  unfold f64Sign
  generalize ibmShift x = s at *
  omega

theorem f64Frac_ibm (x : Nat) (hx : x < 2 ^ 64) :
    f64Frac (ibmWordToIEEE x) = x % 2 ^ 56 / 2 ^ ibmShift x % 2 ^ 52 := by
  have hs := ibmShift_le x
  rw [ibmWordToIEEE_eq x hx]
  unfold f64Frac
  generalize ibmShift x = s at *
  omega

/-- The normalized mantissa has its leading one at bit 52 and loses nothing,
when the top hexadecimal digit is not zero and the shifted-out bits are zero. -/
theorem normalized_mantissa (x : Nat)
    (htop : ibmMantissa x / 2 ^ 52 ≠ 0) (hlow : ibmMantissa x % 2 ^ ibmShift x = 0) :
    2 ^ 52 + x % 2 ^ 56 / 2 ^ ibmShift x % 2 ^ 52 = x % 2 ^ 56 / 2 ^ ibmShift x ∧
      x % 2 ^ 56 = x % 2 ^ 56 / 2 ^ ibmShift x * 2 ^ ibmShift x := by
  unfold ibmMantissa at htop hlow
  rw [ibmShift_eq] at hlow ⊢
  split_ifs at hlow ⊢ <;> omega

theorem two_zpow_exponent (e s : Nat) :
    (2 : ℚ) ^ (((763 + 4 * e + s : ℕ) : ℤ) - 1075) =
      2 ^ s * 2 ^ (-56 : ℤ) * 16 ^ ((e : ℤ) - 64) := by
  have h16 : (16 : ℚ) = 2 ^ (4 : ℤ) := by norm_num
  rw [h16, ← zpow_mul, ← zpow_natCast, ← zpow_add₀ (by norm_num : (2 : ℚ) ≠ 0),
    ← zpow_add₀ (by norm_num : (2 : ℚ) ≠ 0)]
  congr 1
  push_cast
  ring

theorem float64Value_ibm (x : Nat) (hx : x < 2 ^ 64)
    (htop : ibmMantissa x / 2 ^ 52 ≠ 0) (hlow : ibmMantissa x % 2 ^ ibmShift x = 0) :
    float64Value (ibmWordToIEEE x) = some (ibmValue x) := by
  have hs := ibmShift_le x
  have hE := f64Exp_ibm x hx
  obtain ⟨hn1, hn2⟩ := normalized_mantissa x htop hlow
  unfold float64Value
  rw [if_neg (by rw [hE]; omega), if_neg (by rw [hE]; omega), f64Sign_ibm x hx,
    f64Frac_ibm x hx, hE, hn1, two_zpow_exponent]
  unfold ibmValue ibmSign ibmMantissa ibmExponent
  congr 1
  conv_rhs => rw [hn2]
  push_cast
  ring

/-- C1. For every 8-byte input, read as the big-endian word `bbits`, whose
mantissa has a non-zero top hexadecimal digit and whose low `s` bits are zero (`s`
the normalization shift), the bit pattern returned by `IbmToIEEE` denotes exactly
the value of the IBM encoding, `(-1)^sign * mantissa * 2^-56 * 16^(exponent - 64)`.
The word is read from every input of eight bytes, see `Uint64_of_length`. -/
theorem IbmToIEEE_exact (bytes : List Byte) (bbits : Nat)
    (hw : Uint64 bytes = some bbits)
    (htop : ibmMantissa bbits / 2 ^ 52 ≠ 0)
    (hlow : ibmMantissa bbits % 2 ^ ibmShift bbits = 0) :
    ∃ ieee, IbmToIEEE bytes = some ieee ∧ float64Value ieee = some (ibmValue bbits) := by
  refine ⟨ibmWordToIEEE bbits, ?_, float64Value_ibm bbits (Uint64_lt bytes bbits hw) htop hlow⟩
  simp [IbmToIEEE, hw]

/-- C1, instance: the IBM encoding of 118.625, bytes `42 76 A0 00 00 00 00 00`. -/
theorem IbmToIEEE_exact_witness :
    Uint64 [0x42, 0x76, 0xA0, 0, 0, 0, 0, 0] = some 0x4276A00000000000 ∧
    ibmValue 0x4276A00000000000 = 118.625 ∧
    ∃ ieee, IbmToIEEE [0x42, 0x76, 0xA0, 0, 0, 0, 0, 0] = some ieee ∧
      float64Value ieee = some (ibmValue 0x4276A00000000000) :=
  ⟨by decide, by norm_num [ibmValue, ibmSign, ibmMantissa, ibmExponent],
    IbmToIEEE_exact [0x42, 0x76, 0xA0, 0, 0, 0, 0, 0] 0x4276A00000000000
      (by decide) (by decide) (by decide)⟩

/-- C5. For every 8-byte input `IbmToIEEE` returns a finite double: the exponent
field of the returned bit pattern is never 2047. -/
theorem IbmToIEEE_finite (bytes : List Byte) (h8 : bytes.length = 8) :
    ∃ ieee, IbmToIEEE bytes = some ieee ∧ ieee < 2 ^ 64 ∧ f64Exp ieee ≠ 2047 ∧
      (float64Value ieee).isSome = true := by
  obtain ⟨w, hw⟩ := Uint64_of_length bytes (by omega)
  have hx := Uint64_lt bytes w hw
  have hs := ibmShift_le w
  have hE := f64Exp_ibm w hx
  refine ⟨ibmWordToIEEE w, by simp [IbmToIEEE, hw], ?_, by rw [hE]; omega, ?_⟩
  · rw [ibmWordToIEEE_eq w hx]
    generalize ibmShift w = s at *
    omega
  · unfold float64Value
    rw [if_neg (by rw [hE]; omega), if_neg (by rw [hE]; omega)]
    rfl

/-- C5, instance: exponent 0 and the largest mantissa. -/
theorem IbmToIEEE_finite_witness :
    ∃ ieee, IbmToIEEE [0x00, 0xFF, 0xFF, 0xFF, 0xFF, 0xFF, 0xFF, 0xFF] = some ieee ∧
      ieee < 2 ^ 64 ∧ f64Exp ieee ≠ 2047 ∧ (float64Value ieee).isSome = true :=
  IbmToIEEE_finite [0x00, 0xFF, 0xFF, 0xFF, 0xFF, 0xFF, 0xFF, 0xFF] (by decide)

/-- The exponent field of the result is at least 763 for every word: the
converter never returns a zero. -/
theorem f64Exp_ibm_ge (x : Nat) (hx : x < 2 ^ 64) : 763 ≤ f64Exp (ibmWordToIEEE x) := by
  rw [f64Exp_ibm x hx]
  omega

/-- C2 (the code differs). On the all-zero buffer `IbmToIEEE` returns the bit
pattern `0x2FB0000000000000`, exponent field 763, which is `2^-260` and not `+0.0`. -/
theorem IbmToIEEE_zero_buffer :
    IbmToIEEE [0, 0, 0, 0, 0, 0, 0, 0] = some 0x2FB0000000000000 ∧
      f64Exp 0x2FB0000000000000 = 763 ∧ f64Frac 0x2FB0000000000000 = 0 ∧
      float64Value 0x2FB0000000000000 = some (2 ^ (-260 : ℤ)) := by
  refine ⟨by decide, by decide, by decide, ?_⟩
  norm_num [float64Value, f64Exp, f64Sign, f64Frac]

/-! ## The input stream -/

theorem stringsRead_append (s : List Byte) (n : Nat) :
    (stringsRead s n).1 ++ (stringsRead s n).2.2 = s := by
  unfold stringsRead
  split_ifs with h
  · simp
  · simp

theorem fill_unread (b : BufReader) : b.fill.unread = b.unread := by
  unfold BufReader.fill BufReader.unread stringsRead
  split_ifs with h
  · simp
  · simp

theorem fill_size (b : BufReader) : b.fill.size = b.size := by
  unfold BufReader.fill stringsRead
  split_ifs <;> rfl

theorem fill_wf (b : BufReader) : b.fill.wf := by
  unfold BufReader.fill BufReader.wf stringsRead
  split_ifs with h
  · right
    exact ⟨rfl, List.length_eq_zero.mp h⟩
  · left; rfl

theorem fill_err_of_rd_nil (b : BufReader) (h : b.rd = []) : b.fill.err = some .EOF := by
  unfold BufReader.fill stringsRead
  rw [h]
  rfl

theorem peekLoop_unread (fuel n : Nat) : ∀ b : BufReader, (peekLoop fuel n b).unread = b.unread := by
  induction fuel with
  | zero => intro b; rfl
  | succ f ih =>
    intro b
    unfold peekLoop
    split_ifs with h
    · rw [ih, fill_unread]
    · rfl

theorem peekLoop_size (fuel n : Nat) : ∀ b : BufReader, (peekLoop fuel n b).size = b.size := by
  induction fuel with
  | zero => intro b; rfl
  | succ f ih =>
    intro b
    unfold peekLoop
    split_ifs with h
    · rw [ih, fill_size]
    · rfl

theorem peekLoop_wf (fuel n : Nat) : ∀ b : BufReader, b.wf → (peekLoop fuel n b).wf := by
  induction fuel with
  | zero => intro b h; exact h
  | succ f ih =>
    intro b hb
    unfold peekLoop
    split_ifs with h
    · exact ih _ (fill_wf b)
    · exact hb

/-- Two calls of `fill` end the loop of `Peek`: the first fills the buffer or
exhausts the underlying reader, the second then meets `io.EOF`. -/
theorem peekLoop_done (n : Nat) (b : BufReader) :
    ¬ ((peekLoop 2 n b).buf.length < n ∧ (peekLoop 2 n b).buf.length < (peekLoop 2 n b).size ∧
      (peekLoop 2 n b).err = none) := by
  unfold peekLoop
  split_ifs with h1
  · unfold peekLoop
    split_ifs with h2
    · -- after the first fill the buffer is not full, so the reader is exhausted
      unfold peekLoop
      obtain ⟨-, h2b, h2c⟩ := h2
      have hrd : b.fill.rd = [] := by
        revert h2b h2c
        unfold BufReader.fill stringsRead
        split_ifs with h
        · intro _ _; exact List.length_eq_zero.mp h
        · intro h2b _
          simp only [List.length_append, List.length_take] at h2b
          simp only [List.drop_eq_nil_iff]
          omega
      rw [fill_err_of_rd_nil _ hrd]
      simp
    · exact h2
  · exact h1

theorem readErr_unread (b : BufReader) : b.readErr.2.unread = b.unread := rfl

theorem readErr_wf (b : BufReader) : b.readErr.2.wf := Or.inl rfl

theorem Peek_neg (b : BufReader) (n : Int) (h : n < 0) :
    Peek b n = ([], some .ErrNegativeCount, b) := by
  unfold Peek
  rw [if_pos h]

theorem Peek_nat (b : BufReader) (n : Nat) :
    Peek b (n : Int) =
      if n > (peekLoop 2 n b).size then
        ((peekLoop 2 n b).buf, some .ErrBufferFull, peekLoop 2 n b)
      else if (peekLoop 2 n b).buf.length < n then
        match (peekLoop 2 n b).err with
        | none => ((peekLoop 2 n b).buf, some .ErrBufferFull, { peekLoop 2 n b with err := none })
        | some err => ((peekLoop 2 n b).buf, some err, { peekLoop 2 n b with err := none })
      else ((peekLoop 2 n b).buf.take n, none, peekLoop 2 n b) := by
  unfold Peek
  rw [if_neg (Int.not_lt.mpr (Int.ofNat_zero_le n))]
  simp only [Int.toNat_ofNat, BufReader.readErr]
  split_ifs
  · rfl
  · cases (peekLoop 2 n b).err <;> rfl
  · rfl

/-- `Peek` consumes nothing, whatever it returns. -/
theorem Peek_unread (b : BufReader) (n : Int) :
    (Peek b n).2.2.unread = b.unread ∧ (Peek b n).2.2.size = b.size ∧
      (b.wf → (Peek b n).2.2.wf) := by
  by_cases h1 : n < 0
  · rw [Peek_neg b n h1]
    exact ⟨rfl, rfl, id⟩
  · lift n to ℕ using (not_lt.mp h1)
    rw [Peek_nat]
    split_ifs with h2 h3
    · exact ⟨peekLoop_unread _ _ _, peekLoop_size _ _ _, peekLoop_wf _ _ _⟩
    · cases he : (peekLoop 2 n b).err with
      | none => exact ⟨peekLoop_unread _ _ _, peekLoop_size _ _ _, fun _ => Or.inl rfl⟩
      | some e => exact ⟨peekLoop_unread _ _ _, peekLoop_size _ _ _, fun _ => Or.inl rfl⟩
    · exact ⟨peekLoop_unread _ _ _, peekLoop_size _ _ _, peekLoop_wf _ _ _⟩

/-- What a successful `Peek` says: the count is not negative and fits the
buffer, and the buffer now holds that many bytes. -/
theorem Peek_ok_inv (b b2 : BufReader) (n : Int) (bytes : List Byte)
    (h : Peek b n = (bytes, none, b2)) :
    0 ≤ n ∧ n.toNat ≤ b.size ∧ n.toNat ≤ b2.buf.length ∧ bytes = b2.buf.take n.toNat ∧
      b2.unread = b.unread ∧ b2.size = b.size ∧ (b.wf → b2.wf) := by
  have hp := Peek_unread b n
  rw [h] at hp
  obtain ⟨hu, hs, hw⟩ := hp
  by_cases h1 : n < 0
  · rw [Peek_neg b n h1] at h
    simp at h
  · lift n to ℕ using (not_lt.mp h1)
    rw [Peek_nat] at h
    simp only [Int.toNat_ofNat]
    split_ifs at h with h2 h3
    · simp at h
    · cases he : (peekLoop 2 n b).err with
      | none => rw [he] at h; simp at h
      | some e => rw [he] at h; simp at h
    · simp only [Prod.mk.injEq, true_and] at h
      obtain ⟨hb, hb2⟩ := h
      subst hb2
      rw [peekLoop_size] at h2
      exact ⟨Int.ofNat_zero_le n, by omega, by omega, hb.symm, hu, hs, hw⟩

/-- `Peek` succeeds when the count fits the buffer and the input has that many
bytes left. -/
theorem Peek_ok (b : BufReader) (n : Nat) (hwf : b.wf) (hn : n ≤ b.size)
    (hlen : n ≤ b.unread.length) :
    ∃ b2, Peek b (n : Int) = (b.unread.take n, none, b2) ∧ n ≤ b2.buf.length ∧
      b2.unread = b.unread ∧ b2.size = b.size ∧ b2.wf := by
  have hd := peekLoop_done n b
  have hu := peekLoop_unread 2 n b
  have hs := peekLoop_size 2 n b
  have hw := peekLoop_wf 2 n b hwf
  have hbuf : n ≤ (peekLoop 2 n b).buf.length := by
    by_contra hc
    have hlt : (peekLoop 2 n b).buf.length < n := by omega
    have herr : (peekLoop 2 n b).err ≠ none := by
      intro he
      exact hd ⟨hlt, by omega, he⟩
    rcases hw with hw | ⟨_, hrd⟩
    · exact herr hw
    · have : (peekLoop 2 n b).unread = (peekLoop 2 n b).buf := by
        unfold BufReader.unread
        rw [hrd, List.append_nil]
      rw [← hu, this] at hlen
      omega
  refine ⟨peekLoop 2 n b, ?_, hbuf, hu, hs, hw⟩
  rw [Peek_nat, if_neg (by omega), if_neg (by omega)]
  congr 1
  rw [← hu]
  unfold BufReader.unread
  rw [List.take_append_of_le_length hbuf]

/-- `Peek` of more bytes than the input has left, within the buffer: all the
bytes left are returned with `io.EOF`. -/
theorem Peek_short (b : BufReader) (n : Nat) (hwf : b.wf) (hn : n ≤ b.size)
    (hlen : b.unread.length < n) :
    ∃ b2, Peek b (n : Int) = (b.unread, some .EOF, b2) ∧ b2.unread = b.unread ∧
      b2.size = b.size ∧ b2.wf := by
  have hd := peekLoop_done n b
  have hu := peekLoop_unread 2 n b
  have hs := peekLoop_size 2 n b
  have hw := peekLoop_wf 2 n b hwf
  have hle : (peekLoop 2 n b).buf.length ≤ b.unread.length := by
    rw [← hu]
    unfold BufReader.unread
    rw [List.length_append]
    omega
  have hlt : (peekLoop 2 n b).buf.length < n := by omega
  have herr : (peekLoop 2 n b).err ≠ none := by
    intro he
    exact hd ⟨hlt, by omega, he⟩
  rcases hw with hw | ⟨he, hrd⟩
  · exact absurd hw herr
  · have hbu : (peekLoop 2 n b).buf = b.unread := by
      rw [← hu]
      unfold BufReader.unread
      rw [hrd, List.append_nil]
    refine ⟨{ peekLoop 2 n b with err := none }, ?_, ?_, hs, Or.inl rfl⟩
    · rw [Peek_nat, if_neg (by omega), if_pos hlt, he, hbu]
    · exact hu

/-- `Peek` of more bytes than the buffer can hold fails with
`bufio.ErrBufferFull`, whatever the input holds. -/
theorem Peek_buffer_full (b : BufReader) (n : Nat) (hn : b.size < n) :
    (Peek b (n : Int)).2.1 = some .ErrBufferFull := by
  rw [Peek_nat, if_pos (by rw [peekLoop_size]; omega)]

theorem take_min_length (l : List Byte) (a : Nat) : l.take (min a l.length) = l.take a := by
  rcases Nat.le_total a l.length with h | h
  · rw [Nat.min_eq_left h]
  · rw [Nat.min_eq_right h, List.take_length, List.take_of_length_le h]

theorem drop_min_length (l : List Byte) (a : Nat) : l.drop (min a l.length) = l.drop a := by
  rcases Nat.le_total a l.length with h | h
  · rw [Nat.min_eq_left h]
  · rw [Nat.min_eq_right h, List.drop_length, List.drop_eq_nil_of_le h]

/-- A read that the buffered bytes can serve in full is served from them. -/
theorem Read_buffered (b : BufReader) (p : List Byte) (hp : 0 < p.length)
    (h : p.length ≤ b.buf.length) :
    Read b p = (b.buf.take p.length, p.length, none, { b with buf := b.buf.drop p.length }) := by
  unfold Read
  rw [if_neg (by omega), if_neg (by omega), List.drop_eq_nil_of_le h, List.append_nil,
    Nat.min_eq_left h]

theorem Read_append (sz : Nat) (blk rest rd p : List Byte) (e : Option GoError)
    (hp : p.length = blk.length) (hpos : 0 < blk.length) :
    Read ⟨sz, blk ++ rest, rd, e⟩ p = (blk, blk.length, none, ⟨sz, rest, rd, e⟩) := by
  rw [Read_buffered _ _ (by omega) (by simp only [List.length_append]; omega)]
  simp only [hp, List.take_left', List.drop_left']

/-- What one `Read` into a non-empty `p` does to the input: it takes `k` bytes
from the front, at least one unless the input is at its end. -/
theorem Read_spec (b : BufReader) (p : List Byte) (hwf : b.wf) (hp : 0 < p.length) :
    ∃ k e b2, Read b p = (b.unread.take k ++ p.drop k, k, e, b2) ∧
      b2.unread = b.unread.drop k ∧ b2.wf ∧ b2.size = b.size ∧ k ≤ p.length ∧
      k ≤ b.unread.length ∧ (b.rd = [] → b2.rd = [] ∧ k = min p.length b.unread.length) ∧
      ((b.unread = [] ∧ e = some .EOF ∧ k = 0) ∨ (b.unread ≠ [] ∧ e = none ∧ 1 ≤ k)) := by
  obtain ⟨sz, buf, rd, err⟩ := b
  unfold Read
  simp only [BufReader.unread, BufReader.readErr]
  rw [if_neg (by omega)]
  by_cases hb : buf.length = 0
  · -- the buffer is empty
    have hbn : buf = [] := List.length_eq_zero.mp hb
    subst hbn
    simp only [List.length_nil, if_true, List.nil_append]
    by_cases he : err ≠ none
    · rw [if_pos he]
      rcases hwf with hw | ⟨hw1, hw2⟩
      · exact absurd hw he
      · simp only at hw1 hw2
        subst hw1 hw2
        exact ⟨0, some .EOF, _, rfl, rfl, Or.inl rfl, rfl, by omega, by simp,
          fun _ => ⟨rfl, by simp⟩, Or.inl ⟨rfl, rfl, rfl⟩⟩
    · rw [if_neg he]
      have hen : err = none := not_not.mp he
      subst hen
      by_cases hrd : rd.length = 0
      · have hrn : rd = [] := List.length_eq_zero.mp hrd
        subst hrn
        simp only [stringsRead, List.length_nil, if_true]
        split_ifs
        · exact ⟨0, some .EOF, ⟨sz, [], [], none⟩, rfl, rfl, Or.inl rfl, rfl, by omega, by simp,
            by simp, by simp⟩
        · exact ⟨0, some .EOF, ⟨sz, [], [], none⟩, rfl, rfl, Or.inl rfl, rfl, by omega, by simp,
            by simp, by simp⟩
      · have hrne : rd ≠ [] := fun h => hrd (by rw [h]; rfl)
        by_cases hl : p.length ≥ sz
        · rw [if_pos hl]
          simp only [stringsRead, if_neg hrd, List.length_take]
          refine ⟨min p.length rd.length, none, ⟨sz, [], rd.drop p.length, none⟩, ?_, ?_,
            Or.inl rfl, rfl, Nat.min_le_left _ _,
            Nat.min_le_right _ _, fun h => absurd h hrne, Or.inr ⟨hrne, rfl, ?_⟩⟩
          · rw [take_min_length]
          · simp only [drop_min_length, List.nil_append]
          · omega
        · rw [if_neg hl]
          simp only [stringsRead, if_neg hrd, List.length_take]
          have hq : ¬ min sz rd.length = 0 := by omega
          rw [if_neg hq]
          have hk : min p.length (min sz rd.length) = min p.length rd.length := by omega
          refine ⟨min p.length rd.length, none,
            ⟨sz, (rd.take sz).drop p.length, rd.drop sz, none⟩, ?_, ?_, Or.inl rfl, rfl,
            Nat.min_le_left _ _,
            Nat.min_le_right _ _, fun h => absurd h hrne, Or.inr ⟨hrne, rfl, ?_⟩⟩
          · rw [hk, take_min_length, List.take_take]
            have h1 : min p.length sz = p.length := by omega
            rw [h1]
            congr 2
            rcases Nat.le_total p.length rd.length with h | h
            · rw [List.drop_eq_nil_of_le (by omega), Nat.min_eq_left h, List.drop_length]
            · have : min sz rd.length = min p.length rd.length := by omega
              rw [this]
          · simp only [drop_min_length]
            rcases Nat.le_total p.length (min sz rd.length) with h | h
            · rw [← List.drop_append_of_le_length (by rw [List.length_take]; exact h),
                List.take_append_drop]
            · rw [List.drop_eq_nil_of_le (by rw [List.length_take]; exact h),
                List.drop_eq_nil_of_le (by omega : rd.length ≤ sz), List.nil_append,
                List.drop_eq_nil_of_le (by omega)]
          · omega
  · -- the buffer holds bytes
    rw [if_neg hb]
    have hbne : buf ≠ [] := fun h => hb (by rw [h]; rfl)
    refine ⟨min p.length buf.length, none, ⟨sz, buf.drop p.length, rd, err⟩, ?_, ?_, ?_, rfl,
      Nat.min_le_left _ _, ?_, ?_,
      Or.inr ⟨by simp [hbne], rfl, by omega⟩⟩
    · congr 1
      rcases Nat.le_total p.length buf.length with h | h
      · rw [Nat.min_eq_left h, List.take_append_of_le_length h, List.drop_eq_nil_of_le h,
          List.drop_length]
      · rw [Nat.min_eq_right h, List.take_left' rfl, List.take_of_length_le h]
    · simp only
      rcases Nat.le_total p.length buf.length with h | h
      · rw [Nat.min_eq_left h, List.drop_append_of_le_length h]
      · rw [Nat.min_eq_right h, List.drop_left' rfl, List.drop_eq_nil_of_le h, List.nil_append]
    · rcases hwf with hw | hw
      · exact Or.inl hw
      · exact Or.inr hw
    · simp only [List.length_append]; omega
    · intro hr
      subst hr
      simp

theorem readAtLeastLoop_err (fuel : Nat) (b : BufReader) (out : List Byte) (m n : Nat)
    (e : GoError) : readAtLeastLoop fuel b out m n (some e) = (out, n, some e, b) := by
  cases fuel with
  | zero => rfl
  | succ f =>
    unfold readAtLeastLoop
    rw [if_neg (by simp)]

/-- The loop of `io.ReadFull` with enough iterations left: it takes from the
input what is missing in the buffer, or all that is left. -/
theorem readAtLeastLoop_spec (m : Nat) (fuel : Nat) :
    ∀ (b : BufReader) (out : List Byte) (n : Nat), b.wf → out.length = m → n ≤ m →
      m - n < fuel →
      ∃ b2, readAtLeastLoop fuel b out m n none =
          (out.take n ++ (b.unread.take (m - n) ++ out.drop (n + b.unread.length)),
            n + min (m - n) b.unread.length,
            (if m - n ≤ b.unread.length then none else some .EOF), b2) ∧
        b2.unread = b.unread.drop (m - n) ∧ b2.wf ∧ b2.size = b.size ∧
        (b.rd = [] → b2.rd = []) := by
  induction fuel with
  | zero => intro b out n _ _ _ h; omega
  | succ f ih =>
    intro b out n hwf hout hn hfuel
    unfold readAtLeastLoop
    by_cases hlt : n < m
    · rw [if_pos ⟨hlt, rfl⟩]
      have hp : 0 < (out.drop n).length := by rw [List.length_drop]; omega
      obtain ⟨k, e, b1, hR, hu1, hw1, hs1, hk1, hk2, hrd1, hcase⟩ :=
        Read_spec b (out.drop n) hwf hp
      rw [List.length_drop, hout] at hk1
      rw [hR]
      dsimp only
      rcases hcase with ⟨hU, he, hk0⟩ | ⟨hU, he, hk0⟩
      · subst he hk0
        rw [readAtLeastLoop_err, hU]
        refine ⟨b1, ?_, ?_, hw1, hs1, fun h => (hrd1 h).1⟩
        · simp only [List.take_nil, List.drop_zero, List.nil_append, List.take_append_drop,
            List.length_nil, Nat.add_zero, Nat.min_zero]
          rw [if_neg (by omega)]
        · rw [hu1, hU]; simp
      · subst he
        have hlen1 : (out.take n ++ (b.unread.take k ++ (out.drop n).drop k)).length = m := by
          simp only [List.length_append, List.length_take, List.length_drop, hout]
          omega
        obtain ⟨b2, hL, hu2, hw2, hs2, hrd2⟩ := ih b1 _ (n + k) hw1 hlen1 (by omega) (by omega)
        rw [hL]
        refine ⟨b2, ?_, ?_, hw2, by rw [hs2, hs1], fun h => hrd2 (hrd1 h).1⟩
        · have hA : (out.take n).length = n := by rw [List.length_take, hout]; omega
          have hB : (b.unread.take k).length = k := by rw [List.length_take]; omega
          have e1 : (out.take n ++ (b.unread.take k ++ (out.drop n).drop k)).take (n + k) =
              out.take n ++ b.unread.take k := by
            rw [← List.append_assoc]
            exact List.take_left' (by rw [List.length_append, hA, hB])
          have e2 : (out.take n ++ (b.unread.take k ++ (out.drop n).drop k)).drop
              (n + k + b1.unread.length) = out.drop (n + b.unread.length) := by
            have s1 : (out.take n ++ (b.unread.take k ++ (out.drop n).drop k)).drop
                (n + k + b1.unread.length) =
                ((out.take n ++ (b.unread.take k ++ (out.drop n).drop k)).drop (n + k)).drop
                  b1.unread.length := (List.drop_drop _ _ _).symm
            have s2 : (out.take n ++ (b.unread.take k ++ (out.drop n).drop k)).drop (n + k) =
                (out.drop n).drop k := by
              rw [← List.append_assoc]
              exact List.drop_left' (by rw [List.length_append, hA, hB])
            rw [s1, s2, hu1, List.length_drop]
            simp only [List.drop_drop]
            congr 1
            omega
          have e3 : b.unread.take k ++ b1.unread.take (m - (n + k)) = b.unread.take (m - n) := by
            rw [hu1, ← List.take_add]
            congr 1
            omega
          rw [e1, e2, List.append_assoc, ← List.append_assoc (b.unread.take k), e3]
          have e4 : n + k + min (m - (n + k)) b1.unread.length =
              n + min (m - n) b.unread.length := by
            rw [hu1, List.length_drop]; omega
          have e5 : (m - (n + k) ≤ b1.unread.length) ↔ (m - n ≤ b.unread.length) := by
            rw [hu1, List.length_drop]; omega
          rw [e4]
          simp only [e5]
        · rw [hu2, hu1, List.drop_drop]
          congr 1
          omega
    · rw [if_neg (by omega)]
      have hnm : n = m := by omega
      subst hnm
      refine ⟨b, ?_, by simp, hwf, rfl, id⟩
      simp only [Nat.sub_self, List.take_zero, List.nil_append, Nat.zero_min, Nat.add_zero,
        Nat.zero_le, if_true]
      rw [List.drop_eq_nil_of_le (by omega), List.append_nil, ← hout, List.take_length]

/-- `io.ReadFull` on the input: the buffer is filled from the front of the
input; when the input is too short, what is left is taken and the rest of the
buffer stays as it was. -/
theorem ReadFull_spec (b : BufReader) (buf : List Byte) (hwf : b.wf) :
    ∃ b2, ReadFull b buf =
        (b.unread.take buf.length ++ buf.drop b.unread.length,
          min buf.length b.unread.length,
          (if buf.length ≤ b.unread.length then none
            else if b.unread.length = 0 then some .EOF else some .ErrUnexpectedEOF), b2) ∧
      b2.unread = b.unread.drop buf.length ∧ b2.wf ∧ b2.size = b.size ∧
      (b.rd = [] → b2.rd = []) := by
  obtain ⟨b2, hL, hu, hw, hs, hrd⟩ :=
    readAtLeastLoop_spec buf.length (buf.length + 1) b buf 0 hwf rfl (Nat.zero_le _) (by omega)
  refine ⟨b2, ?_, by simpa using hu, hw, hs, hrd⟩
  unfold ReadFull
  rw [hL]
  simp only [List.take_zero, List.nil_append, Nat.sub_zero, Nat.zero_add]
  by_cases h1 : buf.length ≤ b.unread.length
  · rw [if_pos (by omega), if_pos h1]
  · rw [if_neg (by omega), if_neg h1, if_neg h1]
    by_cases h2 : b.unread.length = 0
    · rw [if_neg (by omega), if_pos h2]
    · rw [if_pos ⟨by omega, rfl⟩, if_neg h2]

/-- `io.ReadFull` when the input holds what the buffer asks for. -/
theorem ReadFull_ok (b : BufReader) (buf : List Byte) (hwf : b.wf)
    (h : buf.length ≤ b.unread.length) :
    ∃ b2, ReadFull b buf = (b.unread.take buf.length, buf.length, none, b2) ∧
      b2.unread = b.unread.drop buf.length ∧ b2.wf ∧ b2.size = b.size ∧
      (b.rd = [] → b2.rd = []) := by
  obtain ⟨b2, hR, hrest⟩ := ReadFull_spec b buf hwf
  refine ⟨b2, ?_, hrest⟩
  rw [hR, if_pos h, List.drop_eq_nil_of_le h, List.append_nil, Nat.min_eq_left h]

/-! ## The reader -/

theorem bytesContains_iff (b sub : List Byte) : bytesContains b sub = true ↔ sub <:+: b := by
  induction b with
  | nil => simp [bytesContains, List.isEmpty_iff]
  | cons c t ih =>
    simp only [bytesContains, Bool.or_eq_true, ih, List.infix_cons_iff, List.isPrefixOf_iff_prefix]

theorem Uint16_isSome (l : List Byte) (h : 2 ≤ l.length) : ∃ n, Uint16 l = some n := by
  match l, h with
  | b0 :: b1 :: _, _ => exact ⟨_, rfl⟩

theorem slice_eq_some (s : List Byte) (lo hi : Nat) (h : lo ≤ hi) (h2 : hi ≤ s.length) :
    slice s lo hi = some ((s.take hi).drop lo) := by
  unfold slice
  rw [if_pos ⟨h, h2⟩]

theorem slice_Uint16 (s : List Byte) (lo : Nat) (h2 : lo + 2 ≤ s.length) :
    ∃ n, (slice s lo (lo + 2)).bind Uint16 = some n := by
  rw [slice_eq_some s lo (lo + 2) (by omega) h2]
  exact Uint16_isSome _ (by rw [List.length_drop, List.length_take]; omega)

/-- A descriptor block of at least 88 bytes is decoded without a panic. -/
theorem parseVariable_isSome (cur : List Byte) (h : 88 ≤ cur.length) :
    ∃ v, parseVariable cur = some v := by
  obtain ⟨n1, e1⟩ := slice_Uint16 cur 4 (by omega)
  obtain ⟨n2, e2⟩ := slice_Uint16 cur 0 (by omega)
  obtain ⟨n3, e3⟩ := slice_Uint16 cur 6 (by omega)
  obtain ⟨n4, e4⟩ := slice_Uint16 cur 86 (by omega)
  have e5 := slice_eq_some cur 8 16 (by omega) (by omega)
  have e6 := slice_eq_some cur 16 cur.length (by omega) (by omega)
  simp only [Nat.reduceAdd] at e1 e2 e3 e4
  unfold parseVariable
  rw [e1, e2, e3, e4, e5, e6]
  exact ⟨_, rfl⟩

/-- A descriptor block shorter than 88 bytes makes the position slice panic. -/
theorem parseVariable_none (cur : List Byte) (h : cur.length < 88) :
    parseVariable cur = none := by
  have e4 : slice cur 86 88 = none := by
    unfold slice
    rw [if_neg (by omega)]
  unfold parseVariable
  rw [e4]
  cases (slice cur 4 6).bind Uint16 with
  | none => rfl
  | some a =>
    cases slice cur 8 16 with
    | none => rfl
    | some b =>
      cases (slice cur 0 2).bind Uint16 with
      | none => rfl
      | some c =>
        cases (slice cur 6 8).bind Uint16 with
        | none => rfl
        | some d => rfl

theorem checkHeader_eq_none (buf header : List Byte) :
    checkHeader buf header = none ↔ header <:+: buf := by
  unfold checkHeader
  rw [← bytesContains_iff]
  cases bytesContains buf header <;> simp

theorem checkHeader_of_not (buf header : List Byte) (h : ¬ header <:+: buf) :
    checkHeader buf header = some (.errorString (ascii "expected to contain: '" ++ header ++
      ascii "' but got: '" ++ buf ++ ascii "'")) := by
  rw [← bytesContains_iff] at h
  unfold checkHeader
  rw [if_pos (by simpa using h)]

theorem directory_length (sz cnt : Int) (hsz : 0 ≤ sz) (hprod : 0 ≤ sz * cnt) :
    cnt.toNat * sz.toNat = (sz * cnt).toNat ∧ cnt * sz = ((sz * cnt).toNat : Int) := by
  constructor
  · rcases le_or_lt 0 cnt with hc | hc
    · lift sz to ℕ using hsz
      lift cnt to ℕ using hc
      norm_cast
      simp [Nat.mul_comm]
    · have hz : sz = 0 := by
        rcases hsz.lt_or_eq with h | h
        · exact absurd (mul_neg_of_pos_of_neg h hc) (not_lt.mpr hprod)
        · exact h.symm
      subst hz
      simp
  · rw [Int.toNat_of_nonneg hprod, mul_comm]

theorem infix_of_infix_concat (sub l : List Byte) (z : Byte) (hz : z ∉ sub) (hne : sub ≠ [])
    (h : sub <:+: l ++ [z]) : sub <:+: l := by
  have h2 := List.reverse_infix.mpr h
  rw [List.reverse_append, List.reverse_singleton, List.singleton_append,
    List.infix_cons_iff] at h2
  rcases h2 with h2 | h2
  · exfalso
    cases hs : sub.reverse with
    | nil => exact hne (List.reverse_eq_nil_iff.mp hs)
    | cons a t =>
      rw [hs] at h2
      have ha : a = z := by
        obtain ⟨u, hu⟩ := h2
        simp only [List.cons_append, List.cons.injEq] at hu
        exact hu.1
      apply hz
      rw [← List.mem_reverse, hs, ha]
      exact List.mem_cons_self _ _
  · exact List.reverse_infix.mp h2

theorem infix_of_infix_append_replicate (sub l : List Byte) (z : Byte) (n : Nat)
    (hz : z ∉ sub) (hne : sub ≠ []) (h : sub <:+: l ++ List.replicate n z) : sub <:+: l := by
  induction n with
  | zero => simpa using h
  | succ n ih =>
    rw [List.replicate_succ', ← List.append_assoc] at h
    exact ih (infix_of_infix_concat sub _ z hz hne h)

theorem OBS_HEADER_no_zero : (0 : Byte) ∉ OBS_HEADER ∧ OBS_HEADER ≠ [] := by decide

theorem OBS_HEADER_length : OBS_HEADER.length = 48 := by decide

theorem blocks_decomp (input : List Byte) :
    input = input.take 80 ++ ((input.drop 80).take 80 ++ ((input.drop 160).take 80 ++
      ((input.drop 240).take 80 ++ ((input.drop 320).take 80 ++ ((input.drop 400).take 80 ++
      ((input.drop 480).take 80 ++ ((input.drop 560).take 80 ++ input.drop 640))))))) := by
  have step : ∀ n, input.drop n = (input.drop n).take 80 ++ input.drop (n + 80) := by
    intro n
    rw [← List.drop_drop, List.take_append_drop]
  have s0 := step 0
  simp only [List.drop_zero] at s0
  conv_lhs => rw [s0, step 80, step 160, step 240, step 320, step 400, step 480, step 560]

theorem block_length (input : List Byte) (n : Nat) (h : n + 80 ≤ input.length) :
    ((input.drop n).take 80).length = 80 := by
  rw [List.length_take, List.length_drop]; omega

theorem not_infix_of_bytesContains (b sub : List Byte) (h : bytesContains b sub = false) :
    ¬ sub <:+: b := by
  rw [← bytesContains_iff, h]
  simp

theorem infix_of_bytesContains (b sub : List Byte) (h : bytesContains b sub = true) :
    sub <:+: b := (bytesContains_iff b sub).mp h

theorem atoiDigits_digits (s : List Byte) :
    ∀ n, (∀ b ∈ s, isDigit b = true) →
      atoiDigits s n = some (s.foldl (fun n b => n * 10 + (b.val - 48)) n) := by
  induction s with
  | nil => intro n _; rfl
  | cons c t ih =>
    intro n h
    have hc : isDigit c = true := h c (List.mem_cons_self _ _)
    simp only [isDigit, decide_eq_true_eq] at hc
    have e : (c.val + 256 - 48) % 256 = c.val - 48 := by omega
    simp only [atoiDigits, e, List.foldl_cons]
    rw [if_neg (by omega)]
    exact ih _ (fun b hb => h b (List.mem_cons_of_mem _ hb))

/-- `strconv.Atoi` on a non-empty string of ASCII digits returns its decimal value. -/
theorem Atoi_digits (s : List Byte) (hne : s ≠ []) (h : ∀ b ∈ s, isDigit b = true) :
    Atoi s = .ok (decimalValue s : Int) := by
  cases s with
  | nil => exact absurd rfl hne
  | cons c t =>
    have hc : isDigit c = true := h c (List.mem_cons_self _ _)
    simp only [isDigit, decide_eq_true_eq] at hc
    have h45 : ¬ c = 45 := by
      intro e; rw [e] at hc; revert hc; decide
    have h43 : ¬ c = 43 := by
      intro e; rw [e] at hc; revert hc; decide
    unfold Atoi
    simp only [h45, h43, or_self, if_false]
    rw [if_neg (by simp), atoiDigits_digits _ 0 h]
    rfl

theorem headerRecord_length (input : List Byte) (k : Nat) (h : 80 * k ≤ input.length)
    (hk : 0 < k) : (headerRecord input k).length = 80 := by
  unfold headerRecord
  rw [List.length_take, List.length_drop]
  have : 80 * (k - 1) + 80 = 80 * k := by
    cases k with
    | zero => omega
    | succ n => simp [Nat.mul_succ]
  omega

theorem headerRecords_decomp (input : List Byte) :
    input = headerRecord input 1 ++ (headerRecord input 2 ++ (headerRecord input 3 ++
      (headerRecord input 4 ++ (headerRecord input 5 ++ (headerRecord input 6 ++
      (headerRecord input 7 ++ (headerRecord input 8 ++ input.drop 640))))))) :=
  blocks_decomp input

theorem sub_length (b : List Byte) (lo hi : Nat) (h : hi ≤ b.length) :
    (sub b lo hi).length = hi - lo := by
  unfold sub
  rw [List.length_drop, List.length_take]
  omega

theorem getVariable_eq_none (reader : Reader) (varName : List Byte)
    (h : ∀ v ∈ reader.Variables, v.Name ≠ varName) : getVariable reader varName = none := by
  unfold getVariable
  rw [List.find?_eq_none]
  intro v hv
  simpa using h v hv

theorem getVariable_isSome (reader : Reader) (varName : List Byte)
    (h : ∃ v ∈ reader.Variables, v.Name = varName) :
    ∃ v, getVariable reader varName = some v := by
  obtain ⟨v, hv, hn⟩ := h
  cases hf : getVariable reader varName with
  | some w => exact ⟨w, rfl⟩
  | none =>
    exfalso
    unfold getVariable at hf
    rw [List.find?_eq_none] at hf
    have := hf v hv
    simp [hn] at this

theorem out_of_bounds_text_ne (varName : List Byte) :
    ascii "variable position out of bounds of record '" ++ varName ++ ascii "'" ≠
      ascii "variable does not exist: " ++ varName := by
  have eA : ascii "variable position out of bounds of record '" =
      ascii "variable p" ++ ascii "osition out of bounds of record '" := by decide!
  have eB : ascii "variable does not exist: " =
      ascii "variable d" ++ ascii "oes not exist: " := by decide!
  have lA : (ascii "variable p").length = 10 := by decide!
  have lB : (ascii "variable d").length = 10 := by decide!
  intro h
  have h2 := congrArg (List.take 10) h
  rw [eA, eB] at h2
  simp only [List.append_assoc] at h2
  rw [List.take_left' lA, List.take_left' lB] at h2
  revert h2
  decide!

theorem lor_shift8 (x y : Nat) (hy : y < 256) : y ||| x <<< 8 = x * 256 + y := by
  rw [Nat.shiftLeft_eq, Nat.lor_comm, Nat.mul_comm x (2 ^ 8)]
  have hy8 : y < 2 ^ 8 := by norm_num; exact hy
  rw [← Nat.mul_add_lt_is_or hy8 x]

theorem take_drop_two (o : Nat) : ∀ (b : List Byte), o + 2 ≤ b.length →
    (b.take (o + 2)).drop o = [b.getD o 0, b.getD (o + 1) 0] := by
  induction o with
  | zero =>
    intro b h
    match b, h with
    | x :: y :: t, _ => rfl
  | succ o ih =>
    intro b h
    match b, h with
    | x :: t, h =>
      have h2 : o + 2 ≤ t.length := by simp at h; omega
      have := ih t h2
      simpa using this

/-- The code's two-byte read is the big-endian integer of the specification. -/
theorem slice_Uint16_eq (b : List Byte) (o : Nat) (h : o + 2 ≤ b.length) :
    (slice b o (o + 2)).bind Uint16 = some (be16 b o) := by
  rw [slice_eq_some b o (o + 2) (by omega) h, take_drop_two o b h]
  simp only [Option.some_bind, Uint16, be16]
  rw [lor_shift8 _ _ (b.getD (o + 1) 0).isLt]

/-- On a block of at least 88 bytes the code decodes a descriptor as the
specification does. -/
theorem parseVariable_eq (b : List Byte) (h : 88 ≤ b.length) :
    parseVariable b = some (decodeVariable b) := by
  have e1 := slice_Uint16_eq b 4 (by omega)
  have e2 := slice_Uint16_eq b 0 (by omega)
  have e3 := slice_Uint16_eq b 6 (by omega)
  have e4 := slice_Uint16_eq b 86 (by omega)
  have e5 := slice_eq_some b 8 16 (by omega) (by omega)
  have e6 := slice_eq_some b 16 b.length (by omega) (by omega)
  simp only [Nat.reduceAdd] at e1 e2 e3 e4
  unfold parseVariable
  rw [e1, e2, e3, e4, e5, e6]
  simp only [Option.bind_eq_bind, Option.some_bind, Option.pure_def, decodeVariable,
    List.take_length, Option.some.injEq, Variable.mk.injEq, true_and, and_true]
  cases hd : decide (be16 b 0 = 1) <;> simp_all

theorem readHeaderLine1_eq (bs : Nat) (b rest rd buf : List Byte) (e : Option GoError)
    (hb : buf.length = b.length)
    (hpos : 0 < b.length) (cb : List Byte) (hdr : Header) (vs : List Variable) (rl : Nat) :
    readHeaderLine1 ⟨⟨bs, b ++ rest, rd, e⟩, cb, hdr, vs, rl⟩ buf =
      match checkHeader b XPT_LIBRARY_HEADER_RECORD with
      | some err => (⟨⟨bs, rest, rd, e⟩, cb, hdr, vs, rl⟩, some err)
      | none => readHeaderLine2 ⟨⟨bs, rest, rd, e⟩, cb, hdr, vs, rl⟩ b := by
  simp only [readHeaderLine1, Read_append bs b rest rd buf e hb hpos]

theorem readHeaderLine2_eq (bs : Nat) (b rest rd buf : List Byte) (e : Option GoError)
    (hb : buf.length = b.length)
    (hpos : 0 < b.length) (cb : List Byte) (hdr : Header) (vs : List Variable) (rl : Nat) :
    readHeaderLine2 ⟨⟨bs, b ++ rest, rd, e⟩, cb, hdr, vs, rl⟩ buf =
      if !bytesContains b (ascii "SAS") then
        (⟨⟨bs, rest, rd, e⟩, cb, hdr, vs, rl⟩,
          some (.errorString (ascii "expected first real header record got: '" ++ b ++ ascii "'")))
      else
        readHeaderLine3 ⟨⟨bs, rest, rd, e⟩, cb, { hdr with
          sasVer := sub b 24 32, sasOs := sub b 32 40, created := sub b 74 b.length }, vs, rl⟩ b := by
  simp only [readHeaderLine2, Read_append bs b rest rd buf e hb hpos]

theorem readHeaderLine3_eq (bs : Nat) (b rest rd buf : List Byte) (e : Option GoError)
    (hb : buf.length = b.length)
    (hpos : 0 < b.length) (cb : List Byte) (hdr : Header) (vs : List Variable) (rl : Nat) :
    readHeaderLine3 ⟨⟨bs, b ++ rest, rd, e⟩, cb, hdr, vs, rl⟩ buf =
      readHeaderLine4 ⟨⟨bs, rest, rd, e⟩, cb, { hdr with modified := TrimSpace b }, vs, rl⟩ b := by
  simp only [readHeaderLine3, Read_append bs b rest rd buf e hb hpos]

theorem readHeaderLine4_eq (bs : Nat) (b rest rd buf : List Byte) (e : Option GoError)
    (hb : buf.length = b.length)
    (hpos : 0 < b.length) (cb : List Byte) (hdr : Header) (vs : List Variable) (rl : Nat) :
    readHeaderLine4 ⟨⟨bs, b ++ rest, rd, e⟩, cb, hdr, vs, rl⟩ buf =
      match checkHeader b MEMBER_HEADER_RECORD with
      | some err => (⟨⟨bs, rest, rd, e⟩, cb, hdr, vs, rl⟩, some err)
      | none =>
        match Atoi (sub b 74 78) with
        | .error err =>
          (⟨⟨bs, rest, rd, e⟩, cb, hdr, vs, rl⟩,
            some (errorfV (ascii "error getting variable record length: ") err))
        | .ok n => readHeaderLine5 ⟨⟨bs, rest, rd, e⟩, cb, { hdr with variableRecordSize := n }, vs, rl⟩ b := by
  simp only [readHeaderLine4, Read_append bs b rest rd buf e hb hpos]

theorem readHeaderLine5_eq (bs : Nat) (b rest rd buf : List Byte) (e : Option GoError)
    (hb : buf.length = b.length)
    (hpos : 0 < b.length) (cb : List Byte) (hdr : Header) (vs : List Variable) (rl : Nat) :
    readHeaderLine5 ⟨⟨bs, b ++ rest, rd, e⟩, cb, hdr, vs, rl⟩ buf =
      match checkHeader b DSCRPTR_HEADER_RECORD with
      | some err => (⟨⟨bs, rest, rd, e⟩, cb, hdr, vs, rl⟩, some err)
      | none => readHeaderLine6 ⟨⟨bs, rest, rd, e⟩, cb, hdr, vs, rl⟩ b := by
  simp only [readHeaderLine5, Read_append bs b rest rd buf e hb hpos]

theorem readHeaderLine6_eq (bs : Nat) (b rest rd buf : List Byte) (e : Option GoError)
    (hb : buf.length = b.length)
    (hpos : 0 < b.length) (cb : List Byte) (hdr : Header) (vs : List Variable) (rl : Nat) :
    readHeaderLine6 ⟨⟨bs, b ++ rest, rd, e⟩, cb, hdr, vs, rl⟩ buf =
      readHeaderLine7 ⟨⟨bs, rest, rd, e⟩, cb, { hdr with dataset := TrimSpace (sub b 8 16) }, vs, rl⟩ b := by
  simp only [readHeaderLine6, Read_append bs b rest rd buf e hb hpos]

theorem readHeaderLine7_eq (bs : Nat) (b rest rd buf : List Byte) (e : Option GoError)
    (hb : buf.length = b.length)
    (hpos : 0 < b.length) (cb : List Byte) (hdr : Header) (vs : List Variable) (rl : Nat) :
    readHeaderLine7 ⟨⟨bs, b ++ rest, rd, e⟩, cb, hdr, vs, rl⟩ buf =
      readHeaderLine8 ⟨⟨bs, rest, rd, e⟩, cb, { hdr with modified := TrimSpace (sub b 0 17) }, vs, rl⟩ b := by
  simp only [readHeaderLine7, Read_append bs b rest rd buf e hb hpos]

theorem readHeaderLine8_eq (bs : Nat) (b rest rd buf : List Byte) (e : Option GoError)
    (hb : buf.length = b.length)
    (hpos : 0 < b.length) (cb : List Byte) (hdr : Header) (vs : List Variable) (rl : Nat) :
    readHeaderLine8 ⟨⟨bs, b ++ rest, rd, e⟩, cb, hdr, vs, rl⟩ buf =
      match checkHeader b NAME_STR_HEADER with
      | some err => (⟨⟨bs, rest, rd, e⟩, cb, hdr, vs, rl⟩, some err)
      | none =>
        match Atoi (sub b 54 58) with
        | .error err =>
          (⟨⟨bs, rest, rd, e⟩, cb, hdr, vs, rl⟩, some (errorfV (ascii "error getting variable count: ") err))
        | .ok n => (⟨⟨bs, rest, rd, e⟩, cb, { hdr with variableCount := n }, vs, rl⟩, none) := by
  simp only [readHeaderLine8, Read_append bs b rest rd buf e hb hpos]

/-- The eight records of `readHeader` when the buffer holds them: the checks in
the order they are made, and the reader left at each exit. -/
theorem readHeaderLines_blocks (bs : Nat) (b1 b2 b3 b4 b5 b6 b7 b8 rest rd : List Byte)
    (e : Option GoError)
    (h1 : b1.length = 80) (h2 : b2.length = 80) (h3 : b3.length = 80) (h4 : b4.length = 80)
    (h5 : b5.length = 80) (h6 : b6.length = 80) (h7 : b7.length = 80) (h8 : b8.length = 80) :
    readHeaderLine1
        { r := ⟨bs, b1 ++ (b2 ++ (b3 ++ (b4 ++ (b5 ++ (b6 ++ (b7 ++ (b8 ++ rest))))))), rd, e⟩ }
        (List.replicate recordLength (0 : Byte)) =
    match checkHeader b1 XPT_LIBRARY_HEADER_RECORD with
    | some err => ({ r := ⟨bs, b2 ++ (b3 ++ (b4 ++ (b5 ++ (b6 ++ (b7 ++ (b8 ++ rest)))))), rd, e⟩ }, some err)
    | none =>
      if !bytesContains b2 (ascii "SAS") then
        ({ r := ⟨bs, b3 ++ (b4 ++ (b5 ++ (b6 ++ (b7 ++ (b8 ++ rest))))), rd, e⟩ },
          some (.errorString (ascii "expected first real header record got: '" ++ b2 ++
            ascii "'")))
      else
        match checkHeader b4 MEMBER_HEADER_RECORD with
        | some err =>
          ({ r := ⟨bs, b5 ++ (b6 ++ (b7 ++ (b8 ++ rest))), rd, e⟩,
             header := { sasVer := sub b2 24 32, sasOs := sub b2 32 40,
                         created := sub b2 74 b2.length, modified := TrimSpace b3 } }, some err)
        | none =>
          match Atoi (sub b4 74 78) with
          | .error err =>
            ({ r := ⟨bs, b5 ++ (b6 ++ (b7 ++ (b8 ++ rest))), rd, e⟩,
               header := { sasVer := sub b2 24 32, sasOs := sub b2 32 40,
                           created := sub b2 74 b2.length, modified := TrimSpace b3 } },
              some (errorfV (ascii "error getting variable record length: ") err))
          | .ok sz =>
            match checkHeader b5 DSCRPTR_HEADER_RECORD with
            | some err =>
              ({ r := ⟨bs, b6 ++ (b7 ++ (b8 ++ rest)), rd, e⟩,
                 header := { sasVer := sub b2 24 32, sasOs := sub b2 32 40,
                             created := sub b2 74 b2.length, modified := TrimSpace b3,
                             variableRecordSize := sz } }, some err)
            | none =>
              match checkHeader b8 NAME_STR_HEADER with
              | some err =>
                ({ r := ⟨bs, rest, rd, e⟩,
                   header := { sasVer := sub b2 24 32, sasOs := sub b2 32 40,
                               created := sub b2 74 b2.length,
                               modified := TrimSpace (sub b7 0 17),
                               dataset := TrimSpace (sub b6 8 16),
                               variableRecordSize := sz } }, some err)
              | none =>
                match Atoi (sub b8 54 58) with
                | .error err =>
                  ({ r := ⟨bs, rest, rd, e⟩,
                     header := { sasVer := sub b2 24 32, sasOs := sub b2 32 40,
                                 created := sub b2 74 b2.length,
                                 modified := TrimSpace (sub b7 0 17),
                                 dataset := TrimSpace (sub b6 8 16),
                                 variableRecordSize := sz } },
                    some (errorfV (ascii "error getting variable count: ") err))
                | .ok cnt =>
                  ({ r := ⟨bs, rest, rd, e⟩,
                     header := { sasVer := sub b2 24 32, sasOs := sub b2 32 40,
                                 created := sub b2 74 b2.length,
                                 modified := TrimSpace (sub b7 0 17),
                                 dataset := TrimSpace (sub b6 8 16),
                                 variableRecordSize := sz, variableCount := cnt } }, none) := by
  have hz : (List.replicate recordLength (0 : Byte)).length = b1.length := by
    rw [List.length_replicate, h1]; rfl
  simp only [readHeaderLine1_eq bs b1 _ rd _ e hz (by omega),
    readHeaderLine2_eq bs b2 _ rd b1 e (by omega) (by omega),
    readHeaderLine3_eq bs b3 _ rd b2 e (by omega) (by omega),
    readHeaderLine4_eq bs b4 _ rd b3 e (by omega) (by omega),
    readHeaderLine5_eq bs b5 _ rd b4 e (by omega) (by omega),
    readHeaderLine6_eq bs b6 _ rd b5 e (by omega) (by omega),
    readHeaderLine7_eq bs b7 _ rd b6 e (by omega) (by omega),
    readHeaderLine8_eq bs b8 _ rd b7 e (by omega) (by omega)]

theorem take_drop_append_left (l r : List Byte) (a n : Nat) (h : a + n ≤ l.length) :
    ((l ++ r).drop a).take n = (l.drop a).take n := by
  rw [List.drop_append_of_le_length (by omega),
    List.take_append_of_le_length (by rw [List.length_drop]; omega)]

theorem headerRecord_append (l r : List Byte) (k : Nat) (hk : 0 < k) (h : 80 * k ≤ l.length) :
    headerRecord (l ++ r) k = headerRecord l k := by
  unfold headerRecord
  apply take_drop_append_left
  have : 80 * (k - 1) + 80 = 80 * k := by
    cases k with
    | zero => omega
    | succ n => simp [Nat.mul_succ]
  omega

/-- What the eight records of a successful `readHeader` have passed, and what is
stored. -/
theorem readHeaderLines_ok_blocks (bs : Nat) (b1 b2 b3 b4 b5 b6 b7 b8 rest rd : List Byte)
    (e : Option GoError)
    (h1 : b1.length = 80) (h2 : b2.length = 80) (h3 : b3.length = 80) (h4 : b4.length = 80)
    (h5 : b5.length = 80) (h6 : b6.length = 80) (h7 : b7.length = 80) (h8 : b8.length = 80)
    (h : (readHeaderLine1
        { r := ⟨bs, b1 ++ (b2 ++ (b3 ++ (b4 ++ (b5 ++ (b6 ++ (b7 ++ (b8 ++ rest))))))), rd, e⟩ }
        (List.replicate recordLength (0 : Byte))).2 = none) :
    XPT_LIBRARY_HEADER_RECORD <:+: b1 ∧ ascii "SAS" <:+: b2 ∧ MEMBER_HEADER_RECORD <:+: b4 ∧
    DSCRPTR_HEADER_RECORD <:+: b5 ∧ NAME_STR_HEADER <:+: b8 ∧
    ∃ sz cnt, Atoi (sub b4 74 78) = .ok sz ∧ Atoi (sub b8 54 58) = .ok cnt ∧
      readHeaderLine1
        { r := ⟨bs, b1 ++ (b2 ++ (b3 ++ (b4 ++ (b5 ++ (b6 ++ (b7 ++ (b8 ++ rest))))))), rd, e⟩ }
        (List.replicate recordLength (0 : Byte)) =
        (({ r := ⟨bs, rest, rd, e⟩,
            header :=
              { sasVer := sub b2 24 32, sasOs := sub b2 32 40,
                created := sub b2 74 b2.length, modified := TrimSpace (sub b7 0 17),
                dataset := TrimSpace (sub b6 8 16),
                variableRecordSize := sz, variableCount := cnt } } : Reader), none) := by
  have hb := readHeaderLines_blocks bs b1 b2 b3 b4 b5 b6 b7 b8 rest rd e h1 h2 h3 h4 h5 h6 h7 h8
  rw [hb] at h ⊢
  cases c1 : checkHeader b1 XPT_LIBRARY_HEADER_RECORD with
  | some e => rw [c1] at h; simp at h
  | none =>
  rw [c1] at h
  dsimp only at h ⊢
  cases c2 : bytesContains b2 (ascii "SAS") with
  | false => rw [c2] at h; simp at h
  | true =>
  rw [c2] at h
  simp only [Bool.not_true, Bool.false_eq_true, if_false] at h ⊢
  cases c4 : checkHeader b4 MEMBER_HEADER_RECORD with
  | some e => rw [c4] at h; simp at h
  | none =>
  rw [c4] at h
  dsimp only at h ⊢
  cases a4 : Atoi (sub b4 74 78) with
  | error e => rw [a4] at h; simp at h
  | ok sz =>
  rw [a4] at h
  dsimp only at h ⊢
  cases c5 : checkHeader b5 DSCRPTR_HEADER_RECORD with
  | some e => rw [c5] at h; simp at h
  | none =>
  rw [c5] at h
  dsimp only at h ⊢
  cases c8 : checkHeader b8 NAME_STR_HEADER with
  | some e => rw [c8] at h; simp at h
  | none =>
  rw [c8] at h
  dsimp only at h ⊢
  cases a8 : Atoi (sub b8 54 58) with
  | error e => rw [a8] at h; simp at h
  | ok cnt =>
  exact ⟨(checkHeader_eq_none _ _).mp c1, (bytesContains_iff _ _).mp c2,
    (checkHeader_eq_none _ _).mp c4, (checkHeader_eq_none _ _).mp c5,
    (checkHeader_eq_none _ _).mp c8, sz, cnt, rfl, rfl, rfl⟩

theorem readHeader_Peek_ok (b b2 : BufReader) (bytes : List Byte)
    (hp : Peek b ((recordLength * 8 : Nat) : Int) = (bytes, none, b2)) :
    readHeader { r := b } =
      readHeaderLine1 { r := b2 } (List.replicate recordLength (0 : Byte)) := by
  unfold readHeader
  rw [hp]

theorem readHeader_Peek_error (b b2 : BufReader) (bytes : List Byte) (e : GoError)
    (hp : Peek b ((recordLength * 8 : Nat) : Int) = (bytes, some e, b2)) :
    readHeader { r := b } =
      ({ r := b2 }, some (.errorString (ascii "read " ++ decimal bytes.length ++ ascii " out of " ++
        decimal (recordLength * 8) ++ ascii " bytes of library header"))) := by
  unfold readHeader
  rw [hp]

/-- What a successful `readHeader` has checked and stored, in terms of the
input, and where it leaves the stream: 640 bytes further. -/
theorem readHeader_ok_input (b : BufReader) (h : (readHeader { r := b }).2 = none) :
    640 ≤ b.unread.length ∧ 640 ≤ b.size ∧
    XPT_LIBRARY_HEADER_RECORD <:+: headerRecord b.unread 1 ∧
    ascii "SAS" <:+: headerRecord b.unread 2 ∧
    MEMBER_HEADER_RECORD <:+: headerRecord b.unread 4 ∧
    DSCRPTR_HEADER_RECORD <:+: headerRecord b.unread 5 ∧
    NAME_STR_HEADER <:+: headerRecord b.unread 8 ∧
    ∃ sz cnt r2, Atoi (sub (headerRecord b.unread 4) 74 78) = .ok sz ∧
      Atoi (sub (headerRecord b.unread 8) 54 58) = .ok cnt ∧
      readHeader { r := b } =
        (({ r := r2,
            header :=
              { sasVer := sub (headerRecord b.unread 2) 24 32,
                sasOs := sub (headerRecord b.unread 2) 32 40,
                created := sub (headerRecord b.unread 2) 74 (headerRecord b.unread 2).length,
                modified := TrimSpace (sub (headerRecord b.unread 7) 0 17),
                dataset := TrimSpace (sub (headerRecord b.unread 6) 8 16),
                variableRecordSize := sz, variableCount := cnt } } : Reader), none) ∧
      r2.unread = b.unread.drop 640 ∧ r2.size = b.size ∧ (b.wf → r2.wf) ∧
      r2.rd = (Peek b ((recordLength * 8 : Nat) : Int)).2.2.rd := by
  rcases hp : Peek b ((recordLength * 8 : Nat) : Int) with ⟨bytes, eo, b2⟩
  cases eo with
  | some e =>
    rw [readHeader_Peek_error b b2 bytes e hp] at h
    simp at h
  | none =>
    obtain ⟨-, hsz, hlen, -, hu, hs, hw⟩ := Peek_ok_inv b b2 _ bytes hp
    simp only [Int.toNat_ofNat, recordLength] at hsz hlen
    rw [readHeader_Peek_ok b b2 bytes hp] at h ⊢
    have hdec := headerRecords_decomp b2.buf
    obtain ⟨bs, buf, rd, e⟩ := b2
    simp only at hdec hlen hs
    have h' := h
    rw [hdec] at h'
    obtain ⟨c1, c2, c4, c5, c8, sz, cnt, a4, a8, e1⟩ := readHeaderLines_ok_blocks bs _ _ _ _ _ _ _ _ _
      rd e
      (headerRecord_length buf 1 (by omega) (by omega))
      (headerRecord_length buf 2 (by omega) (by omega))
      (headerRecord_length buf 3 (by omega) (by omega))
      (headerRecord_length buf 4 (by omega) (by omega))
      (headerRecord_length buf 5 (by omega) (by omega))
      (headerRecord_length buf 6 (by omega) (by omega))
      (headerRecord_length buf 7 (by omega) (by omega))
      (headerRecord_length buf 8 (by omega) (by omega)) h'
    rw [← hdec] at e1
    have hU : b.unread = buf ++ rd := hu.symm
    have hr : ∀ k, 0 < k → k ≤ 8 → headerRecord b.unread k = headerRecord buf k := by
      intro k hk hk8
      rw [hU]
      exact headerRecord_append buf rd k hk (by omega)
    rw [hr 1 (by omega) (by omega), hr 2 (by omega) (by omega), hr 4 (by omega) (by omega),
      hr 5 (by omega) (by omega), hr 6 (by omega) (by omega), hr 7 (by omega) (by omega),
      hr 8 (by omega) (by omega)]
    refine ⟨?_, by omega, c1, c2, c4, c5, c8, sz, cnt, ⟨bs, buf.drop 640, rd, e⟩, a4, a8, e1, ?_,
      hs, ?_, ?_⟩
    · rw [hU, List.length_append]; omega
    · rw [hU]
      unfold BufReader.unread
      simp only
      rw [List.drop_append_of_le_length hlen]
    · intro hwf
      exact hw hwf
    · rfl

theorem fill_rd_nil (b : BufReader) (h : b.rd = []) : b.fill.rd = [] := by
  unfold BufReader.fill stringsRead
  rw [h]
  rfl

theorem peekLoop_rd_nil (fuel n : Nat) : ∀ b : BufReader, b.rd = [] → (peekLoop fuel n b).rd = [] := by
  induction fuel with
  | zero => intro b h; exact h
  | succ f ih =>
    intro b hb
    unfold peekLoop
    split_ifs with h
    · exact ih _ (fill_rd_nil b hb)
    · exact hb

theorem Peek_rd_nil (b : BufReader) (n : Int) (h : b.rd = []) : (Peek b n).2.2.rd = [] := by
  by_cases h1 : n < 0
  · rw [Peek_neg b n h1]
    exact h
  · lift n to ℕ using (not_lt.mp h1)
    rw [Peek_nat]
    split_ifs with h2 h3
    · exact peekLoop_rd_nil _ _ _ h
    · cases he : (peekLoop 2 n b).err with
      | none => exact peekLoop_rd_nil _ _ _ h
      | some e => exact peekLoop_rd_nil _ _ _ h
    · exact peekLoop_rd_nil _ _ _ h

/-- A run of the loop that ends without error or panic has consumed `k` blocks. -/
theorem readVariablesLoop_inv (k : Nat) :
    ∀ (reader : Reader) (cur : List Byte) (vars : List Variable) (rd : Reader)
      (vars2 : List Variable),
      reader.r.wf → readVariablesLoop k reader cur vars = some (rd, vars2, none) →
      k * cur.length ≤ reader.r.unread.length ∧
        rd.r.unread = reader.r.unread.drop (k * cur.length) ∧
        rd.header = reader.header ∧ (0 < k → 88 ≤ cur.length) ∧ rd.r.wf ∧
        rd.r.size = reader.r.size ∧ (reader.r.rd = [] → rd.r.rd = []) := by
  induction k with
  | zero =>
    intro reader cur vars rd vars2 hwf h
    simp only [readVariablesLoop, Option.some.injEq, Prod.mk.injEq] at h
    obtain ⟨rfl, _, _⟩ := h
    simp [hwf]
  | succ k ih =>
    intro reader cur vars rd vars2 hwf h
    by_cases hle : cur.length ≤ reader.r.unread.length
    · obtain ⟨b2, hRF, hu, hw, hs, hrd⟩ := ReadFull_ok reader.r cur hwf hle
      have hlt : (reader.r.unread.take cur.length).length = cur.length := by
        rw [List.length_take]; omega
      simp only [readVariablesLoop, hRF] at h
      cases hv : parseVariable (reader.r.unread.take cur.length) with
      | none => simp [hv] at h
      | some v =>
        simp only [hv] at h
        obtain ⟨h1, h2, h3, _, h5, h6, h7⟩ := ih _ _ _ _ _ hw h
        have h88 : 88 ≤ cur.length := by
          by_contra hc
          rw [parseVariable_none _ (by omega)] at hv
          exact absurd hv (by simp)
        simp only [hu, List.length_drop, hlt] at h1 h2
        refine ⟨?_, ?_, h3, fun _ => h88, h5, by rw [h6]; exact hs, fun hn => h7 (hrd hn)⟩
        · have : (k + 1) * cur.length = k * cur.length + cur.length := by ring
          omega
        · rw [h2]
          simp only [List.drop_drop]
          congr 1
          ring
    · exfalso
      obtain ⟨b2, hRF, -⟩ := ReadFull_spec reader.r cur hwf
      rw [if_neg hle] at hRF
      simp only [readVariablesLoop, hRF] at h
      split_ifs at h <;> simp at h

/-- The variables that a run of the loop without error or panic appends: block
`i` of the input, decoded, for `i` below `k`. -/
theorem readVariablesLoop_vars (k : Nat) :
    ∀ (reader : Reader) (cur : List Byte) (vars : List Variable) (rd : Reader)
      (vars2 : List Variable),
      reader.r.wf → readVariablesLoop k reader cur vars = some (rd, vars2, none) →
      vars2 = vars ++ (List.range k).map
        (fun i => decodeVariable ((reader.r.unread.drop (i * cur.length)).take cur.length)) := by
  induction k with
  | zero =>
    intro reader cur vars rd vars2 _ h
    simp only [readVariablesLoop, Option.some.injEq, Prod.mk.injEq] at h
    obtain ⟨_, rfl, _⟩ := h
    simp
  | succ k ih =>
    intro reader cur vars rd vars2 hwf h
    obtain ⟨hle, _, _, h88, _⟩ := readVariablesLoop_inv _ _ _ _ _ _ hwf h
    have h88 : 88 ≤ cur.length := h88 (by omega)
    have hle : cur.length ≤ reader.r.unread.length := by
      have : (k + 1) * cur.length = k * cur.length + cur.length := by ring
      omega
    obtain ⟨b2, hRF, hu, hw, hs, hrd⟩ := ReadFull_ok reader.r cur hwf hle
    have hlt : (reader.r.unread.take cur.length).length = cur.length := by
      rw [List.length_take]; omega
    simp only [readVariablesLoop, hRF,
      parseVariable_eq _ (by omega : 88 ≤ (reader.r.unread.take cur.length).length)] at h
    have := ih _ _ _ _ _ hw h
    simp only [hu] at this
    rw [this, hlt, List.range_succ_eq_map, List.map_cons, List.map_map, List.append_assoc]
    simp only [List.singleton_append, Nat.zero_mul, List.drop_zero, List.drop_drop]
    congr 2
    apply List.map_congr_left
    intro i _
    simp only [Function.comp]
    congr 3
    rw [Nat.succ_mul, Nat.add_comm]

theorem zero_block_no_marker : checkHeader (List.replicate 80 (0 : Byte)) OBS_HEADER ≠ none := by
  rw [Ne, checkHeader_eq_none, ← bytesContains_iff]
  decide

/-- The end of a successful `readVariables`: the padding read takes `q` bytes,
at least one and at most the padding, and the marker is in the 80 bytes, or
fewer, that follow them. -/
theorem readObservationHeader_inv (R rd : Reader) (d : Nat) (hwf : R.r.wf)
    (hd : R.header.variableCount * R.header.variableRecordSize = (d : Int))
    (h : readObservationHeader R = some (rd, none)) :
    ∃ q, 1 ≤ q ∧ q ≤ 80 - d % 80 ∧ OBS_HEADER <:+: (R.r.unread.drop q).take 80 ∧
      rd.r.unread = R.r.unread.drop (q + 80) ∧ rd.header = R.header ∧
      rd.Variables = R.Variables ∧ rd.recordLength = R.recordLength ∧ rd.r.wf ∧
      rd.r.size = R.r.size ∧ (R.r.rd = [] → q = 80 - d % 80) := by
  have hmod : d % 80 < 80 := Nat.mod_lt _ (by norm_num)
  have hp : (80 : Int) - Int.tmod (d : Int) 80 = ((80 - d % 80 : Nat) : Int) := by
    have : Int.tmod (d : Int) 80 = ((d % 80 : Nat) : Int) := (Int.ofNat_tmod d 80).symm
    rw [this]
    omega
  unfold readObservationHeader padding at h
  simp only [hd, hp] at h
  rw [if_neg (Int.not_lt.mpr (Int.ofNat_zero_le _)), Int.toNat_ofNat] at h
  generalize hpdef : 80 - d % 80 = p at h ⊢
  have hppos : 0 < p := by omega
  obtain ⟨k, e, b1, hR, hu1, hw1, hs1, hk1, hk2, hrd1, hcase⟩ :=
    Read_spec R.r (List.replicate p (0 : Byte)) hwf (by rw [List.length_replicate]; exact hppos)
  rw [List.length_replicate] at hk1 hrd1
  rw [hR] at h
  rcases hcase with ⟨_, he, _⟩ | ⟨hU, he, hk0⟩
  · subst he
    simp at h
  subst he
  dsimp only at h
  obtain ⟨b2, hF, hu2, hw2, hs2, hrd2⟩ := ReadFull_spec b1 (List.replicate 80 (0 : Byte)) hw1
  rw [hF] at h
  dsimp only at h
  rw [List.length_replicate, List.drop_replicate] at h
  cases hc : checkHeader (b1.unread.take 80 ++ List.replicate (80 - b1.unread.length) (0 : Byte))
      OBS_HEADER with
  | some err => rw [hc] at h; simp at h
  | none =>
    rw [hc] at h
    simp only [Option.some.injEq, Prod.mk.injEq, and_true] at h
    have hinf := (checkHeader_eq_none _ _).mp hc
    have hin := infix_of_infix_append_replicate _ _ _ _ OBS_HEADER_no_zero.1
      OBS_HEADER_no_zero.2 hinf
    rw [hu1] at hin
    refine ⟨k, hk0, hk1, hin, ?_, ?_, ?_, ?_, ?_, ?_, ?_⟩
    · rw [← h]
      show b2.unread = _
      rw [hu2, hu1, List.length_replicate, List.drop_drop]
    · rw [← h]
    · rw [← h]
    · rw [← h]
    · rw [← h]; exact hw2
    · rw [← h]
      show b2.size = _
      rw [hs2, hs1]
    · intro hn
      obtain ⟨_, hkm⟩ := hrd1 hn
      by_contra hne
      have hlt : R.r.unread.length < p := by omega
      have hU1 : b1.unread = [] := by
        rw [hu1]
        exact List.drop_eq_nil_of_le (by omega)
      rw [hU1] at hc
      exact zero_block_no_marker hc

/-- What a successful `readVariables` has read: the directory in full, then `q`
bytes of padding, then the block in which the marker was found. -/
theorem readVariables_inv (R rd : Reader) (hwf : R.r.wf)
    (h : readVariables R = some (rd, none)) :
    0 ≤ R.header.variableRecordSize ∧
    0 ≤ R.header.variableRecordSize * R.header.variableCount ∧
    (R.header.variableRecordSize * R.header.variableCount).toNat ≤ R.r.unread.length ∧
    (R.header.variableRecordSize * R.header.variableCount).toNat ≤ R.r.size ∧
    (0 < R.header.variableCount → 88 ≤ R.header.variableRecordSize) ∧
    rd.header = R.header ∧ rd.r.wf ∧ rd.r.size = R.r.size ∧
    rd.Variables = (List.range R.header.variableCount.toNat).map
      (fun i => decodeVariable ((R.r.unread.drop (i * R.header.variableRecordSize.toNat)).take
        R.header.variableRecordSize.toNat)) ∧
    ∃ q, 1 ≤ q ∧
      q ≤ 80 - (R.header.variableRecordSize * R.header.variableCount).toNat % 80 ∧
      OBS_HEADER <:+: (R.r.unread.drop
        ((R.header.variableRecordSize * R.header.variableCount).toNat + q)).take 80 ∧
      rd.r.unread = R.r.unread.drop
        ((R.header.variableRecordSize * R.header.variableCount).toNat + q + 80) ∧
      (R.r.rd = [] →
        q = 80 - (R.header.variableRecordSize * R.header.variableCount).toNat % 80) := by
  unfold readVariables at h
  rcases hp : Peek R.r (R.header.variableRecordSize * R.header.variableCount) with ⟨bytes, eo, b1⟩
  rw [hp] at h
  cases eo with
  | some e => simp at h
  | none =>
  dsimp only at h
  obtain ⟨hprod, hsize, hlen, -, hu, hs, hw⟩ := Peek_ok_inv R.r b1 _ bytes hp
  have hrdn : R.r.rd = [] → b1.rd = [] := by
    intro hn
    have := Peek_rd_nil R.r (R.header.variableRecordSize * R.header.variableCount) hn
    rw [hp] at this
    exact this
  have hw1 := hw hwf
  by_cases hsz : R.header.variableRecordSize < 0
  · rw [if_pos hsz] at h
    simp at h
  rw [if_neg hsz] at h
  have hsz0 : 0 ≤ R.header.variableRecordSize := not_lt.mp hsz
  obtain ⟨hk, hd⟩ := directory_length _ _ hsz0 hprod
  cases hloop : readVariablesLoop R.header.variableCount.toNat { R with r := b1 }
      (List.replicate R.header.variableRecordSize.toNat (0 : Byte)) [] with
  | none => rw [hloop] at h; simp at h
  | some res =>
    obtain ⟨rd1, vars, e⟩ := res
    rw [hloop] at h
    cases e with
    | some err => simp at h
    | none =>
      dsimp only at h
      obtain ⟨i1, i2, i3, i4, i5, i6, i7⟩ := readVariablesLoop_inv _ _ _ _ _ _ hw1 hloop
      have hv := readVariablesLoop_vars _ _ _ _ _ _ hw1 hloop
      rw [List.length_replicate] at i1 i2 i4 hv
      rw [hk] at i1 i2
      simp only [hu] at i1 i2 hv
      rw [List.nil_append] at hv
      have hd1 : ({ rd1 with Variables := vars } : Reader).header.variableCount *
          ({ rd1 with Variables := vars } : Reader).header.variableRecordSize =
          (((R.header.variableRecordSize * R.header.variableCount).toNat : Nat) : Int) := by
        show rd1.header.variableCount * rd1.header.variableRecordSize = _
        rw [i3]
        exact hd
      obtain ⟨q, q1, q2, q3, q4, q5, q6, q7, q8, q9, q10⟩ :=
        readObservationHeader_inv ({ rd1 with Variables := vars } : Reader) rd _ i5 hd1 h
      simp only [i2] at q3 q4
      refine ⟨hsz0, hprod, i1, by omega, ?_, ?_, q8, ?_, ?_, q, q1, q2, ?_, ?_, ?_⟩
      · intro hpos
        have := i4 (by omega)
        omega
      · rw [q5]; exact i3
      · rw [q9]
        show rd1.r.size = _
        rw [i6]
        exact hs
      · rw [q6]
        exact hv
      · simpa only [List.drop_drop] using q3
      · rw [q4, List.drop_drop, Nat.add_assoc]
      · intro hn
        exact q10 (i7 (hrdn hn))

/-- When the buffer can hold the whole input, a successful look-ahead leaves
nothing in the underlying reader. -/
theorem Peek_holds (b b2 : BufReader) (n : Nat) (bytes : List Byte) (hn : 0 < n)
    (hh : b.holdsInput) (h : Peek b (n : Int) = (bytes, none, b2)) : b2.rd = [] := by
  obtain ⟨hsize, hcase⟩ := hh
  rcases hcase with hrd | hbuf
  · have := Peek_rd_nil b (n : Int) hrd
    rw [h] at this
    exact this
  · obtain ⟨-, -, hlen, -, -, -, -⟩ := Peek_ok_inv b b2 _ bytes h
    rw [Int.toNat_ofNat] at hlen
    rw [Peek_nat] at h
    split_ifs at h with h2 h3
    · simp at h
    · cases he : (peekLoop 2 n b).err with
      | none => rw [he] at h; simp at h
      | some e => rw [he] at h; simp at h
    · simp only [Prod.mk.injEq, true_and] at h
      obtain ⟨-, hb2⟩ := h
      subst hb2
      unfold peekLoop at hlen ⊢
      split_ifs at hlen ⊢ with hg
      · apply peekLoop_rd_nil
        unfold BufReader.fill stringsRead
        split_ifs with hz
        · exact List.length_eq_zero.mp hz
        · simp only [List.drop_eq_nil_iff]
          unfold BufReader.unread at hsize
          rw [hbuf] at hsize ⊢
          simp at hsize ⊢
          exact hsize
      · rw [hbuf] at hlen
        simp at hlen
        omega

/-- The look-ahead of `readHeader` on an input of at least 640 bytes, in a
buffer of at least 640 bytes: the eight records are read from the buffer. -/
theorem readHeader_eq_lines (b : BufReader) (hwf : b.wf) (hsize : 640 ≤ b.size)
    (hlen : 640 ≤ b.unread.length) :
    ∃ (bs : Nat) (rb rd : List Byte) (e : Option GoError),
      readHeader { r := b } =
        readHeaderLine1
          { r := ⟨bs, headerRecord b.unread 1 ++ (headerRecord b.unread 2 ++
              (headerRecord b.unread 3 ++ (headerRecord b.unread 4 ++
              (headerRecord b.unread 5 ++ (headerRecord b.unread 6 ++
              (headerRecord b.unread 7 ++ (headerRecord b.unread 8 ++ rb))))))), rd, e⟩ }
          (List.replicate recordLength (0 : Byte)) ∧
      rb ++ rd = b.unread.drop 640 ∧ bs = b.size ∧ (⟨bs, rb, rd, e⟩ : BufReader).wf ∧
      (b.holdsInput → rd = []) := by
  obtain ⟨b2, hp, hl2, hu, hs, hw⟩ := Peek_ok b 640 hwf hsize hlen
  have hp' : Peek b ((recordLength * 8 : Nat) : Int) = (b.unread.take 640, none, b2) := hp
  have hdec := headerRecords_decomp b2.buf
  have hh : b.holdsInput → b2.rd = [] := fun hh => Peek_holds b b2 640 _ (by norm_num) hh hp
  obtain ⟨bs, buf, rd, e⟩ := b2
  simp only at hdec hl2 hs hh
  have hU : b.unread = buf ++ rd := hu.symm
  have hr : ∀ k, 0 < k → k ≤ 8 → headerRecord b.unread k = headerRecord buf k := by
    intro k hk hk8
    rw [hU]
    exact headerRecord_append buf rd k hk (by omega)
  refine ⟨bs, buf.drop 640, rd, e, ?_, ?_, hs, ?_, hh⟩
  · rw [readHeader_Peek_ok b _ _ hp', hr 1 (by omega) (by omega), hr 2 (by omega) (by omega),
      hr 3 (by omega) (by omega), hr 4 (by omega) (by omega), hr 5 (by omega) (by omega),
      hr 6 (by omega) (by omega), hr 7 (by omega) (by omega), hr 8 (by omega) (by omega),
      ← hdec]
  · rw [hU, List.drop_append_of_le_length hl2]
  · exact hw

/-- The loop of `readVariables` when the directory is complete and the blocks
are long enough: `k` blocks are consumed, nothing fails. -/
theorem readVariablesLoop_ok (k : Nat) :
    ∀ (reader : Reader) (cur : List Byte) (vars : List Variable),
      reader.r.wf → (0 < k → 88 ≤ cur.length) → k * cur.length ≤ reader.r.unread.length →
      ∃ rd vars2, readVariablesLoop k reader cur vars = some (rd, vars2, none) ∧
        rd.r.unread = reader.r.unread.drop (k * cur.length) ∧ rd.header = reader.header ∧
        vars2.length = vars.length + k ∧ rd.r.wf ∧ rd.r.size = reader.r.size ∧
        (reader.r.rd = [] → rd.r.rd = []) := by
  induction k with
  | zero =>
    intro reader cur vars hwf _ _
    exact ⟨reader, vars, rfl, by simp, rfl, rfl, hwf, rfl, id⟩
  | succ k ih =>
    intro reader cur vars hwf h88 hlen
    have h88 : 88 ≤ cur.length := h88 (by omega)
    have hle : cur.length ≤ reader.r.unread.length := by
      have : (k + 1) * cur.length = k * cur.length + cur.length := by ring
      omega
    obtain ⟨b2, hRF, hu, hw, hs, hrd⟩ := ReadFull_ok reader.r cur hwf hle
    have hlt : (reader.r.unread.take cur.length).length = cur.length := by
      rw [List.length_take]; omega
    obtain ⟨v, hv⟩ := parseVariable_isSome (reader.r.unread.take cur.length) (by omega)
    obtain ⟨rd, vars2, h1, h2, h3, h4, h5, h6, h7⟩ := ih
      { reader with r := b2,
                    recordLength := (reader.recordLength + v.length) % 2 ^ 16 }
      (reader.r.unread.take cur.length) (vars ++ [v]) hw (fun _ => by omega)
      (by
        have : (k + 1) * cur.length = k * cur.length + cur.length := by ring
        simp only [hu, List.length_drop, hlt]
        omega)
    refine ⟨rd, vars2, ?_, ?_, ?_, ?_, h5, ?_, fun hn => h7 (hrd hn)⟩
    · simp only [readVariablesLoop, hRF, hv]
      exact h1
    · rw [h2, hlt]
      simp only [hu, List.drop_drop]
      congr 1
      ring
    · rw [h3]
    · rw [h4]; simp; omega
    · rw [h6]; exact hs

/-- The padding and the observation block, when both are in the buffer. -/
theorem readObservationHeader_blocks (R : Reader) (d : Nat) (hwf : R.r.wf) (hrd : R.r.rd = [])
    (hd : R.header.variableCount * R.header.variableRecordSize = (d : Int))
    (hlen : 80 - d % 80 + 80 ≤ R.r.unread.length) :
    ∃ rd, readObservationHeader R =
        some (rd, checkHeader ((R.r.unread.drop (80 - d % 80)).take 80) OBS_HEADER) ∧
      rd.r.unread = R.r.unread.drop (80 - d % 80 + 80) ∧ rd.header = R.header ∧
      rd.Variables = R.Variables ∧ rd.recordLength = R.recordLength := by
  have hmod : d % 80 < 80 := Nat.mod_lt _ (by norm_num)
  have hp : (80 : Int) - Int.tmod (d : Int) 80 = ((80 - d % 80 : Nat) : Int) := by
    have : Int.tmod (d : Int) 80 = ((d % 80 : Nat) : Int) := (Int.ofNat_tmod d 80).symm
    rw [this]
    omega
  unfold readObservationHeader padding
  simp only [hd, hp]
  rw [if_neg (Int.not_lt.mpr (Int.ofNat_zero_le _)), Int.toNat_ofNat]
  generalize hpdef : 80 - d % 80 = p at hlen ⊢
  have hppos : 0 < p := by omega
  obtain ⟨k, e, b1, hR, hu1, hw1, hs1, hk1, hk2, hrd1, hcase⟩ :=
    Read_spec R.r (List.replicate p (0 : Byte)) hwf (by rw [List.length_replicate]; exact hppos)
  rw [List.length_replicate] at hk1 hrd1
  obtain ⟨_, hkm⟩ := hrd1 hrd
  have hkp : k = p := by omega
  subst hkp
  rcases hcase with ⟨hU, _, _⟩ | ⟨hU, he, hk0⟩
  · rw [hU] at hlen
    simp at hlen
  subst he
  rw [hR]
  dsimp only
  obtain ⟨b2, hF, hu2, hw2, hs2, hrd2⟩ := ReadFull_ok b1 (List.replicate 80 (0 : Byte)) hw1
    (by rw [List.length_replicate, hu1, List.length_drop]; omega)
  rw [hF]
  dsimp only
  rw [List.length_replicate, hu1]
  cases hc : checkHeader ((R.r.unread.drop k).take 80) OBS_HEADER with
  | some err =>
    exact ⟨_, rfl, by
      show b2.unread = _
      rw [hu2, hu1, List.length_replicate, List.drop_drop], rfl, rfl, rfl⟩
  | none =>
    exact ⟨_, rfl, by
      show b2.unread = _
      rw [hu2, hu1, List.length_replicate, List.drop_drop], rfl, rfl, rfl⟩

/-- `readVariables` on a complete directory followed by a complete padding and
a complete observation block, all within the buffer: the only possible error is
the marker check. -/
theorem readVariables_blocks (R : Reader) (hwf : R.r.wf) (hrd : R.r.rd = [])
    (hsz : 0 ≤ R.header.variableRecordSize)
    (hprod : 0 ≤ R.header.variableRecordSize * R.header.variableCount)
    (hpan : 0 < R.header.variableCount → 88 ≤ R.header.variableRecordSize)
    (hsize : (R.header.variableRecordSize * R.header.variableCount).toNat ≤ R.r.size)
    (hlen : (R.header.variableRecordSize * R.header.variableCount).toNat +
      (80 - (R.header.variableRecordSize * R.header.variableCount).toNat % 80) + 80 ≤
        R.r.unread.length) :
    ∃ rd, readVariables R =
        some (rd, checkHeader ((R.r.unread.drop
          ((R.header.variableRecordSize * R.header.variableCount).toNat +
            (80 - (R.header.variableRecordSize * R.header.variableCount).toNat % 80))).take 80)
          OBS_HEADER) ∧
      rd.r.unread = R.r.unread.drop
        ((R.header.variableRecordSize * R.header.variableCount).toNat +
          (80 - (R.header.variableRecordSize * R.header.variableCount).toNat % 80) + 80) ∧
      rd.header = R.header ∧ rd.Variables.length = R.header.variableCount.toNat := by
  obtain ⟨hk, hd⟩ := directory_length _ _ hsz hprod
  generalize hD : (R.header.variableRecordSize * R.header.variableCount).toNat = D at *
  obtain ⟨b1, hp, -, hu, hs, hw⟩ := Peek_ok R.r D hwf hsize (by omega)
  have hprodD : R.header.variableRecordSize * R.header.variableCount = (D : Int) := by
    rw [← hD, Int.toNat_of_nonneg hprod]
  have hrd1 : b1.rd = [] := by
    have := Peek_rd_nil R.r (D : Int) hrd
    rw [hp] at this
    exact this
  obtain ⟨rd1, vars2, h1, h2, h3, h4, h5, h6, h7⟩ := readVariablesLoop_ok
    R.header.variableCount.toNat { R with r := b1 }
    (List.replicate R.header.variableRecordSize.toNat (0 : Byte)) [] hw
    (by
      intro hpos
      rw [List.length_replicate]
      have := hpan (by omega)
      omega)
    (by
      rw [List.length_replicate, hk]
      show D ≤ b1.unread.length
      rw [hu]; omega)
  rw [List.length_replicate, hk] at h2
  simp only [hu] at h2
  have hd1 : ({ rd1 with Variables := vars2 } : Reader).header.variableCount *
      ({ rd1 with Variables := vars2 } : Reader).header.variableRecordSize = (D : Int) := by
    show rd1.header.variableCount * rd1.header.variableRecordSize = _
    rw [h3]
    exact hd
  obtain ⟨rd, o1, o2, o3, o4, o5⟩ := readObservationHeader_blocks
    ({ rd1 with Variables := vars2 } : Reader) D h5 (h7 hrd1) hd1
    (by
      show 80 - D % 80 + 80 ≤ rd1.r.unread.length
      rw [h2, List.length_drop]; omega)
  simp only [h2, List.drop_drop] at o1 o2
  refine ⟨rd, ?_, ?_, ?_, ?_⟩
  · unfold readVariables
    rw [hprodD, hp]
    simp only [if_neg (not_lt.mpr hsz), h1]
    exact o1
  · rw [o2, Nat.add_assoc]
  · rw [o3]; exact h3
  · rw [o4]
    simpa using h4

theorem NewXptReader_ok_inv (b : BufReader) (rd : Reader) (h : NewXptReader b = .ok rd) :
    (readHeader { r := b }).2 = none ∧
      readVariables (readHeader { r := b }).1 = some (rd, none) := by
  unfold NewXptReader at h
  rcases hh : readHeader { r := b } with ⟨R1, eo⟩
  rw [hh] at h
  cases eo with
  | some e => simp at h
  | none =>
    dsimp only at h
    refine ⟨rfl, ?_⟩
    cases hv : readVariables R1 with
    | none => rw [hv] at h; simp at h
    | some res =>
      obtain ⟨rd2, e⟩ := res
      rw [hv] at h
      cases e with
      | some err => simp at h
      | none =>
        simp only [Res.ok.injEq] at h
        rw [h]

/-- What a successful `NewXptReader` has read, in terms of the input. -/
theorem NewXptReader_ok_input (b : BufReader) (rd : Reader) (hwf : b.wf)
    (h : NewXptReader b = .ok rd) :
    640 ≤ b.unread.length ∧
    XPT_LIBRARY_HEADER_RECORD <:+: headerRecord b.unread 1 ∧
    ascii "SAS" <:+: headerRecord b.unread 2 ∧
    MEMBER_HEADER_RECORD <:+: headerRecord b.unread 4 ∧
    DSCRPTR_HEADER_RECORD <:+: headerRecord b.unread 5 ∧
    NAME_STR_HEADER <:+: headerRecord b.unread 8 ∧
    rd.Variables = (List.range rd.header.variableCount.toNat).map
      (fun i => decodeVariable
        ((b.unread.drop (640 + i * rd.header.variableRecordSize.toNat)).take
          rd.header.variableRecordSize.toNat)) ∧
    rd.r.wf ∧
    ∃ q, 1 ≤ q ∧
      q ≤ 80 - (rd.header.variableRecordSize * rd.header.variableCount).toNat % 80 ∧
      OBS_HEADER <:+: (b.unread.drop
        (640 + ((rd.header.variableRecordSize * rd.header.variableCount).toNat + q))).take 80 ∧
      rd.r.unread = b.unread.drop
        (640 + ((rd.header.variableRecordSize * rd.header.variableCount).toNat + q + 80)) ∧
      (b.holdsInput →
        q = 80 - (rd.header.variableRecordSize * rd.header.variableCount).toNat % 80) := by
  obtain ⟨hh, hv⟩ := NewXptReader_ok_inv b rd h
  obtain ⟨hlen, hsize, c1, c2, c4, c5, c8, sz, cnt, r2, a4, a8, e, hu, hs, hw, hrd⟩ :=
    readHeader_ok_input b hh
  rw [e] at hv
  dsimp only at hv
  obtain ⟨-, -, -, -, -, i6, i7, -, i9, q, q1, q2, q3, q4, q5⟩ :=
    readVariables_inv _ rd (hw hwf) hv
  dsimp only at i6 i9 q2 q3 q4 q5
  rw [i6]
  dsimp only
  simp only [hu, List.drop_drop] at i9 q3 q4
  refine ⟨hlen, c1, c2, c4, c5, c8, i9, i7, q, q1, q2, ?_, ?_, ?_⟩
  · exact q3
  · rw [q4]
  · intro hhold
    apply q5
    rw [hrd]
    rcases hp : Peek b ((recordLength * 8 : Nat) : Int) with ⟨bytes, eo, b2⟩
    cases eo with
    | some e2 =>
      rw [readHeader_Peek_error b b2 bytes e2 hp] at hh
      simp at hh
    | none => exact Peek_holds b b2 _ bytes (by simp [recordLength]) hhold hp

/-! ## Claims on the reader -/

/-- C3 (the code differs). A file whose single variable is declared at position
65535 with length 2: the record width is 2, `position + length` is 65537 as a
natural number but wraps to 1 as a `uint16`, the bounds check passes and the
slice expression `record[65535:1]` panics instead of the out-of-range error. -/
theorem GetDataForVariable_position_wraps :
    (NewXptReader (NewReader position65535Input)).toOption.map
      (fun rd => (rd.Variables.map (fun v => (v.position, v.length)), rd.recordLength,
        rd.Read.1, GetDataForVariable rd [65, 66] (ascii "X"))) =
    some ([(65535, 2)], 2, some { raw := [65, 66] }, .panic) := by decide!

/-- C4 (the code differs). On the input of `TestReadValidHeader` the twelve
declared lengths sum to 98688, and the reader's record width is 33152, the sum
modulo `2^16`. -/
theorem recordLength_wraps :
    (NewXptReader (NewReader validInput)).toOption.map
      (fun rd => (rd.recordLength, (rd.Variables.map Variable.length).sum)) =
    some (33152, 98688) := by decide!

/-- C6. For a reader with record width `w`: if at least `w` bytes remain, `Read`
returns the next `w` bytes as the record and advances the stream by `w`, the rest
of the reader unchanged; if some but fewer than `w` bytes remain, `Read` returns
no record and `io.ErrUnexpectedEOF`, which is not `io.EOF`. -/
theorem Reader_Read_record (reader : Reader) (hwf : reader.r.wf) :
    (reader.recordLength ≤ reader.r.unread.length →
      reader.Read.1 = some { raw := reader.r.unread.take reader.recordLength } ∧
      reader.Read.2.1 = none ∧
      reader.Read.2.2.r.unread = reader.r.unread.drop reader.recordLength ∧
      reader.Read.2.2 = { reader with r := reader.Read.2.2.r }) ∧
    (0 < reader.r.unread.length → reader.r.unread.length < reader.recordLength →
      reader.Read.1 = none ∧ reader.Read.2.1 = some GoError.ErrUnexpectedEOF ∧
        GoError.ErrUnexpectedEOF ≠ GoError.EOF) := by
  obtain ⟨b2, hF, hu, -⟩ := ReadFull_spec reader.r (List.replicate reader.recordLength 0) hwf
  rw [List.length_replicate] at hF hu
  constructor
  · intro h
    rw [if_pos h, List.drop_eq_nil_of_le (by rw [List.length_replicate]; exact h),
      List.append_nil] at hF
    have hR : reader.Read = (some { raw := reader.r.unread.take reader.recordLength }, none,
        { reader with r := b2 }) := by
      simp only [Reader.Read, hF]
    rw [hR]
    exact ⟨rfl, rfl, hu, rfl⟩
  · intro h0 h1
    rw [if_neg (by omega), if_neg (by omega)] at hF
    simp only [Reader.Read, hF]
    exact ⟨trivial, trivial, by simp⟩

/-- C6, instances: width 2 with three bytes left, width 2 with one byte left. -/
theorem Reader_Read_record_witness :
    (Reader.Read { r := NewReader [1, 2, 3], recordLength := 2 }).1 =
      some { raw := (NewReader [1, 2, 3]).unread.take 2 } ∧
    (NewReader [1, 2, 3]).unread.take 2 = [1, 2] ∧
    (Reader.Read { r := NewReader [1, 2, 3], recordLength := 2 }).2.2.r.unread =
      (NewReader [1, 2, 3]).unread.drop 2 ∧
    (NewReader [1, 2, 3]).unread.drop 2 = [3] ∧
    (Reader.Read { r := NewReader [1], recordLength := 2 }).1 = none ∧
    (Reader.Read { r := NewReader [1], recordLength := 2 }).2.1 = some GoError.ErrUnexpectedEOF :=
  ⟨((Reader_Read_record { r := NewReader [1, 2, 3], recordLength := 2 } (by decide)).1
      (by decide)).1, by decide,
    ((Reader_Read_record { r := NewReader [1, 2, 3], recordLength := 2 } (by decide)).1
      (by decide)).2.2.1, by decide,
    ((Reader_Read_record { r := NewReader [1], recordLength := 2 } (by decide)).2
      (by decide) (by decide)).1,
    ((Reader_Read_record { r := NewReader [1], recordLength := 2 } (by decide)).2
      (by decide) (by decide)).2.1⟩

/-- At end of file a reader of non-zero width returns no record and `io.EOF`. -/
theorem Reader_Read_EOF (reader : Reader) (hwf : reader.r.wf) (hr : reader.r.unread = [])
    (hw : 0 < reader.recordLength) :
    reader.Read.1 = none ∧ reader.Read.2.1 = some GoError.EOF := by
  obtain ⟨b2, hF, -⟩ := ReadFull_spec reader.r (List.replicate reader.recordLength 0) hwf
  rw [List.length_replicate, hr, List.length_nil, if_neg (by omega), if_pos rfl] at hF
  simp only [Reader.Read, hF]
  exact ⟨trivial, trivial⟩

/-- C7 (the code differs). A file that declares no variable is read into a
reader of record width 0 whose stream is at end of file; `Read` then returns an
empty record and no error instead of `nil` and `io.EOF`, and leaves the reader as
it was. -/
theorem Read_at_EOF_width_zero :
    NewXptReader (NewReader noVariableInput) = .ok noVariableReader ∧
      noVariableReader.r.unread = [] ∧
      noVariableReader.Read = (some { raw := [] }, none, noVariableReader) := by decide!

/-- C8 (the code differs). The input of `TestReadValidHeader` cut 32 bytes before
the end of the observation block is accepted: `NewXptReader` returns a reader. -/
theorem NewXptReader_truncated_observation_block :
    truncatedObsInput.length = 640 + 12 * 140 + 80 + 48 ∧
      (NewXptReader (NewReader truncatedObsInput)).toOption.isSome = true := by decide!

/-- C9, as stated, fails: the input of `TestReadValidHeader` with the library
record moved one byte to the right is accepted, and its first record does not
begin with the library marker. -/
theorem NewXptReader_marker_not_at_offset_zero :
    (NewXptReader (NewReader shiftedLibraryInput)).toOption.isSome = true ∧
      ¬ XPT_LIBRARY_HEADER_RECORD <+: shiftedLibraryInput.take 80 := by
  refine ⟨by decide!, ?_⟩
  rw [← List.isPrefixOf_iff_prefix]
  decide!

/-- C9, amended. For every input on which `NewXptReader` succeeds, header records
1, 4, 5 and 8 each contain their marker as a contiguous run of bytes, at some
offset, and so does the observation block, the up to 80 bytes that the reader
takes after the padding read.  That read takes `q` bytes, at least one and at most
the padding `80 - (size * count) mod 80`; it takes the whole padding whenever the
buffer holds the whole input. -/
theorem NewXptReader_ok_contains (b : BufReader) (rd : Reader) (hwf : b.wf)
    (h : NewXptReader b = .ok rd) :
    XPT_LIBRARY_HEADER_RECORD <:+: b.unread.take 80 ∧
    MEMBER_HEADER_RECORD <:+: (b.unread.drop 240).take 80 ∧
    DSCRPTR_HEADER_RECORD <:+: (b.unread.drop 320).take 80 ∧
    NAME_STR_HEADER <:+: (b.unread.drop 560).take 80 ∧
    ∃ q, 1 ≤ q ∧
      q ≤ 80 - (rd.header.variableRecordSize * rd.header.variableCount).toNat % 80 ∧
      OBS_HEADER <:+: (b.unread.drop
        (640 + ((rd.header.variableRecordSize * rd.header.variableCount).toNat + q))).take 80 ∧
      (b.holdsInput →
        q = 80 - (rd.header.variableRecordSize * rd.header.variableCount).toNat % 80) := by
  obtain ⟨-, c1, -, c4, c5, c8, -, -, q, q1, q2, q3, -, q5⟩ := NewXptReader_ok_input b rd hwf h
  exact ⟨c1, c4, c5, c8, q, q1, q2, q3, q5⟩

/-- C9, amended, instance: the file without variables, read through
`bufio.NewReader`. -/
theorem NewXptReader_ok_contains_witness :
    XPT_LIBRARY_HEADER_RECORD <:+: (NewReader noVariableInput).unread.take 80 ∧
    MEMBER_HEADER_RECORD <:+: ((NewReader noVariableInput).unread.drop 240).take 80 ∧
    DSCRPTR_HEADER_RECORD <:+: ((NewReader noVariableInput).unread.drop 320).take 80 ∧
    NAME_STR_HEADER <:+: ((NewReader noVariableInput).unread.drop 560).take 80 ∧
    ∃ q, 1 ≤ q ∧
      q ≤ 80 - (noVariableReader.header.variableRecordSize *
        noVariableReader.header.variableCount).toNat % 80 ∧
      OBS_HEADER <:+: ((NewReader noVariableInput).unread.drop
        (640 + ((noVariableReader.header.variableRecordSize *
          noVariableReader.header.variableCount).toNat + q))).take 80 ∧
      ((NewReader noVariableInput).holdsInput →
        q = 80 - (noVariableReader.header.variableRecordSize *
          noVariableReader.header.variableCount).toNat % 80) :=
  NewXptReader_ok_contains (NewReader noVariableInput) noVariableReader (by decide) (by decide!)

/-! ## The header numbers and the look-ahead -/

/-- C10 (the code differs). A file of 30 variables with descriptors of 136 bytes
whose header records and directory are valid and whose observation block is the
corrupted block of `TestReadInvalidHeader`: the padding read hands over the 16
bytes left in the buffer instead of the 80 bytes of padding, and the error text
shows 64 bytes of padding followed by the first 16 bytes of the block, not the 80
bytes of the block. -/
theorem NewXptReader_observation_error_not_verbatim :
    (splitPaddingBadObsInput.drop (640 + 30 * 136 + 80)).take 80 = badObserHeader ∧
    NewXptReader (NewReader splitPaddingBadObsInput) =
      .error (.errorString (ascii "expected to contain: '" ++ OBS_HEADER ++
        ascii "' but got: '" ++ (List.replicate 64 32 ++ badObserHeader.take 16) ++ ascii "'")) ∧
    NewXptReader (NewReader splitPaddingBadObsInput) ≠
      .error (.errorString (ascii "expected to contain: '" ++ OBS_HEADER ++
        ascii "' but got: '" ++ badObserHeader ++ ascii "'")) := by decide!

/-- C11 (the code differs). A file whose header declares 40 descriptors of 140
bytes, followed by 5000 bytes: 5600 bytes are required and 5000 are available, and
the error reports 4096, the size of the buffer of `bufio.NewReader`. -/
theorem NewXptReader_available_bytes_capped :
    (truncatedDirectoryInput.drop 640).length = 5000 ∧
    NewXptReader (NewReader truncatedDirectoryInput) =
      .error (.errorString
        (ascii "Incomplete or empty variable record 4096 out of 5600 bytes")) := by decide!

/-- C12 (the code differs). Two well-formed files are rejected.  With 30
descriptors of 140 bytes the look-ahead of 4200 bytes exceeds the buffer of
`bufio.NewReader` and the file is reported incomplete.  With 30 descriptors of 136
bytes the padding read hands over the 16 bytes left in the buffer, and the marker
is looked for 64 bytes before the observation block.  The input of
`TestReadValidHeader` is well-formed too, and accepted. -/
theorem NewXptReader_well_formed_rejected :
    wellFormed largeDirectoryInput = true ∧
    NewXptReader (NewReader largeDirectoryInput) =
      .error (.errorString
        (ascii "Incomplete or empty variable record 4096 out of 4200 bytes")) ∧
    wellFormed splitPaddingInput = true ∧
    NewXptReader (NewReader splitPaddingInput) =
      .error (.errorString (ascii "expected to contain: '" ++ OBS_HEADER ++
        ascii "' but got: '" ++ (List.replicate 64 32 ++ OBSER_HEADER.take 16) ++ ascii "'")) ∧
    wellFormed validInput = true ∧
    (NewXptReader (NewReader validInput)).toOption.isSome = true := by decide!

/-- C13. For every input on which header parsing succeeds and whose size and
count fields are four ASCII decimal digits, the parsed `variableRecordSize` is the
decimal value of bytes 74-77 of header record 4 and the parsed `variableCount` is
the decimal value of bytes 54-57 of header record 8. -/
theorem readHeader_numbers (b : BufReader)
    (h : (readHeader { r := b }).2 = none)
    (d4 : ∀ x ∈ sub (headerRecord b.unread 4) 74 78, isDigit x = true)
    (d8 : ∀ x ∈ sub (headerRecord b.unread 8) 54 58, isDigit x = true) :
    (readHeader { r := b }).1.header.variableRecordSize =
        (decimalValue (sub (headerRecord b.unread 4) 74 78) : Int) ∧
      (readHeader { r := b }).1.header.variableCount =
        (decimalValue (sub (headerRecord b.unread 8) 54 58) : Int) := by
  obtain ⟨hlen, -, -, -, -, -, -, sz, cnt, r2, a4, a8, e, -⟩ := readHeader_ok_input b h
  have n4 : sub (headerRecord b.unread 4) 74 78 ≠ [] := by
    intro hn
    have := sub_length (headerRecord b.unread 4) 74 78
      (by rw [headerRecord_length b.unread 4 (by omega) (by omega)]; omega)
    rw [hn] at this
    simp at this
  have n8 : sub (headerRecord b.unread 8) 54 58 ≠ [] := by
    intro hn
    have := sub_length (headerRecord b.unread 8) 54 58
      (by rw [headerRecord_length b.unread 8 (by omega) (by omega)]; omega)
    rw [hn] at this
    simp at this
  rw [Atoi_digits _ n4 d4] at a4
  rw [Atoi_digits _ n8 d8] at a8
  rw [e]
  simp only [Except.ok.injEq] at a4 a8
  exact ⟨a4.symm, a8.symm⟩

/-- C13, instance: the header of `TestReadValidHeader`, size 140 and count 12. -/
theorem readHeader_numbers_witness :
    ((readHeader { r := NewReader validInput }).1.header.variableRecordSize =
        (decimalValue (sub (headerRecord (NewReader validInput).unread 4) 74 78) : Int) ∧
      (readHeader { r := NewReader validInput }).1.header.variableCount =
        (decimalValue (sub (headerRecord (NewReader validInput).unread 8) 54 58) : Int)) ∧
    decimalValue (sub (headerRecord (NewReader validInput).unread 4) 74 78) = 140 ∧
    decimalValue (sub (headerRecord (NewReader validInput).unread 8) 54 58) = 12 :=
  ⟨readHeader_numbers (NewReader validInput) (by decide!) (by decide!) (by decide!),
    by decide!, by decide!⟩

/-- C18. For every input on which header parsing succeeds, the dataset name is
bytes 8-15 of header record 6 trimmed, and the modified field is bytes 0-16 of
header record 7 trimmed; header record 3 has no part in either. -/
theorem readHeader_dataset_modified (b : BufReader)
    (h : (readHeader { r := b }).2 = none) :
    (readHeader { r := b }).1.header.dataset =
        TrimSpace (sub (headerRecord b.unread 6) 8 16) ∧
      (readHeader { r := b }).1.header.modified =
        TrimSpace (sub (headerRecord b.unread 7) 0 17) := by
  obtain ⟨-, -, -, -, -, -, -, sz, cnt, r2, -, -, e, -⟩ := readHeader_ok_input b h
  rw [e]
  exact ⟨rfl, rfl⟩

/-- C18, instance: the header of `TestReadValidHeader`, dataset `AE`. -/
theorem readHeader_dataset_modified_witness :
    ((readHeader { r := NewReader validInput }).1.header.dataset =
        TrimSpace (sub (headerRecord (NewReader validInput).unread 6) 8 16) ∧
      (readHeader { r := NewReader validInput }).1.header.modified =
        TrimSpace (sub (headerRecord (NewReader validInput).unread 7) 0 17)) ∧
    TrimSpace (sub (headerRecord (NewReader validInput).unread 6) 8 16) = ascii "AE" ∧
    TrimSpace (sub (headerRecord (NewReader validInput).unread 7) 0 17) =
      ascii "21JAN08:13:32:41" :=
  ⟨readHeader_dataset_modified (NewReader validInput) (by decide!), by decide!, by decide!⟩

/-- C15. Whenever `readVariables` gets past its look-ahead, the only way to the
padding computation, the padding `80 - ((variableCount * variableRecordSize) % 80)`
lies between 1 and 80, and is 80 exactly when the remainder is 0. -/
theorem padding_range (R : Reader)
    (h : (Peek R.r (R.header.variableRecordSize * R.header.variableCount)).2.1 = none) :
    1 ≤ padding R.header.variableCount R.header.variableRecordSize ∧
      padding R.header.variableCount R.header.variableRecordSize ≤ 80 ∧
      (padding R.header.variableCount R.header.variableRecordSize = 80 ↔
        Int.tmod (R.header.variableCount * R.header.variableRecordSize) 80 = 0) := by
  have h0 : 0 ≤ R.header.variableCount * R.header.variableRecordSize := by
    by_contra hc
    have hneg : R.header.variableRecordSize * R.header.variableCount < 0 := by
      rw [mul_comm]; omega
    rw [Peek_neg _ _ hneg] at h
    simp at h
  have t1 := Int.tmod_nonneg (80 : Int) h0
  have t2 := Int.tmod_lt_of_pos (R.header.variableCount * R.header.variableRecordSize)
    (by norm_num : (0 : Int) < 80)
  unfold padding
  omega

/-- C15, instance: count 12 and size 140 with 1680 bytes left, padding 80. -/
theorem padding_range_witness :
    1 ≤ padding 12 140 ∧ padding 12 140 ≤ 80 ∧
      (padding 12 140 = 80 ↔ Int.tmod (12 * 140) 80 = 0) :=
  padding_range
    { r := NewReader (List.replicate 1680 32),
      header := { variableCount := 12, variableRecordSize := 140 } }
    (by decide!)

/-- The expression of the padding on a negative product, which `readVariables`
never evaluates: Go's remainder is negative and the result exceeds 80. -/
theorem padding_negative_product : padding (-1) 1 = 81 := by decide

/-- C16. A name that is the `Name` of no variable gets the error
`variable does not exist: <name>` (with the empty string); a name that matches a
variable never gets this error. -/
theorem GetDataForVariable_unknown (reader : Reader) (record varName : List Byte) :
    ((∀ v ∈ reader.Variables, v.Name ≠ varName) →
      GetDataForVariable reader record varName =
        .error (.errorString (ascii "variable does not exist: " ++ varName))) ∧
    ((∃ v ∈ reader.Variables, v.Name = varName) →
      GetDataForVariable reader record varName ≠
        .error (.errorString (ascii "variable does not exist: " ++ varName))) := by
  constructor
  · intro h
    unfold GetDataForVariable
    rw [getVariable_eq_none reader varName h]
  · intro h
    obtain ⟨v, hv⟩ := getVariable_isSome reader varName h
    unfold GetDataForVariable
    rw [hv]
    dsimp only
    intro he
    split at he
    · simp only [Res.error.injEq, GoError.errorString.injEq] at he
      exact out_of_bounds_text_ne varName he
    · split at he
      · simp at he
      · split at he
        · split at he <;> simp at he
        · simp at he

/-- C16, instances: with the single variable `X`, the name `Y` is unknown and the
name `X` is not. -/
theorem GetDataForVariable_unknown_witness :
    GetDataForVariable
        { r := NewReader [], recordLength := 2,
          Variables := [{ Name := ascii "X", isNumeric := false, position := 0, length := 2,
                          number := 1, label := [] }] }
        [65, 66] (ascii "Y") =
      .error (.errorString (ascii "variable does not exist: " ++ ascii "Y")) ∧
    GetDataForVariable
        { r := NewReader [], recordLength := 2,
          Variables := [{ Name := ascii "X", isNumeric := false, position := 0, length := 2,
                          number := 1, label := [] }] }
        [65, 66] (ascii "X") ≠
      .error (.errorString (ascii "variable does not exist: " ++ ascii "X")) :=
  ⟨(GetDataForVariable_unknown _ _ _).1 (by decide!),
   (GetDataForVariable_unknown _ _ _).2 (by decide!)⟩

/-- C17. For a record of the reader's width and a character variable found by
name whose `position + length` is within the width, `GetDataForVariable` returns
the record bytes from `position` to `position + length`, as they are, and no
error. -/
theorem GetDataForVariable_character (reader : Reader) (record varName : List Byte)
    (v : Variable) (hfound : getVariable reader varName = some v)
    (hchar : v.isNumeric = false) (hw : reader.recordLength < 2 ^ 16)
    (hrec : record.length = reader.recordLength)
    (hin : v.position + v.length ≤ reader.recordLength) :
    GetDataForVariable reader record varName =
      .ok ((record.take (v.position + v.length)).drop v.position) := by
  have hmod : (v.position + v.length) % 2 ^ 16 = v.position + v.length :=
    Nat.mod_eq_of_lt (by omega)
  unfold GetDataForVariable
  rw [hfound]
  dsimp only
  rw [hmod, if_neg (by omega), slice_eq_some record _ _ (by omega) (by omega)]
  dsimp only
  rw [hchar]
  rfl

/-- C17, instance: bytes 1 to 2 of a 4-byte record, a trailing blank kept. -/
theorem GetDataForVariable_character_witness :
    GetDataForVariable
        { r := NewReader [], recordLength := 4,
          Variables := [{ Name := ascii "X", isNumeric := false, position := 1, length := 2,
                          number := 1, label := [] }] }
        [65, 66, 32, 67] (ascii "X") =
      .ok ((([65, 66, 32, 67] : List Byte).take (1 + 2)).drop 1) ∧
    ((([65, 66, 32, 67] : List Byte).take (1 + 2)).drop 1) = [66, 32] :=
  ⟨GetDataForVariable_character
      { r := NewReader [], recordLength := 4,
        Variables := [{ Name := ascii "X", isNumeric := false, position := 1, length := 2,
                        number := 1, label := [] }] }
      [65, 66, 32, 67] (ascii "X")
      { Name := ascii "X", isNumeric := false, position := 1, length := 2, number := 1,
        label := [] }
      (by decide!) rfl (by decide) rfl (by decide), by decide⟩

/-- C19 (the code differs). A file with a numeric variable of length 4 at
position 0 and a 4-byte observation: `position + length` is 4, the record width;
the 4-byte slice is handed to `IbmToIEEE`, whose read of eight bytes panics. -/
theorem GetDataForVariable_numeric_short :
    (NewXptReader (NewReader numeric4Input)).toOption.map
        (fun rd => (rd.Variables.map (fun v => (v.isNumeric, v.position, v.length)),
          rd.recordLength)) = some ([(true, 0, 4)], 4) ∧
    (NewXptReader (NewReader numeric4Input)).toOption.map (fun rd => rd.Read.1) =
      some (some { raw := [0x41, 0x10, 0, 0] }) ∧
    (NewXptReader (NewReader numeric4Input)).toOption.map
        (fun rd => GetDataForVariable rd [0x41, 0x10, 0, 0] (ascii "N")) = some .panic := by
  decide!

/-- C20 (the code differs). With a descriptor size of 80 and one variable, the
slice `currentVar[86:88]` is out of range and `NewXptReader` panics; with a
descriptor size of -1 and no variable, `make([]byte, -1)` panics. -/
theorem NewXptReader_panics :
    NewXptReader (NewReader shortDescriptorInput) = .panic ∧
      NewXptReader (NewReader negativeSizeInput) = .panic := by
  decide!

/-! ## The variable directory -/

/-- C14, as stated, fails: with count field `-001` and size field `0000` the
input is accepted, `variableCount` is -1 and `Variables` is empty. -/
theorem Variables_count_negative :
    (NewXptReader (NewReader negativeCountInput)).toOption.map
      (fun rd => (rd.header.variableCount, rd.Variables.length)) = some (-1, 0) := by
  decide!

/-- C14, amended. For every input on which `NewXptReader` succeeds, `Variables`
has `variableCount` entries (none when that number is negative), in declaration
order, and entry `i` is the decoding of block `i` of the directory, the
`variableRecordSize` bytes from offset `640 + i * variableRecordSize`. -/
theorem Variables_decoded (b : BufReader) (rd : Reader) (hwf : b.wf)
    (h : NewXptReader b = .ok rd) :
    rd.Variables.length = rd.header.variableCount.toNat ∧
    ∀ i, i < rd.header.variableCount.toNat →
      rd.Variables[i]? = some (decodeVariable
        ((b.unread.drop (640 + i * rd.header.variableRecordSize.toNat)).take
          rd.header.variableRecordSize.toNat)) := by
  obtain ⟨-, -, -, -, -, -, hvars, -⟩ := NewXptReader_ok_input b rd hwf h
  rw [hvars]
  refine ⟨by simp, ?_⟩
  intro i hi
  rw [List.getElem?_map, List.getElem?_range hi]
  rfl

/-- C14, amended, instance: the file with the one descriptor `descriptorAt65535`,
read through `bufio.NewReader`. -/
theorem Variables_decoded_witness :
    position65535Reader.Variables.length = position65535Reader.header.variableCount.toNat ∧
    position65535Reader.Variables[0]? = some (decodeVariable
      (((NewReader position65535Input).unread.drop
          (640 + 0 * position65535Reader.header.variableRecordSize.toNat)).take
        position65535Reader.header.variableRecordSize.toNat)) :=
  ⟨(Variables_decoded (NewReader position65535Input) position65535Reader (by decide)
      (by decide!)).1,
   (Variables_decoded (NewReader position65535Input) position65535Reader (by decide)
      (by decide!)).2 0 (by decide)⟩

/-! ## Where the buffer holds the input

The claims C10, C11 and C12 fail on inputs that do not fit the buffer of the
reader.  The theorems of this section state what holds when they do. -/

/-- The text of the marker errors.  For header records 1, 4, 5 and 8, when the
buffer has room for the 640 bytes of the header: the first record that does not
contain its marker is reported with its 80 bytes.  For the observation block,
when the buffer holds the whole input. -/
theorem NewXptReader_marker_error (b : BufReader) (hwf : b.wf) (hsize : 640 ≤ b.size)
    (hlen : 640 ≤ b.unread.length) :
    (¬ XPT_LIBRARY_HEADER_RECORD <:+: headerRecord b.unread 1 →
      NewXptReader b =
        .error (.errorString (ascii "incorrect header record format: " ++
          (ascii "expected to contain: '" ++ XPT_LIBRARY_HEADER_RECORD ++
            ascii "' but got: '" ++ headerRecord b.unread 1 ++ ascii "'")))) ∧
    (XPT_LIBRARY_HEADER_RECORD <:+: headerRecord b.unread 1 →
      ascii "SAS" <:+: headerRecord b.unread 2 →
      ¬ MEMBER_HEADER_RECORD <:+: headerRecord b.unread 4 →
      NewXptReader b =
        .error (.errorString (ascii "incorrect header record format: " ++
          (ascii "expected to contain: '" ++ MEMBER_HEADER_RECORD ++
            ascii "' but got: '" ++ headerRecord b.unread 4 ++ ascii "'")))) ∧
    (XPT_LIBRARY_HEADER_RECORD <:+: headerRecord b.unread 1 →
      ascii "SAS" <:+: headerRecord b.unread 2 →
      MEMBER_HEADER_RECORD <:+: headerRecord b.unread 4 →
      (∃ sz, Atoi (sub (headerRecord b.unread 4) 74 78) = .ok sz) →
      ¬ DSCRPTR_HEADER_RECORD <:+: headerRecord b.unread 5 →
      NewXptReader b =
        .error (.errorString (ascii "incorrect header record format: " ++
          (ascii "expected to contain: '" ++ DSCRPTR_HEADER_RECORD ++
            ascii "' but got: '" ++ headerRecord b.unread 5 ++ ascii "'")))) ∧
    (XPT_LIBRARY_HEADER_RECORD <:+: headerRecord b.unread 1 →
      ascii "SAS" <:+: headerRecord b.unread 2 →
      MEMBER_HEADER_RECORD <:+: headerRecord b.unread 4 →
      (∃ sz, Atoi (sub (headerRecord b.unread 4) 74 78) = .ok sz) →
      DSCRPTR_HEADER_RECORD <:+: headerRecord b.unread 5 →
      ¬ NAME_STR_HEADER <:+: headerRecord b.unread 8 →
      NewXptReader b =
        .error (.errorString (ascii "incorrect header record format: " ++
          (ascii "expected to contain: '" ++ NAME_STR_HEADER ++
            ascii "' but got: '" ++ headerRecord b.unread 8 ++ ascii "'")))) ∧
    (XPT_LIBRARY_HEADER_RECORD <:+: headerRecord b.unread 1 →
      ascii "SAS" <:+: headerRecord b.unread 2 →
      MEMBER_HEADER_RECORD <:+: headerRecord b.unread 4 →
      DSCRPTR_HEADER_RECORD <:+: headerRecord b.unread 5 →
      NAME_STR_HEADER <:+: headerRecord b.unread 8 →
      ∀ (sz cnt : Int),
      Atoi (sub (headerRecord b.unread 4) 74 78) = .ok sz →
      Atoi (sub (headerRecord b.unread 8) 54 58) = .ok cnt →
      0 ≤ sz → 0 ≤ sz * cnt → (0 < cnt → 88 ≤ sz) → b.holdsInput →
      640 + ((sz * cnt).toNat + (80 - (sz * cnt).toNat % 80) + 80) ≤ b.unread.length →
      ¬ OBS_HEADER <:+:
        (b.unread.drop (640 + ((sz * cnt).toNat + (80 - (sz * cnt).toNat % 80)))).take 80 →
      NewXptReader b =
        .error (.errorString (ascii "expected to contain: '" ++ OBS_HEADER ++
          ascii "' but got: '" ++
          (b.unread.drop (640 + ((sz * cnt).toNat + (80 - (sz * cnt).toNat % 80)))).take 80 ++
          ascii "'"))) := by
  obtain ⟨bs, rb, rd, e, hh, hrest, hbs, hwr, hhold⟩ := readHeader_eq_lines b hwf hsize hlen
  have hl : ∀ k, 0 < k → k ≤ 8 → (headerRecord b.unread k).length = 80 := fun k hk hk8 =>
    headerRecord_length b.unread k (by omega) hk
  have hb := readHeaderLines_blocks bs _ _ _ _ _ _ _ _ rb rd e
    (hl 1 (by omega) (by omega)) (hl 2 (by omega) (by omega)) (hl 3 (by omega) (by omega))
    (hl 4 (by omega) (by omega)) (hl 5 (by omega) (by omega)) (hl 6 (by omega) (by omega))
    (hl 7 (by omega) (by omega)) (hl 8 (by omega) (by omega))
  rw [hb] at hh
  refine ⟨?_, ?_, ?_, ?_, ?_⟩
  · intro hn1
    rw [checkHeader_of_not _ _ hn1] at hh
    simp only [NewXptReader, hh, errorfV]
  · intro c1 c2 hn4
    rw [(checkHeader_eq_none _ _).mpr c1, checkHeader_of_not _ _ hn4] at hh
    simp only [(bytesContains_iff _ _).mpr c2] at hh
    simp only [NewXptReader, hh, errorfV]
    rfl
  · rintro c1 c2 c4 ⟨sz, hsz⟩ hn5
    rw [(checkHeader_eq_none _ _).mpr c1, (checkHeader_eq_none _ _).mpr c4,
      checkHeader_of_not _ _ hn5] at hh
    simp only [(bytesContains_iff _ _).mpr c2, hsz] at hh
    simp only [NewXptReader, hh, errorfV]
    rfl
  · rintro c1 c2 c4 ⟨sz, hsz⟩ c5 hn8
    rw [(checkHeader_eq_none _ _).mpr c1, (checkHeader_eq_none _ _).mpr c4,
      (checkHeader_eq_none _ _).mpr c5, checkHeader_of_not _ _ hn8] at hh
    simp only [(bytesContains_iff _ _).mpr c2, hsz] at hh
    simp only [NewXptReader, hh, errorfV]
    rfl
  · intro c1 c2 c4 c5 c8 sz cnt hsz hcnt h0 hprod hpan hold hlen2 hno
    rw [(checkHeader_eq_none _ _).mpr c1, (checkHeader_eq_none _ _).mpr c4,
      (checkHeader_eq_none _ _).mpr c5, (checkHeader_eq_none _ _).mpr c8] at hh
    simp only [(bytesContains_iff _ _).mpr c2, hsz, hcnt, Bool.not_true, Bool.false_eq_true,
      if_false] at hh
    have hU : (⟨bs, rb, rd, e⟩ : BufReader).unread = b.unread.drop 640 := hrest
    obtain ⟨rd2, hrv, -, -, -⟩ := readVariables_blocks
      ({ r := ⟨bs, rb, rd, e⟩,
         header :=
           { sasVer := sub (headerRecord b.unread 2) 24 32,
             sasOs := sub (headerRecord b.unread 2) 32 40,
             created := sub (headerRecord b.unread 2) 74 (headerRecord b.unread 2).length,
             modified := TrimSpace (sub (headerRecord b.unread 7) 0 17),
             dataset := TrimSpace (sub (headerRecord b.unread 6) 8 16),
             variableRecordSize := sz, variableCount := cnt } } : Reader)
      hwr (hhold hold) h0 hprod hpan
      (by
        show (sz * cnt).toNat ≤ bs
        have := hold.1
        omega)
      (by
        show (sz * cnt).toNat + (80 - (sz * cnt).toNat % 80) + 80 ≤
          (⟨bs, rb, rd, e⟩ : BufReader).unread.length
        rw [hU, List.length_drop]
        omega)
    dsimp only at hrv
    rw [hU, List.drop_drop, checkHeader_of_not _ _ hno] at hrv
    simp only [NewXptReader, hh, hrv]

/-- The corrupted records of `TestReadInvalidHeader`, read through
`bufio.NewReader`: the error shows the corrupted record. -/
theorem NewXptReader_marker_error_tests :
    NewXptReader (NewReader (headerRecordsWith MEM_HEADER badNamestrHeader)) =
      .error (.errorString (ascii "incorrect header record format: " ++
          (ascii "expected to contain: '" ++ NAME_STR_HEADER ++
            ascii "' but got: '" ++ badNamestrHeader ++ ascii "'"))) ∧
    NewXptReader (NewReader (headerRecords1to7 ++ NAMESTR_HEADER ++ List.replicate 1760 32 ++
        badObserHeader)) =
      .error (.errorString (ascii "expected to contain: '" ++ OBS_HEADER ++
            ascii "' but got: '" ++ badObserHeader ++ ascii "'")) := by decide!

/-- The look-ahead failures.  A stream of `n < 640` bytes, in a buffer that has
room for 640: the error is `read n out of 640 bytes of library header` and nothing
is consumed.  After a valid header, a directory that fits the buffer and is not
there in full: the error gives the bytes available and the bytes required, nothing
is consumed and no variable is parsed. -/
theorem NewXptReader_insufficient_data (b : BufReader) (hwf : b.wf) (hsize : 640 ≤ b.size) :
    (b.unread.length < 640 →
      NewXptReader b = .error (.errorString
        (ascii "incorrect header record format: read " ++ decimal b.unread.length ++
          ascii " out of 640 bytes of library header")) ∧
      (readHeader { r := b }).1.r.unread = b.unread) ∧
    (640 ≤ b.unread.length →
      XPT_LIBRARY_HEADER_RECORD <:+: headerRecord b.unread 1 →
      ascii "SAS" <:+: headerRecord b.unread 2 →
      MEMBER_HEADER_RECORD <:+: headerRecord b.unread 4 →
      DSCRPTR_HEADER_RECORD <:+: headerRecord b.unread 5 →
      NAME_STR_HEADER <:+: headerRecord b.unread 8 →
      ∀ sz cnt : Int,
      Atoi (sub (headerRecord b.unread 4) 74 78) = .ok sz →
      Atoi (sub (headerRecord b.unread 8) 54 58) = .ok cnt →
      (sz * cnt).toNat ≤ b.size → ((b.unread.length - 640 : Nat) : Int) < sz * cnt →
      NewXptReader b =
        .error (.errorString (ascii "Incomplete or empty variable record " ++
          decimal (b.unread.length - 640) ++ ascii " out of " ++ itoa (sz * cnt) ++
          ascii " bytes")) ∧
      ∃ R R2 : Reader, readHeader { r := b } = (R, none) ∧
        readVariables R = some (R2, some (.errorString
          (ascii "Incomplete or empty variable record " ++ decimal (b.unread.length - 640) ++
            ascii " out of " ++ itoa (sz * cnt) ++ ascii " bytes"))) ∧
        R2.r.unread = R.r.unread ∧ R2.Variables = []) := by
  constructor
  · intro hlt
    obtain ⟨b2, hp, hu, -⟩ := Peek_short b 640 hwf hsize hlt
    have hp' : Peek b ((recordLength * 8 : Nat) : Int) = (b.unread, some .EOF, b2) := hp
    have hs := readHeader_Peek_error b b2 _ _ hp'
    have e1 : ascii "incorrect header record format: read " =
        ascii "incorrect header record format: " ++ ascii "read " := by decide!
    have e2 : ascii " out of 640 bytes of library header" =
        ascii " out of " ++ decimal (recordLength * 8) ++ ascii " bytes of library header" := by
      decide!
    refine ⟨?_, by rw [hs]; exact hu⟩
    simp only [NewXptReader, hs, errorfV, e1, e2, List.append_assoc]
  · intro hlen c1 c2 c4 c5 c8 sz cnt a4 a8 hfit hlt
    obtain ⟨bs, rb, rd, e, hh, hrest, hbs, hwr, hhold⟩ := readHeader_eq_lines b hwf hsize hlen
    have hl : ∀ k, 0 < k → k ≤ 8 → (headerRecord b.unread k).length = 80 := fun k hk hk8 =>
      headerRecord_length b.unread k (by omega) hk
    have hb := readHeaderLines_blocks bs _ _ _ _ _ _ _ _ rb rd e
      (hl 1 (by omega) (by omega)) (hl 2 (by omega) (by omega)) (hl 3 (by omega) (by omega))
      (hl 4 (by omega) (by omega)) (hl 5 (by omega) (by omega)) (hl 6 (by omega) (by omega))
      (hl 7 (by omega) (by omega)) (hl 8 (by omega) (by omega))
    rw [hb, (checkHeader_eq_none _ _).mpr c1, (checkHeader_eq_none _ _).mpr c4,
      (checkHeader_eq_none _ _).mpr c5, (checkHeader_eq_none _ _).mpr c8] at hh
    simp only [(bytesContains_iff _ _).mpr c2, a4, a8, Bool.not_true, Bool.false_eq_true,
      if_false] at hh
    have hU : (⟨bs, rb, rd, e⟩ : BufReader).unread = b.unread.drop 640 := hrest
    have hpos : 0 ≤ sz * cnt := by omega
    obtain ⟨b2, hp, hu2, -⟩ := Peek_short ⟨bs, rb, rd, e⟩ (sz * cnt).toNat hwr
      (by show (sz * cnt).toNat ≤ bs; omega)
      (by rw [hU, List.length_drop]; omega)
    rw [Int.toNat_of_nonneg hpos, hU] at hp
    have hv : readVariables
        ({ r := ⟨bs, rb, rd, e⟩,
           header :=
             { sasVer := sub (headerRecord b.unread 2) 24 32,
               sasOs := sub (headerRecord b.unread 2) 32 40,
               created := sub (headerRecord b.unread 2) 74 (headerRecord b.unread 2).length,
               modified := TrimSpace (sub (headerRecord b.unread 7) 0 17),
               dataset := TrimSpace (sub (headerRecord b.unread 6) 8 16),
               variableRecordSize := sz, variableCount := cnt } } : Reader) =
        some (({ r := b2,
                 header :=
                   { sasVer := sub (headerRecord b.unread 2) 24 32,
                     sasOs := sub (headerRecord b.unread 2) 32 40,
                     created := sub (headerRecord b.unread 2) 74 (headerRecord b.unread 2).length,
                     modified := TrimSpace (sub (headerRecord b.unread 7) 0 17),
                     dataset := TrimSpace (sub (headerRecord b.unread 6) 8 16),
                     variableRecordSize := sz, variableCount := cnt } } : Reader),
          some (.errorString (ascii "Incomplete or empty variable record " ++
            decimal (b.unread.length - 640) ++ ascii " out of " ++ itoa (sz * cnt) ++
            ascii " bytes"))) := by
      unfold readVariables
      dsimp only
      rw [hp]
      dsimp only
      rw [List.length_drop]
    refine ⟨?_, _, _, hh, hv, hu2, rfl⟩
    simp only [NewXptReader, hh, hv]

/-- The two look-ahead failures of `TestReadInvalidHeader`, read through
`bufio.NewReader`: the 4-byte input and the header without directory. -/
theorem NewXptReader_insufficient_data_tests :
    NewXptReader (NewReader testInput) = .error (.errorString
      (ascii "incorrect header record format: read 4 out of 640 bytes of library header")) ∧
    NewXptReader (NewReader headerOnlyInput) = .error (.errorString
        (ascii "Incomplete or empty variable record 0 out of 1680 bytes")) := by decide!

/-- The look-ahead of `readVariables` beyond the buffer: after a valid header,
a directory larger than the buffer of the reader is reported incomplete, whatever
follows the header. -/
theorem NewXptReader_directory_beyond_buffer (b : BufReader) (hwf : b.wf)
    (hsize : 640 ≤ b.size) (hlen : 640 ≤ b.unread.length)
    (c1 : XPT_LIBRARY_HEADER_RECORD <:+: headerRecord b.unread 1)
    (c2 : ascii "SAS" <:+: headerRecord b.unread 2)
    (c4 : MEMBER_HEADER_RECORD <:+: headerRecord b.unread 4)
    (c5 : DSCRPTR_HEADER_RECORD <:+: headerRecord b.unread 5)
    (c8 : NAME_STR_HEADER <:+: headerRecord b.unread 8)
    (sz cnt : Int)
    (a4 : Atoi (sub (headerRecord b.unread 4) 74 78) = .ok sz)
    (a8 : Atoi (sub (headerRecord b.unread 8) 54 58) = .ok cnt)
    (hbig : (b.size : Int) < sz * cnt) :
    ∃ k, NewXptReader b =
      .error (.errorString (ascii "Incomplete or empty variable record " ++ decimal k ++
        ascii " out of " ++ itoa (sz * cnt) ++ ascii " bytes")) := by
  obtain ⟨bs, rb, rd, e, hh, hrest, hbs, hwr, hhold⟩ := readHeader_eq_lines b hwf hsize hlen
  have hl : ∀ k, 0 < k → k ≤ 8 → (headerRecord b.unread k).length = 80 := fun k hk hk8 =>
    headerRecord_length b.unread k (by omega) hk
  have hb := readHeaderLines_blocks bs _ _ _ _ _ _ _ _ rb rd e
    (hl 1 (by omega) (by omega)) (hl 2 (by omega) (by omega)) (hl 3 (by omega) (by omega))
    (hl 4 (by omega) (by omega)) (hl 5 (by omega) (by omega)) (hl 6 (by omega) (by omega))
    (hl 7 (by omega) (by omega)) (hl 8 (by omega) (by omega))
  rw [hb, (checkHeader_eq_none _ _).mpr c1, (checkHeader_eq_none _ _).mpr c4,
    (checkHeader_eq_none _ _).mpr c5, (checkHeader_eq_none _ _).mpr c8] at hh
  simp only [(bytesContains_iff _ _).mpr c2, a4, a8, Bool.not_true, Bool.false_eq_true,
    if_false] at hh
  have hpos : 0 ≤ sz * cnt := by omega
  have hfull := Peek_buffer_full ⟨bs, rb, rd, e⟩ (sz * cnt).toNat
    (by show bs < (sz * cnt).toNat; omega)
  rw [Int.toNat_of_nonneg hpos] at hfull
  rcases hp : Peek ⟨bs, rb, rd, e⟩ (sz * cnt) with ⟨bytes, eo, b2⟩
  rw [hp] at hfull
  dsimp only at hfull
  subst hfull
  refine ⟨bytes.length, ?_⟩
  simp only [NewXptReader, hh, readVariables, hp]

theorem infix_of_isPrefixOf (m l : List Byte) (h : m.isPrefixOf l = true) : m <:+: l :=
  (List.isPrefixOf_iff_prefix.mp h).isInfix

/-- A well-formed input that the buffer can hold is accepted, and the stream is
left on the first byte after the observation block. -/
theorem NewXptReader_well_formed (b : BufReader) (hwf : b.wf) (hold : b.holdsInput)
    (hw : wellFormed b.unread = true) :
    ∃ rd, NewXptReader b = .ok rd ∧
      rd.r.unread = b.unread.drop (640 +
        (decimalValue (sub (headerRecord b.unread 8) 54 58) *
            decimalValue (sub (headerRecord b.unread 4) 74 78) +
          (80 - (decimalValue (sub (headerRecord b.unread 8) 54 58) *
            decimalValue (sub (headerRecord b.unread 4) 74 78)) % 80) + 80)) ∧
      rd.header.variableCount = (decimalValue (sub (headerRecord b.unread 8) 54 58) : Int) ∧
      rd.header.variableRecordSize =
        (decimalValue (sub (headerRecord b.unread 4) 74 78) : Int) ∧
      rd.Variables.length = decimalValue (sub (headerRecord b.unread 8) 54 58) := by
  simp only [wellFormed, Bool.and_eq_true, decide_eq_true_eq, List.all_eq_true] at hw
  obtain ⟨⟨⟨⟨⟨⟨⟨⟨⟨m1, m2⟩, m4⟩, m5⟩, m8⟩, d4⟩, d8⟩, hsz⟩, hlen2⟩, mo⟩ := hw
  have hlen : 640 ≤ b.unread.length := by omega
  have hsize : 640 ≤ b.size := by
    have := hold.1
    omega
  have hl : ∀ k, 0 < k → k ≤ 8 → (headerRecord b.unread k).length = 80 := fun k hk hk8 =>
    headerRecord_length b.unread k (by omega) hk
  have n4 : sub (headerRecord b.unread 4) 74 78 ≠ [] := by
    intro hn
    have := sub_length (headerRecord b.unread 4) 74 78 (by rw [hl 4 (by omega) (by omega)]; omega)
    rw [hn] at this
    simp at this
  have n8 : sub (headerRecord b.unread 8) 54 58 ≠ [] := by
    intro hn
    have := sub_length (headerRecord b.unread 8) 54 58 (by rw [hl 8 (by omega) (by omega)]; omega)
    rw [hn] at this
    simp at this
  have a4 := Atoi_digits _ n4 d4
  have a8 := Atoi_digits _ n8 d8
  generalize hS : decimalValue (sub (headerRecord b.unread 4) 74 78) = S at *
  generalize hC : decimalValue (sub (headerRecord b.unread 8) 54 58) = C at *
  obtain ⟨bs, rb, rd, e, hh, hrest, hbs, hwr, hhold⟩ := readHeader_eq_lines b hwf hsize hlen
  have hb := readHeaderLines_blocks bs _ _ _ _ _ _ _ _ rb rd e
    (hl 1 (by omega) (by omega)) (hl 2 (by omega) (by omega)) (hl 3 (by omega) (by omega))
    (hl 4 (by omega) (by omega)) (hl 5 (by omega) (by omega)) (hl 6 (by omega) (by omega))
    (hl 7 (by omega) (by omega)) (hl 8 (by omega) (by omega))
  rw [hb, (checkHeader_eq_none _ _).mpr (infix_of_isPrefixOf _ _ m1),
    (checkHeader_eq_none _ _).mpr (infix_of_isPrefixOf _ _ m4),
    (checkHeader_eq_none _ _).mpr (infix_of_isPrefixOf _ _ m5),
    (checkHeader_eq_none _ _).mpr (infix_of_isPrefixOf _ _ m8)] at hh
  simp only [m2, a4, a8, Bool.not_true, Bool.false_eq_true, if_false] at hh
  have hU : (⟨bs, rb, rd, e⟩ : BufReader).unread = b.unread.drop 640 := hrest
  have hD : ((S : Int) * (C : Int)).toNat = C * S := by
    rw [← Nat.cast_mul, Int.toNat_ofNat, Nat.mul_comm]
  obtain ⟨rd2, hrv, r1, r2, r3⟩ := readVariables_blocks
    ({ r := ⟨bs, rb, rd, e⟩,
       header :=
         { sasVer := sub (headerRecord b.unread 2) 24 32,
           sasOs := sub (headerRecord b.unread 2) 32 40,
           created := sub (headerRecord b.unread 2) 74 (headerRecord b.unread 2).length,
           modified := TrimSpace (sub (headerRecord b.unread 7) 0 17),
           dataset := TrimSpace (sub (headerRecord b.unread 6) 8 16),
           variableRecordSize := (S : Int), variableCount := (C : Int) } } : Reader)
    hwr (hhold hold) (Int.ofNat_zero_le _) (by positivity)
    (fun _ => by
      show (88 : Int) ≤ (S : Int)
      exact_mod_cast hsz)
    (by
      show ((S : Int) * (C : Int)).toNat ≤ bs
      have := hold.1
      rw [hD]
      omega)
    (by
      show ((S : Int) * (C : Int)).toNat + (80 - ((S : Int) * (C : Int)).toNat % 80) + 80 ≤
        (⟨bs, rb, rd, e⟩ : BufReader).unread.length
      rw [hU, List.length_drop, hD]
      omega)
  dsimp only at hrv r1 r2 r3
  rw [Nat.add_assoc] at mo
  rw [hU, List.drop_drop, hD,
    (checkHeader_eq_none _ _).mpr (infix_of_isPrefixOf _ _ mo)] at hrv
  rw [hU, List.drop_drop, hD] at r1
  refine ⟨rd2, ?_, ?_, by rw [r2], by rw [r2], ?_⟩
  · simp only [NewXptReader, hh, hrv]
  · rw [r1]
  · rw [r3]
    exact Int.toNat_ofNat _

/-- The input of `TestReadValidHeader`, read through `bufio.NewReader`: 12
descriptors of 140 bytes, 80 bytes of padding; the stream is left at its end. -/
theorem NewXptReader_well_formed_test :
    (NewReader validInput).wf ∧ (NewReader validInput).holdsInput ∧
    wellFormed (NewReader validInput).unread = true ∧
    (NewXptReader (NewReader validInput)).toOption.map
      (fun rd => (rd.r.unread, rd.header.variableCount, rd.header.variableRecordSize,
        rd.Variables.length)) = some ([], 12, 140, 12) := by decide!

/-- Why the place of the observation block is not fixed: in this file of 4880
bytes the marker stands in the padding and the 80 bytes after the padding do not
contain it; the padding read hands over 16 bytes and the file is accepted. -/
theorem NewXptReader_marker_in_padding :
    (NewXptReader (NewReader markerInPaddingInput)).toOption.isSome = true ∧
    bytesContains ((markerInPaddingInput.drop (640 + 30 * 136 + 80)).take 80) OBS_HEADER =
      false := by decide!

end Xpt
